import Mathlib

/-!
LMS_SA: leave duration, balance ledger and approval workflow.

A shallow embedding of the leave-management backends `src/server.js` (Express + SQLite)
and `src/worker.js` (Cloudflare Workers + D1).

Modelling conventions.

* A JavaScript number is a `JsNum`: `nan` or a finite value held as an exact rational.
  Arithmetic is exact; the handlers only ever produce clock minutes, quotients of them by
  the constants 60 and 9.25, and roundings to three decimals, where exact arithmetic and
  IEEE doubles agree for clock values of ordinary size. Infinities are not modelled.
* A request field that may be `undefined` is an `Option String`; fields are strings, as a
  multipart form delivers them.
* A numeric SQL column is a `SqlNum`: `none` is `NULL`. A `NaN` bound to a column is stored
  as `NULL`, and a `NULL` read back is JavaScript `null`, which arithmetic converts to `0`.
* A `Date` is its time value in milliseconds since the epoch, `none` for an invalid date.
  The date part is parsed in the ECMAScript format `YYYY-MM-DD`; other spellings are
  invalid dates. The Node host's local zone is a constant offset `tz` (milliseconds) from
  UTC, with no daylight-saving transitions; the Workers runtime's local zone is UTC.
* A handler is a function from the store to a response and the next store.
* The `sessions` table of worker.js is a list of `Session` rows passed next to the store;
  `jwt.verify` of server.js is a parameter `verify` giving the payload or `none` when it throws.
* `String(x)` of a number is its decimal rendering, exact for the short decimals the store
  holds.
-/

namespace LMS

/-! ## JavaScript numbers -/

/-- A JavaScript number: not-a-number, or a finite value. -/
inductive JsNum where
  | nan : JsNum
  | fin (q : ℚ) : JsNum
  deriving DecidableEq

namespace JsNum

/-- JavaScript `a + b`. -/
def add : JsNum → JsNum → JsNum
  | fin a, fin b => fin (a + b)
  | _, _ => nan

/-- JavaScript `a - b`. -/
def sub : JsNum → JsNum → JsNum
  | fin a, fin b => fin (a - b)
  | _, _ => nan

/-- JavaScript `a * b`. -/
def mul : JsNum → JsNum → JsNum
  | fin a, fin b => fin (a * b)
  | _, _ => nan

/-- JavaScript `a / b`; the handlers divide only by the non-zero constants 60 and 9.25,
and a zero divisor (an infinity or `NaN` in JavaScript) is given as `nan` here. -/
def div : JsNum → JsNum → JsNum
  | fin a, fin b => if b = 0 then nan else fin (a / b)
  | _, _ => nan

/-- JavaScript `a < b`: false when either side is `NaN`. -/
def lt : JsNum → JsNum → Bool
  | fin a, fin b => decide (a < b)
  | _, _ => false

/-- JavaScript `a > b`: false when either side is `NaN`. -/
def gt (a b : JsNum) : Bool := lt b a

/-- The value of `+(x).toFixed(3)`: `x` rounded to three decimals, a tie going to the
larger magnitude (`toFixed` rounds the absolute value and picks the larger `n` on a tie);
`NaN` stays `NaN`. -/
def toFixed3 : JsNum → JsNum
  | nan => nan
  | fin q =>
    if q < 0 then fin (-((⌊(-q) * 1000 + 1 / 2⌋ : ℤ) : ℚ) / 1000)
    else fin (((⌊q * 1000 + 1 / 2⌋ : ℤ) : ℚ) / 1000)

end JsNum

/-- A number is non-negative when it is finite (`NaN` is not a negative number). -/
def JsNum.NonNeg (x : JsNum) : Prop := ∀ q, x = JsNum.fin q → 0 ≤ q

/-- A numeric SQL column value: `none` is `NULL`. -/
abbrev SqlNum := Option ℚ

/-- Binding a JavaScript number to a column: `NaN` is stored as `NULL`. -/
def JsNum.toSql : JsNum → SqlNum
  | JsNum.nan => none
  | JsNum.fin q => some q

/-- `ToNumber` of a column value read back into JavaScript: `null` converts to `0`. -/
def SqlNum.toJs (v : SqlNum) : JsNum := JsNum.fin (v.getD 0)

/-- SQL `a + b`: `NULL` if either operand is `NULL`. -/
def SqlNum.add (a b : SqlNum) : SqlNum :=
  match a, b with
  | some x, some y => some (x + y)
  | _, _ => none

/-! ## JavaScript strings -/

/-- JavaScript truthiness of an optional string: `undefined` and `''` are falsy. -/
def truthy (s : Option String) : Bool :=
  match s with
  | none => false
  | some v => v != ""

/-- The value of `s || ''`. -/
def orEmpty (s : Option String) : String :=
  if truthy s then s.getD "" else ""

/-- `toLowerCase`, on the ASCII letters (no other character lower-cases to a letter of the
tags `am`, `pm`, `full day`, `fullday`, `full` the result is compared with). -/
def toLowerCase (s : String) : String := String.mk (s.toList.map Char.toLower)

/-- Splitting a character list at every occurrence of `sep`. -/
def splitChars (sep : Char) : List Char → List (List Char)
  | [] => [[]]
  | c :: cs =>
    if c = sep then [] :: splitChars sep cs
    else
      match splitChars sep cs with
      | [] => [[c]]
      | p :: ps => (c :: p) :: ps

/-- The value of `s.split(sep)` for a one-character separator. -/
def split (s : String) (sep : Char) : List String :=
  (splitChars sep s.toList).map String.mk

/-- The white-space characters `parseInt` skips (ECMAScript `StrWhiteSpaceChar`). -/
def isStrWhiteSpaceChar (c : Char) : Bool :=
  c.toNat ∈ [0x09, 0x0A, 0x0B, 0x0C, 0x0D, 0x20, 0xA0, 0x1680, 0x2000, 0x2001, 0x2002,
    0x2003, 0x2004, 0x2005, 0x2006, 0x2007, 0x2008, 0x2009, 0x200A, 0x2028, 0x2029, 0x202F,
    0x205F, 0x3000, 0xFEFF]

/-- The value of a list of decimal digits, most significant first. -/
def digitsValue (ds : List Char) : Nat :=
  ds.foldl (fun acc c => acc * 10 + (c.toNat - '0'.toNat)) 0

/-- The value of `parseInt(s, 10)`: leading white space is skipped, a sign is read, then the
longest run of decimal digits; no digit gives `NaN`. -/
def parseInt (s : String) : JsNum :=
  let cs := s.toList.dropWhile isStrWhiteSpaceChar
  let signed : Bool × List Char :=
    match cs with
    | '-' :: r => (true, r)
    | '+' :: r => (false, r)
    | _ => (false, cs)
  let ds := signed.2.takeWhile Char.isDigit
  if ds.isEmpty then JsNum.nan
  else if signed.1 then JsNum.fin (-(digitsValue ds : ℚ))
  else JsNum.fin (digitsValue ds : ℚ)

/-! ## Dates (ECMAScript time values) -/

/-- Milliseconds in a day. -/
def msPerDay : Int := 86400000

/-- ECMAScript `Day(t)`: the day number of a time value. -/
def Day (t : Int) : Int := t / msPerDay

/-- ECMAScript `TimeWithinDay(t)`. -/
def TimeWithinDay (t : Int) : Int := t % msPerDay

/-- ECMAScript `WeekDay(t)`: 0 is Sunday, 6 is Saturday (day 0, 1970-01-01, is a Thursday). -/
def WeekDay (t : Int) : Int := (Day t + 4) % 7

/-- ECMAScript `MakeDate(day, time)`. -/
def MakeDate (day time : Int) : Int := day * msPerDay + time

/-- ECMAScript `DayFromYear(y)`: the day number of 1 January of year `y`. -/
def DayFromYear (y : Int) : Int :=
  365 * (y - 1970) + (y - 1969) / 4 - (y - 1901) / 100 + (y - 1601) / 400

/-- Whether year `y` is a leap year. -/
def InLeapYear (y : Int) : Bool :=
  (y % 4 == 0 && y % 100 != 0) || y % 400 == 0

/-- The number of days in month `m` (1 to 12) of year `y`. -/
def DaysInMonth (y m : Int) : Int :=
  if m = 2 then (if InLeapYear y then 29 else 28)
  else if m = 4 ∨ m = 6 ∨ m = 9 ∨ m = 11 then 30
  else 31

/-- The number of days of year `y` before month `m` (1 to 12). -/
def daysBeforeMonth (y m : Int) : Int :=
  ((List.range (m - 1).toNat).map (fun i => DaysInMonth y ((i : Int) + 1))).sum

/-- The day number of the calendar date `y`-`m`-`d` (ECMAScript `MakeDay`, months from 1). -/
def MakeDay (y m d : Int) : Int := DayFromYear y + daysBeforeMonth y m + d - 1

/-- The number written by a list of decimal digits. -/
def digitsInt (ds : List Char) : Int := (digitsValue ds : Int)

/-- The day number of a date string `YYYY-MM-DD` naming a calendar date; `none` for
any other string. -/
def parseIsoDate (s : String) : Option Int :=
  match s.toList with
  | [y1, y2, y3, y4, '-', m1, m2, '-', d1, d2] =>
    if [y1, y2, y3, y4, m1, m2, d1, d2].all Char.isDigit then
      let y := digitsInt [y1, y2, y3, y4]
      let m := digitsInt [m1, m2]
      let d := digitsInt [d1, d2]
      if 1 ≤ m ∧ m ≤ 12 ∧ 1 ≤ d ∧ d ≤ DaysInMonth y m then some (MakeDay y m d)
      else none
    else none
  | _ => none

/-- The time value of `new Date(str + 'T00:00:00')` on a host whose local time is `tz`
milliseconds ahead of UTC: a date-time without a zone designator is local time, so the
result is local midnight of the date; `none` is an invalid date. -/
def newDateMidnight (tz : Int) (str : String) : Option Int :=
  (parseIsoDate str).map (fun day => MakeDate day 0 - tz)

/-- Whether a day number falls on Monday to Friday. -/
def isBusinessDay (d : Int) : Prop := (d + 4) % 7 ≠ 0 ∧ (d + 4) % 7 ≠ 6

instance (d : Int) : Decidable (isBusinessDay d) := by
  unfold isBusinessDay; infer_instance

/-- The number of Monday-to-Friday dates `d` with `a ≤ d ≤ b`. -/
def weekdaysInRange (a b : Int) : Nat :=
  ((Finset.Icc a b).filter isBusinessDay).card

namespace Server

/-- `current.getDay()`: the week day in local time. -/
def getDay (tz t : Int) : Int := WeekDay (t + tz)

/-- The time value after `current.setDate(current.getDate() + 1)`: the local date moves one
day on and the local time within the day is kept. -/
def setDateNext (tz t : Int) : Int :=
  MakeDate (Day (t + tz) + 1) (TimeWithinDay (t + tz)) - tz

/-- The `while(current <= e)` loop of `daysBetween` (server.js lines 170-175). -/
def daysBetweenLoop (tz e current : Int) (count : Nat) : Nat :=
  if current ≤ e then
    let dayOfWeek := getDay tz current
    daysBetweenLoop tz e (setDateNext tz current)
      (if dayOfWeek ≠ 0 ∧ dayOfWeek ≠ 6 then count + 1 else count)
  else count
termination_by (e - current + 1).toNat
decreasing_by
  simp only [setDateNext, MakeDate, Day, TimeWithinDay, msPerDay]
  omega

/-- `daysBetween(startStr, endStr)` of server.js (lines 165-177); with an invalid date
`current <= e` is false at once and the count is 0. -/
def daysBetween (tz : Int) (startStr endStr : String) : Nat :=
  match newDateMidnight tz startStr, newDateMidnight tz endStr with
  | some s, some e => daysBetweenLoop tz e s 0
  | _, _ => 0

end Server

namespace Worker

/-- `current.getUTCDay()`. -/
def getUTCDay (t : Int) : Int := WeekDay t

/-- The time value after `current.setUTCDate(current.getUTCDate() + 1)`. -/
def setUTCDateNext (t : Int) : Int := MakeDate (Day t + 1) (TimeWithinDay t)

/-- The `while (current <= e)` loop of `daysBetween` (worker.js lines 243-247). -/
def daysBetweenLoop (e current : Int) (count : Nat) : Nat :=
  if current ≤ e then
    let dayOfWeek := getUTCDay current
    daysBetweenLoop e (setUTCDateNext current)
      (if dayOfWeek ≠ 0 ∧ dayOfWeek ≠ 6 then count + 1 else count)
  else count
termination_by (e - current + 1).toNat
decreasing_by
  simp only [setUTCDateNext, MakeDate, Day, TimeWithinDay, msPerDay]
  omega

/-- `daysBetween(startStr, endStr)` of worker.js (lines 238-249), in the Workers runtime,
whose local zone is UTC. -/
def daysBetween (startStr endStr : String) : Nat :=
  match newDateMidnight 0 startStr, newDateMidnight 0 endStr with
  | some s, some e => daysBetweenLoop e s 0
  | _, _ => 0

end Worker

/-! ## Store and requests -/

/-- A row of the `users` table (the columns the leave handlers read or write). -/
structure User where
  id : Nat
  name : String
  role : String
  allocation : SqlNum
  used : SqlNum
  deriving DecidableEq

/-- A row of the `leaves` table. -/
structure Leave where
  id : Nat
  user_id : Nat
  type : Option String
  start_date : String
  end_date : String
  start_time : String
  end_time : String
  time_frame : String
  reason : String
  attachment : Option String
  duration_days : SqlNum
  duration_hours : SqlNum
  status : String
  applied_at : String
  actioned_at : Option String
  action_by : Option Nat
  deriving DecidableEq

/-- The store: both tables and the `AUTOINCREMENT` counter of `leaves`. -/
structure Db where
  users : List User
  leaves : List Leave
  leaveSeq : Nat
  deriving DecidableEq

/-- The authenticated caller (`req.user` in server.js, `auth.user` in worker.js). -/
structure AuthUser where
  id : Nat
  role : String
  deriving DecidableEq

/-- The body of `POST /api/leaves`. -/
structure LeaveBody where
  type : Option String
  start_date : Option String
  end_date : Option String
  start_time : Option String
  end_time : Option String
  time_frame : Option String
  reason : Option String
  deriving DecidableEq

/-- A row of `SELECT l.*, u.name, u.role FROM leaves l JOIN users u`. -/
structure LeaveRow where
  leave : Leave
  name : String
  role : String
  deriving DecidableEq

/-- A handler's response. -/
inductive Response where
  | error (status : Nat) (error : String)
  | leaveRequested (leaveId : Nat)
  | actionRecorded
  | rows (rs : List LeaveRow)
  | profile (row : User)
  | csv (filename : String) (text : String)
  deriving DecidableEq

/-- A start and end clock time. -/
structure TimeRange where
  start : String
  end_ : String

/-- The table of default clock times. -/
structure Defaults where
  full : TimeRange
  am : TimeRange
  pm : TimeRange

/-- The durations computed for a request. -/
structure Duration where
  durationDays : JsNum
  durationHours : JsNum
  deriving DecidableEq

/-- The request variables after the time-frame defaults have been applied. -/
structure Frame where
  time_frame : String
  tf : String
  start_time : Option String
  end_time : Option String
  deriving DecidableEq

/-- `ToNumber` of a value that may be `null`: `null` converts to `0`. -/
def nullToNum : Option JsNum → JsNum
  | none => JsNum.fin 0
  | some x => x

/-- The value of `v || 0` for a column value: `null`, `0` and `NaN` give `0`. -/
def SqlNum.orZero (v : SqlNum) : JsNum :=
  match v with
  | none => JsNum.fin 0
  | some q => if q = 0 then JsNum.fin 0 else JsNum.fin q

/-- SQL `COALESCE(v, 0)`. -/
def SqlNum.coalesce0 (v : SqlNum) : SqlNum := some (v.getD 0)

/-- SQL `substr(s, 1, 4)`. -/
def substr4 (s : String) : String := String.mk (s.toList.take 4)

/-- Rows ordered by `applied_at`, latest first. -/
def orderByAppliedAtDesc (rs : List LeaveRow) : List LeaveRow :=
  rs.insertionSort (fun a b => b.leave.applied_at ≤ a.leave.applied_at)

/-- The rows of `leaves l JOIN users u ON l.user_id = u.id`. -/
def joinUsers (db : Db) : List LeaveRow :=
  db.leaves.flatMap (fun l =>
    (db.users.filter (fun u => l.user_id == u.id)).map (fun u => ⟨l, u.name, u.role⟩))

namespace Server

/-- The `DEFAULTS` table of server.js (line 184). -/
def DEFAULTS : Defaults :=
  { full := ⟨"08:45", "18:00"⟩, am := ⟨"08:45", "13:20"⟩, pm := ⟨"13:30", "18:00"⟩ }

/-- `minutesOf(hhmm)` of server.js (line 195): `null` (here `none`) when the string has no
colon, else `parseInt(parts[0],10)*60 + parseInt(parts[1],10)`. -/
def minutesOf (hhmm : Option String) : Option JsNum :=
  match split (orEmpty hhmm) ':' with
  | p0 :: p1 :: _ => some (((parseInt p0).mul (JsNum.fin 60)).add (parseInt p1))
  | _ => none

/-- `fullDayMinutes` of server.js (line 196). -/
def fullDayMinutes : JsNum :=
  (nullToNum (minutesOf (some DEFAULTS.full.end_))).sub
    (nullToNum (minutesOf (some DEFAULTS.full.start)))

/-- The time-frame default and the substitution of default clock times
(server.js lines 185-192). -/
def applyDefaults (start_time end_time time_frame : Option String) : Frame :=
  let time_frame : String := if !truthy time_frame then "Full Day" else time_frame.getD ""
  let tf := toLowerCase (orEmpty (some time_frame))
  if (!truthy start_time || !truthy end_time) &&
      (tf == "am" || tf == "pm" || tf == "full day" || tf == "fullday" || tf == "full") then
    if tf == "am" then ⟨time_frame, tf, some DEFAULTS.am.start, some DEFAULTS.am.end_⟩
    else if tf == "pm" then ⟨time_frame, tf, some DEFAULTS.pm.start, some DEFAULTS.pm.end_⟩
    else ⟨time_frame, tf, some DEFAULTS.full.start, some DEFAULTS.full.end_⟩
  else ⟨time_frame, tf, start_time, end_time⟩

/-- The value of `sm` (server.js line 203):
`minutesOf(start_time) ?? minutesOf(DEFAULTS.full.start)`. -/
def startMinutes (f : Frame) : Option JsNum :=
  (minutesOf f.start_time).orElse (fun _ => minutesOf (some DEFAULTS.full.start))

/-- The value of `em` (server.js line 204):
`minutesOf(end_time) ?? minutesOf(DEFAULTS.full.end)`. -/
def endMinutes (f : Frame) : Option JsNum :=
  (minutesOf f.end_time).orElse (fun _ => minutesOf (some DEFAULTS.full.end_))

/-- The duration computation of server.js (lines 199-217); `none` is the response
400 `Invalid start_time or end_time for same-day leave`. -/
def computeDuration (tz : Int) (start_date end_date : String) (f : Frame) : Option Duration :=
  let sameDay := start_date == end_date
  if sameDay then
    match startMinutes f, endMinutes f with
    | some sm, some em =>
      if em.lt sm then none
      else
        let mins := em.sub sm
        let durationHours := (mins.div (JsNum.fin 60)).toFixed3
        if f.tf == "am" || f.tf == "pm" then some ⟨JsNum.fin (1 / 2), durationHours⟩
        else if f.tf == "full day" || f.tf == "fullday" || f.tf == "full" then
          some ⟨JsNum.fin 1, durationHours⟩
        else
          some ⟨(durationHours.div (fullDayMinutes.div (JsNum.fin 60))).toFixed3, durationHours⟩
    | _, _ => none
  else
    let days : JsNum := JsNum.fin (daysBetween tz start_date end_date : ℚ)
    some ⟨days, (days.mul (fullDayMinutes.div (JsNum.fin 60))).toFixed3⟩

/-- The handler of `POST /api/leaves` (server.js lines 179-232), after `authMiddleware`;
`appliedAt` is the clock reading and `file` the stored name of an uploaded attachment. -/
def postLeaves (tz : Int) (appliedAt : String) (user : AuthUser) (body : LeaveBody)
    (file : Option String) (db : Db) : Response × Db :=
  if !truthy body.start_date || !truthy body.end_date then
    (Response.error 400 "start_date and end_date required", db)
  else
    let start_date := body.start_date.getD ""
    let end_date := body.end_date.getD ""
    let f := applyDefaults body.start_time body.end_time body.time_frame
    match computeDuration tz start_date end_date f with
    | none => (Response.error 400 "Invalid start_time or end_time for same-day leave", db)
    | some d =>
      match db.users.find? (fun u => u.id == user.id) with
      | none => (Response.error 404 "User not found", db)
      | some u =>
        if d.durationDays.gt (u.allocation.toJs.sub u.used.toJs) then
          (Response.error 400 "Insufficient leave balance", db)
        else
          let lastID := db.leaveSeq + 1
          let row : Leave :=
            { id := lastID, user_id := user.id, type := body.type,
              start_date := start_date, end_date := end_date,
              start_time := orEmpty f.start_time, end_time := orEmpty f.end_time,
              time_frame := orEmpty (some f.time_frame), reason := orEmpty body.reason,
              attachment := file,
              duration_days := d.durationDays.toSql, duration_hours := d.durationHours.toSql,
              status := "Pending", applied_at := appliedAt,
              actioned_at := none, action_by := none }
          (Response.leaveRequested lastID,
            { db with leaves := db.leaves ++ [row], leaveSeq := lastID })

/-- The handler of `GET /api/leaves` (server.js lines 234-252), after `authMiddleware`. -/
def getLeaves (user : AuthUser) (status year : Option String) (db : Db) : Response × Db :=
  let c1 : LeaveRow → Bool := fun r =>
    if truthy status then r.leave.status == status.getD "" else true
  let c2 : LeaveRow → Bool := fun r =>
    if truthy year then
      (substr4 r.leave.start_date == year.getD "" || substr4 r.leave.end_date == year.getD "")
    else true
  let c3 : LeaveRow → Bool := fun r =>
    if !(user.role == "Manager" || user.role == "Admin") then r.leave.user_id == user.id
    else true
  (Response.rows (orderByAppliedAtDesc ((joinUsers db).filter (fun r => c1 r && c2 r && c3 r))),
    db)

/-- The handler of `POST /api/leaves/:id/approve` (server.js lines 263-280), with
`authMiddleware` passed and `requireManager` applied first; `id` is the row id the path
names and `action` the `action` field of the body. -/
def approve (actionedAt : String) (user : AuthUser) (id : Nat) (action : Option String)
    (db : Db) : Response × Db :=
  if !(user.role == "Manager" || user.role == "Admin") then
    (Response.error 403 "Manager role required", db)
  else if !(action == some "Approved" || action == some "Rejected") then
    (Response.error 400 "action must be Approved or Rejected", db)
  else
    match db.leaves.find? (fun l => l.id == id) with
    | none => (Response.error 404 "Leave not found", db)
    | some leaf =>
      let leaves := db.leaves.map (fun l =>
        if l.id == id then
          { l with status := action.getD "", actioned_at := some actionedAt,
                   action_by := some user.id }
        else l)
      let users :=
        if action == some "Approved" then
          db.users.map (fun u =>
            if u.id == leaf.user_id then { u with used := SqlNum.add u.used leaf.duration_days }
            else u)
        else db.users
      (Response.actionRecorded, { db with leaves := leaves, users := users })

/-- The stores reachable from a store without leave rows by submissions and decisions. -/
inductive Reachable (tz : Int) : Db → Prop where
  | init (db : Db) (h : db.leaves = []) : Reachable tz db
  | submit (db : Db) (appliedAt : String) (user : AuthUser) (body : LeaveBody)
      (file : Option String) (h : Reachable tz db) :
      Reachable tz (postLeaves tz appliedAt user body file db).2
  | decide (db : Db) (actionedAt : String) (user : AuthUser) (id : Nat)
      (action : Option String) (h : Reachable tz db) :
      Reachable tz (approve actionedAt user id action db).2

end Server

namespace Worker

/-- The `DEFAULTS` table of worker.js (line 90). -/
def DEFAULTS : Defaults :=
  { full := ⟨"08:45", "18:00"⟩, am := ⟨"08:45", "13:20"⟩, pm := ⟨"13:30", "18:00"⟩ }

/-- `minutesOf(hhmm)` of worker.js (line 98): `null` (here `none`) when the string has no
colon, else `parseInt(parts[0],10)*60 + parseInt(parts[1],10)`. -/
def minutesOf (hhmm : Option String) : Option JsNum :=
  match split (orEmpty hhmm) ':' with
  | p0 :: p1 :: _ => some (((parseInt p0).mul (JsNum.fin 60)).add (parseInt p1))
  | _ => none

/-- `fullDayMinutes` of worker.js (line 99). -/
def fullDayMinutes : JsNum :=
  (nullToNum (minutesOf (some DEFAULTS.full.end_))).sub
    (nullToNum (minutesOf (some DEFAULTS.full.start)))

/-- The time-frame default and the substitution of default clock times
(worker.js lines 91-97). -/
def applyDefaults (start_time end_time time_frame : Option String) : Frame :=
  let time_frame : String := if !truthy time_frame then "Full Day" else time_frame.getD ""
  let tf := toLowerCase (orEmpty (some time_frame))
  if (!truthy start_time || !truthy end_time) &&
      (tf == "am" || tf == "pm" || tf == "full day" || tf == "fullday" || tf == "full") then
    if tf == "am" then ⟨time_frame, tf, some DEFAULTS.am.start, some DEFAULTS.am.end_⟩
    else if tf == "pm" then ⟨time_frame, tf, some DEFAULTS.pm.start, some DEFAULTS.pm.end_⟩
    else ⟨time_frame, tf, some DEFAULTS.full.start, some DEFAULTS.full.end_⟩
  else ⟨time_frame, tf, start_time, end_time⟩

/-- The value of `sm` (worker.js line 103):
`minutesOf(start_time) ?? minutesOf(DEFAULTS.full.start)`. -/
def startMinutes (f : Frame) : Option JsNum :=
  (minutesOf f.start_time).orElse (fun _ => minutesOf (some DEFAULTS.full.start))

/-- The value of `em` (worker.js line 104):
`minutesOf(end_time) ?? minutesOf(DEFAULTS.full.end)`. -/
def endMinutes (f : Frame) : Option JsNum :=
  (minutesOf f.end_time).orElse (fun _ => minutesOf (some DEFAULTS.full.end_))

/-- The duration computation of worker.js (lines 100-115); `none` is the response
400 `Invalid start_time or end_time for same-day leave`. -/
def computeDuration (start_date end_date : String) (f : Frame) : Option Duration :=
  let sameDay := start_date == end_date
  if sameDay then
    match startMinutes f, endMinutes f with
    | some sm, some em =>
      if em.lt sm then none
      else
        let mins := em.sub sm
        let durationHours := (mins.div (JsNum.fin 60)).toFixed3
        if f.tf == "am" || f.tf == "pm" then some ⟨JsNum.fin (1 / 2), durationHours⟩
        else if f.tf == "full day" || f.tf == "fullday" || f.tf == "full" then
          some ⟨JsNum.fin 1, durationHours⟩
        else
          some ⟨(durationHours.div (fullDayMinutes.div (JsNum.fin 60))).toFixed3, durationHours⟩
    | _, _ => none
  else
    let days : JsNum := JsNum.fin (daysBetween start_date end_date : ℚ)
    some ⟨days, (days.mul (fullDayMinutes.div (JsNum.fin 60))).toFixed3⟩

/-- The handler of `POST /api/leaves` (worker.js lines 73-124), after `requireAuth`;
`appliedAt` is the clock reading and `file` the name of an uploaded attachment. -/
def postLeaves (appliedAt : String) (user : AuthUser) (body : LeaveBody)
    (file : Option String) (db : Db) : Response × Db :=
  if !truthy body.start_date || !truthy body.end_date then
    (Response.error 400 "start_date and end_date required", db)
  else
    let start_date := body.start_date.getD ""
    let end_date := body.end_date.getD ""
    let f := applyDefaults body.start_time body.end_time body.time_frame
    match computeDuration start_date end_date f with
    | none => (Response.error 400 "Invalid start_time or end_time for same-day leave", db)
    | some d =>
      match db.users.find? (fun u => u.id == user.id) with
      | none => (Response.error 404 "User not found", db)
      | some u =>
        if d.durationDays.gt (u.allocation.toJs.sub u.used.orZero) then
          (Response.error 400 "Insufficient leave balance", db)
        else
          let lastID := db.leaveSeq + 1
          let row : Leave :=
            { id := lastID, user_id := user.id, type := body.type,
              start_date := start_date, end_date := end_date,
              start_time := orEmpty f.start_time, end_time := orEmpty f.end_time,
              time_frame := orEmpty (some f.time_frame), reason := orEmpty body.reason,
              attachment := file,
              duration_days := d.durationDays.toSql, duration_hours := d.durationHours.toSql,
              status := "Pending", applied_at := appliedAt,
              actioned_at := none, action_by := none }
          (Response.leaveRequested lastID,
            { db with leaves := db.leaves ++ [row], leaveSeq := lastID })

/-- The handler of `GET /api/leaves` (worker.js lines 126-142), after `requireAuth`. -/
def getLeaves (user : AuthUser) (status year : Option String) (db : Db) : Response × Db :=
  let c1 : LeaveRow → Bool := fun r =>
    if truthy status then r.leave.status == status.getD "" else true
  let c2 : LeaveRow → Bool := fun r =>
    if truthy year then
      (substr4 r.leave.start_date == year.getD "" || substr4 r.leave.end_date == year.getD "")
    else true
  let c3 : LeaveRow → Bool := fun r =>
    if !(user.role == "Manager" || user.role == "Admin") then r.leave.user_id == user.id
    else true
  (Response.rows (orderByAppliedAtDesc ((joinUsers db).filter (fun r => c1 r && c2 r && c3 r))),
    db)

/-- The handler of `POST /api/leaves/:id/approve` (worker.js lines 144-161), after
`requireAuth`; `id` is the row id the path names and `action` the `action` field of the
body. -/
def approve (actionedAt : String) (user : AuthUser) (id : Nat) (action : Option String)
    (db : Db) : Response × Db :=
  if !(user.role == "Manager" || user.role == "Admin") then
    (Response.error 403 "Manager role required", db)
  else if !(action == some "Approved" || action == some "Rejected") then
    (Response.error 400 "action must be Approved or Rejected", db)
  else
    match db.leaves.find? (fun l => l.id == id) with
    | none => (Response.error 404 "Leave not found", db)
    | some leaf =>
      let leaves := db.leaves.map (fun l =>
        if l.id == id then
          { l with status := action.getD "", actioned_at := some actionedAt,
                   action_by := some user.id }
        else l)
      let users :=
        if action == some "Approved" then
          db.users.map (fun u =>
            if u.id == leaf.user_id then
              { u with used := SqlNum.add u.used.coalesce0 leaf.duration_days.orZero.toSql }
            else u)
        else db.users
      (Response.actionRecorded, { db with leaves := leaves, users := users })

/-- The stores reachable from a store without leave rows by submissions and decisions. -/
inductive Reachable : Db → Prop where
  | init (db : Db) (h : db.leaves = []) : Reachable db
  | submit (db : Db) (appliedAt : String) (user : AuthUser) (body : LeaveBody)
      (file : Option String) (h : Reachable db) :
      Reachable (postLeaves appliedAt user body file db).2
  | decide (db : Db) (actionedAt : String) (user : AuthUser) (id : Nat)
      (action : Option String) (h : Reachable db) :
      Reachable (approve actionedAt user id action db).2

end Worker

/-! ## The profile handler -/

/-- The handler of `GET /api/auth/me` (server.js lines 255-261), after `authMiddleware`: the
caller's row of `users`, or 404. -/
def Server.getMe (user : AuthUser) (db : Db) : Response × Db :=
  match db.users.find? (fun u => u.id == user.id) with
  | none => (Response.error 404 "User not found", db)
  | some row => (Response.profile row, db)

/-- The handler of `GET /api/auth/me` (worker.js lines 64-71), after `requireAuth`. -/
def Worker.getMe (user : AuthUser) (db : Db) : Response × Db :=
  match db.users.find? (fun u => u.id == user.id) with
  | none => (Response.error 404 "User not found", db)
  | some row => (Response.profile row, db)

/-! ## The authorization gate -/

/-- The time value of a timestamp `YYYY-MM-DDTHH:mm:ss.sssZ`, the format `toISOString`
writes; `none` for any other string. -/
def parseIsoTimestamp (s : String) : Option Int :=
  match parseIsoDate (String.mk (s.toList.take 10)), s.toList.drop 10 with
  | some day, ['T', h1, h2, ':', n1, n2, ':', s1, s2, '.', f1, f2, f3, 'Z'] =>
    if [h1, h2, n1, n2, s1, s2, f1, f2, f3].all Char.isDigit then
      let hh := digitsInt [h1, h2]
      let mm := digitsInt [n1, n2]
      let ss := digitsInt [s1, s2]
      let ms := digitsInt [f1, f2, f3]
      if hh ≤ 23 ∧ mm ≤ 59 ∧ ss ≤ 59 then
        some (MakeDate day (hh * 3600000 + mm * 60000 + ss * 1000 + ms))
      else none
    else none
  | _, _ => none

/-- The value of `new Date(s).getTime()`: `NaN` for an invalid date. -/
def dateGetTime (s : String) : JsNum :=
  match parseIsoTimestamp s with
  | some t => JsNum.fin (t : ℚ)
  | none => JsNum.nan

/-- A row of the `sessions` table of worker.js. -/
structure Session where
  token : String
  user_id : Option Nat
  expires_at : Option String
  deriving DecidableEq

/-- The outcome of the authorization gate: a failure response, or the caller. -/
inductive AuthResult where
  | fail (status : Nat) (error : String)
  | ok (user : AuthUser)
  deriving DecidableEq

/-- The expiry test of `requireAuth` (worker.js line 228):
`sess.expires_at && new Date(sess.expires_at).getTime() < Date.now()`. -/
def Worker.sessionExpired (now : Int) (sess : Session) : Bool :=
  truthy sess.expires_at && (dateGetTime (sess.expires_at.getD "")).lt (JsNum.fin (now : ℚ))

/-- `requireAuth(req, env)` of worker.js (lines 220-232): `h` is the `authorization` header,
`now` the value of `Date.now()`. -/
def Worker.requireAuth (now : Int) (sessions : List Session) (db : Db) (h : Option String) :
    AuthResult :=
  if !truthy h then AuthResult.fail 401 "Missing auth token"
  else
    match split (h.getD "") ' ' with
    | [_, token] =>
      match sessions.find? (fun s => s.token == token) with
      | none => AuthResult.fail 401 "Invalid token"
      | some sess =>
        if Worker.sessionExpired now sess then AuthResult.fail 401 "Token expired"
        else
          match sess.user_id.bind (fun uid => db.users.find? (fun u => u.id == uid)) with
          | none => AuthResult.fail 404 "User not found"
          | some user => AuthResult.ok ⟨user.id, user.role⟩
    | _ => AuthResult.fail 401 "Invalid auth header"

/-- `authMiddleware(req,res,next)` of server.js (lines 90-102): `h` is the `authorization`
header and `verify` stands for `jwt.verify(token, JWT_SECRET)`, giving the payload's id and
role, or `none` when it throws (bad signature, expired token). -/
def Server.authMiddleware (verify : String → Option AuthUser) (h : Option String) :
    AuthResult :=
  if !truthy h then AuthResult.fail 401 "Missing auth token"
  else
    match split (h.getD "") ' ' with
    | [_, token] =>
      match verify token with
      | some payload => AuthResult.ok payload
      | none => AuthResult.fail 401 "Invalid token"
    | _ => AuthResult.fail 401 "Invalid auth header"

/-! ## CSV export -/

/-- The decimal digits of the fraction `r` (`0 ≤ r < 1`), at most `fuel` of them. -/
def fracDigits : Nat → ℚ → List Char
  | 0, _ => []
  | fuel + 1, r =>
    if r = 0 then []
    else
      Nat.digitChar ((⌊r * 10⌋).toNat % 10) :: fracDigits fuel (r * 10 - ((⌊r * 10⌋ : ℤ) : ℚ))

/-- The fraction part of a decimal rendering: empty for an integer, else a point and the
fraction digits. -/
def fracString (fr : ℚ) : String :=
  if fr = 0 then "" else "." ++ String.mk (fracDigits 20 fr)

/-- The sign of a decimal rendering. -/
def signString (q : ℚ) : String := if q < 0 then "-" else ""

/-- The decimal rendering of a finite number: sign, integer digits and, when the number is
not an integer, a point and the fraction digits. It is the text JavaScript prints for the
decimals of a few places that the store holds (exponent notation and the 17-digit limit of
doubles are not modelled). -/
def ratToString (q : ℚ) : String :=
  let a : ℚ := if q < 0 then -q else q
  signString q ++ Nat.repr (⌊a⌋).toNat ++ fracString (a - ((⌊a⌋ : ℤ) : ℚ))

/-- A value in a cell of an export table: a string, a number or `null`. -/
inductive Cell where
  | str (s : String)
  | num (x : JsNum)
  | null
  deriving DecidableEq

/-- The value of `String(c)`. -/
def Cell.toString : Cell → String
  | Cell.str s => s
  | Cell.num JsNum.nan => "NaN"
  | Cell.num (JsNum.fin q) => ratToString q
  | Cell.null => "null"

/-- A column value read into JavaScript: `NULL` is `null`. -/
def SqlNum.toCell : SqlNum → Cell
  | none => Cell.null
  | some q => Cell.num (JsNum.fin q)

/-- The characters of `s.replace(/"/g,'""')`: every double quote is doubled. -/
def replaceQuotesChars : List Char → List Char
  | [] => []
  | c :: cs =>
    if c = '"' then '"' :: '"' :: replaceQuotesChars cs else c :: replaceQuotesChars cs

/-- The value of `s.replace(/"/g,'""')`. -/
def replaceQuotes (s : String) : String := String.mk (replaceQuotesChars s.toList)

/-- The value of `xs.join(sep)` for an array of strings. -/
def join : List String → String → String
  | [], _ => ""
  | [x], _ => x
  | x :: y :: rest, sep => x ++ sep ++ join (y :: rest) sep

/-- `rowsToCSV(rows)` of server.js (lines 297-299). -/
def Server.rowsToCSV (rows : List (List Cell)) : String :=
  join (rows.map (fun r =>
    join (r.map (fun c => "\"" ++ replaceQuotes c.toString ++ "\"")) ",")) "\n"

/-- `rowsToCSV(rows)` of worker.js (lines 261-263). -/
def Worker.rowsToCSV (rows : List (List Cell)) : String :=
  join (rows.map (fun r =>
    join (r.map (fun c => "\"" ++ replaceQuotes c.toString ++ "\"")) ",")) "\n"

/-- `downloadCSV(fn, rows)` of script.js (lines 112-118): the file name and the text of the
blob offered for download. -/
def Frontend.downloadCSV (fn : String) (rows : List (List Cell)) : String × String :=
  let csv := join (rows.map (fun r =>
    join (r.map (fun c => "\"" ++ replaceQuotes c.toString ++ "\"")) ",")) "\n"
  (fn, csv)

/-- User rows in the order of `ORDER BY name`. -/
def orderByName (us : List User) : List User :=
  us.insertionSort (fun a b => a.name ≤ b.name)

/-- The table built by `GET /api/export/summary` in server.js (lines 328-332): the header
and one record per user row, in name order. -/
def Server.summaryData (db : Db) : List (List Cell) :=
  let rows := orderByName db.users
  let header : List Cell :=
    [Cell.str "Employee Name", Cell.str "Role", Cell.str "Total Annual Leave Allocation",
      Cell.str "Leave Taken", Cell.str "Remaining Balance"]
  header :: rows.map (fun r =>
    [Cell.str r.name, Cell.str r.role, r.allocation.toCell, r.used.toCell,
      Cell.num (r.allocation.toJs.sub r.used.toJs)])

/-- The handler of `GET /api/export/summary` (server.js lines 326-338), with
`authMiddleware` passed and `requireManager` applied first; `currentYear` is
`new Date().getFullYear().toString()`. -/
def Server.exportSummary (currentYear : String) (user : AuthUser) (year : Option String)
    (db : Db) : Response × Db :=
  if !(user.role == "Manager" || user.role == "Admin") then
    (Response.error 403 "Manager role required", db)
  else
    let year := if truthy year then year.getD "" else currentYear
    let data := Server.summaryData db
    let csv := Server.rowsToCSV data
    (Response.csv ("leaves_summary_" ++ year ++ ".csv") csv, db)

/-- The table built by `GET /api/export/summary` in worker.js (lines 193-197). -/
def Worker.summaryData (db : Db) : List (List Cell) :=
  let rows := orderByName db.users
  let header : List Cell :=
    [Cell.str "Employee Name", Cell.str "Role", Cell.str "Total Annual Leave Allocation",
      Cell.str "Leave Taken", Cell.str "Remaining Balance"]
  header :: rows.map (fun u =>
    [Cell.str u.name, Cell.str u.role, u.allocation.toCell, Cell.num u.used.orZero,
      Cell.num (u.allocation.orZero.sub u.used.orZero)])

/-- The handler of `GET /api/export/summary` (worker.js lines 187-200), after
`requireAuth`. -/
def Worker.exportSummary (currentYear : String) (user : AuthUser) (year : Option String)
    (db : Db) : Response × Db :=
  if !(user.role == "Manager" || user.role == "Admin") then
    (Response.error 403 "Manager role required", db)
  else
    let year := if truthy year then year.getD "" else currentYear
    let data := Worker.summaryData db
    let csv := Worker.rowsToCSV data
    (Response.csv ("leaves_summary_" ++ year ++ ".csv") csv, db)

/-- A CSV field as the format describes it: the text wrapped in double quotes, every
double quote inside it written twice. -/
def csvFieldSpec (s : String) : String :=
  "\"" ++ String.mk (s.toList.flatMap (fun c => if c = '"' then ['"', '"'] else [c])) ++ "\""

/-- A CSV table as the format describes it: the fields of a row joined by commas, the rows
joined by newlines. -/
def csvSpec (rows : List (List Cell)) : String :=
  String.intercalate "\n"
    (rows.map (fun r => String.intercalate "," (r.map (fun c => csvFieldSpec c.toString))))

/-- Reading back the inside of a quoted CSV field: a doubled quote is one quote. -/
def unescapeQuotesChars : List Char → List Char
  | [] => []
  | [c] => [c]
  | c :: d :: cs =>
    if c = '"' ∧ d = '"' then '"' :: unescapeQuotesChars cs
    else c :: unescapeQuotesChars (d :: cs)

/-! ## Notions used to state the claims -/

/-- `r` is `q` rounded to three decimal places: a whole number of thousandths at distance at
most half a thousandth from `q`. -/
def RoundedTo3 (r q : ℚ) : Prop := (∃ n : ℤ, r = (n : ℚ) / 1000) ∧ |r - q| ≤ 1 / 2000

/-- Every leave row has exactly one owner: its `user_id` is the id of one and only one user
row (ids are a primary key, a leave is inserted only for an existing user and users are never
deleted). -/
def OwnersUnique (db : Db) : Prop :=
  ∀ l ∈ db.leaves, (db.users.filter (fun u => l.user_id == u.id)).length = 1

instance (db : Db) : Decidable (OwnersUnique db) := by
  unfold OwnersUnique; infer_instance

/-- The first four characters of a text (all of it when it is shorter). -/
def firstFourChars (s : String) : String := s.take 4

/-- The rows a listing with optional filters selects when a filter is either absent or taken
at its value: the status filter is absent or is the row's status, and the year filter is
absent or is the first four characters of the start date or of the end date. -/
def selectedAsStated (status year : Option String) (l : Leave) : Bool :=
  (status == none || status == some l.status) &&
    (year == none || year == some (firstFourChars l.start_date) ||
      year == some (firstFourChars l.end_date))

/-- The rows the listing selects when an empty filter counts as no filter: the status filter
is absent, empty, or the row's status, and the year filter is absent, empty, or the first four
characters of the start date or of the end date. -/
def selectedByFilters (status year : Option String) (l : Leave) : Bool :=
  (status == none || status == some "" || status == some l.status) &&
    (year == none || year == some "" || year == some (firstFourChars l.start_date) ||
      year == some (firstFourChars l.end_date))

/-! ## Sequences of decisions -/

/-- One call of `POST /api/leaves/:id/approve`: the clock reading, the caller and the
`action` field. -/
structure Decision where
  actionedAt : String
  user : AuthUser
  action : Option String
  deriving DecidableEq

/-- The number of calls in a sequence that are made by a Manager or Admin with action
`Approved`. -/
def approvals (cs : List Decision) : Nat :=
  (cs.filter (fun c =>
    (c.user.role == "Manager" || c.user.role == "Admin") && c.action == some "Approved")).length

/-- The store after a sequence of decide calls on request `id` (server.js). -/
def Server.decideAll (id : Nat) (cs : List Decision) (db : Db) : Db :=
  cs.foldl (fun s c => (Server.approve c.actionedAt c.user id c.action s).2) db

/-- The store after a sequence of decide calls on request `id` (worker.js). -/
def Worker.decideAll (id : Nat) (cs : List Decision) (db : Db) : Db :=
  cs.foldl (fun s c => (Worker.approve c.actionedAt c.user id c.action s).2) db

/-! ## Sample data for concrete runs -/

/-- Employee A (id 1) with allocation 20 and nothing used, and Manager B (id 2). -/
def sampleDb : Db :=
  { users := [⟨1, "A", "Employee", some 20, some 0⟩, ⟨2, "B", "Manager", some 20, some 0⟩],
    leaves := [], leaveSeq := 0 }

/-- Employee A as the authenticated caller. -/
def employeeA : AuthUser := ⟨1, "Employee"⟩

/-- Manager B as the authenticated caller. -/
def managerB : AuthUser := ⟨2, "Manager"⟩

/-- A same-day request body for 2025-12-02 with the given clock times and time frame. -/
def sameDayBody (st et tfm : Option String) : LeaveBody :=
  { type := some "Annual", start_date := some "2025-12-02", end_date := some "2025-12-02",
    start_time := st, end_time := et, time_frame := tfm, reason := none }

/-- A request body for the weekend 2025-11-29..2025-11-30. -/
def weekendBody : LeaveBody :=
  { type := some "Annual", start_date := some "2025-11-29", end_date := some "2025-11-30",
    start_time := none, end_time := none, time_frame := none, reason := none }

/-- A store in which employee A has used the whole allocation. -/
def exhaustedDb : Db :=
  { users := [⟨1, "A", "Employee", some 20, some 20⟩], leaves := [], leaveSeq := 0 }

/-- The leave row of employee A's `PM` request for 2025-12-02 (half a day, 4.5 hours) with
the given status and audit fields. -/
def pmLeave (status : String) (actioned_at : Option String) (action_by : Option Nat) : Leave :=
  ⟨1, 1, some "Annual", "2025-12-02", "2025-12-02", "13:30", "18:00", "PM", "", none,
    some (1 / 2), some (9 / 2), status, "2025-12-01T08:00:00.000Z", actioned_at, action_by⟩

/-- The sample store with employee A's `PM` request pending. -/
def pendingDb : Db :=
  { sampleDb with leaves := [pmLeave "Pending" none none], leaveSeq := 1 }

/-- The sample store after manager B has approved employee A's `PM` request once. -/
def approvedOnceDb : Db :=
  { users := [⟨1, "A", "Employee", some 20, some (1 / 2)⟩,
      ⟨2, "B", "Manager", some 20, some 0⟩],
    leaves := [pmLeave "Approved" (some "2025-12-01T09:00:00.000Z") (some 2)],
    leaveSeq := 1 }

/-- A same-day `Hourly` request body for 2025-12-02 whose start time `ab:cd` has a colon but
no digits. -/
def nanTimesBody : LeaveBody :=
  sameDayBody (some "ab:cd") (some "10:00") (some "Hourly")

/-- A session store: a live session of employee A, an expired one of manager B, and a live
one of a user 7 who has no row. -/
def sampleSessions : List Session :=
  [⟨"aaaa", some 1, some "2025-12-08T08:00:00.000Z"⟩,
    ⟨"bbbb", some 2, some "2025-11-30T08:00:00.000Z"⟩,
    ⟨"cccc", some 7, some "2025-12-08T08:00:00.000Z"⟩]

/-- The clock reading 2025-12-01T08:00:00.000Z in milliseconds. -/
def sampleNow : Int := 1764576000000

/-- A stand-in for `jwt.verify` that accepts the token `t7`, carrying id 7 and role
`Manager`, and rejects every other token. -/
def sampleVerify (token : String) : Option AuthUser :=
  if token = "t7" then some ⟨7, "Manager"⟩ else none

/-- A store whose only user has a line break in the name. -/
def newlineNameDb : Db :=
  { users := [⟨1, "Ann\nLee", "Employee", some 20, some 0⟩], leaves := [], leaveSeq := 0 }

/-- A request body for the fifteen weekdays 2025-12-01..2025-12-19. -/
def decemberBody : LeaveBody :=
  { type := some "Annual", start_date := some "2025-12-01", end_date := some "2025-12-19",
    start_time := none, end_time := none, time_frame := none, reason := none }

/-- A request body for the fifteen weekdays 2026-01-05..2026-01-23. -/
def januaryBody : LeaveBody :=
  { type := some "Annual", start_date := some "2026-01-05", end_date := some "2026-01-23",
    start_time := none, end_time := none, time_frame := none, reason := none }

/-- The leave row of a multi-day request of employee A for fifteen weekdays. -/
def fifteenDayLeave (id : Nat) (start_date end_date applied_at status : String)
    (actioned_at : Option String) (action_by : Option Nat) : Leave :=
  ⟨id, 1, some "Annual", start_date, end_date, "08:45", "18:00", "Full Day", "", none,
    some 15, some (555 / 4), status, applied_at, actioned_at, action_by⟩

/-- The sample store after employee A's request for 2025-12-01..2025-12-19. -/
def oneRequestDb : Db :=
  { sampleDb with
    leaves := [fifteenDayLeave 1 "2025-12-01" "2025-12-19" "2025-11-03T09:00:00.000Z"
      "Pending" none none],
    leaveSeq := 1 }

/-- The sample store after employee A's second request, for 2026-01-05..2026-01-23. -/
def twoRequestsDb : Db :=
  { sampleDb with
    leaves := [fifteenDayLeave 1 "2025-12-01" "2025-12-19" "2025-11-03T09:00:00.000Z"
        "Pending" none none,
      fifteenDayLeave 2 "2026-01-05" "2026-01-23" "2025-11-03T09:05:00.000Z"
        "Pending" none none],
    leaveSeq := 2 }

/-- The store after manager B has approved the first of the two requests. -/
def firstApprovedDb : Db :=
  { users := [⟨1, "A", "Employee", some 20, some 15⟩, ⟨2, "B", "Manager", some 20, some 0⟩],
    leaves := [fifteenDayLeave 1 "2025-12-01" "2025-12-19" "2025-11-03T09:00:00.000Z"
        "Approved" (some "2025-11-04T10:00:00.000Z") (some 2),
      fifteenDayLeave 2 "2026-01-05" "2026-01-23" "2025-11-03T09:05:00.000Z"
        "Pending" none none],
    leaveSeq := 2 }

/-- The store after manager B has approved both requests: employee A has used 30 days of an
allocation of 20. -/
def overdrawnDb : Db :=
  { users := [⟨1, "A", "Employee", some 20, some 30⟩, ⟨2, "B", "Manager", some 20, some 0⟩],
    leaves := [fifteenDayLeave 1 "2025-12-01" "2025-12-19" "2025-11-03T09:00:00.000Z"
        "Approved" (some "2025-11-04T10:00:00.000Z") (some 2),
      fifteenDayLeave 2 "2026-01-05" "2026-01-23" "2025-11-03T09:05:00.000Z"
        "Approved" (some "2025-11-04T10:05:00.000Z") (some 2)],
    leaveSeq := 2 }

/-- A store whose only leave row names a user id (9) that no user row has. -/
def ownerlessDb : Db :=
  { sampleDb with
    leaves := [⟨1, 9, some "Annual", "2025-12-02", "2025-12-02", "13:30", "18:00", "PM", "", none,
      some (1 / 2), some (9 / 2), "Pending", "2025-12-01T08:00:00.000Z", none, none⟩],
    leaveSeq := 1 }

/-- The sample store with employee A's pending `PM` request of 2025 and an approved request
of January 2026. -/
def twoYearsDb : Db :=
  { sampleDb with
    leaves := [pmLeave "Pending" none none,
      fifteenDayLeave 2 "2026-01-05" "2026-01-23" "2025-11-03T09:05:00.000Z"
        "Approved" (some "2025-11-04T10:05:00.000Z") (some 2)],
    leaveSeq := 2 }

/-! ## Counting business days -/

theorem weekdaysInRange_of_lt {a b : Int} (h : b < a) : weekdaysInRange a b = 0 := by
  unfold weekdaysInRange
  rw [Finset.Icc_eq_empty (by omega)]
  rfl

theorem weekdaysInRange_step {a b : Int} (h : a ≤ b) :
    weekdaysInRange a b = (if isBusinessDay a then 1 else 0) + weekdaysInRange (a + 1) b := by
  unfold weekdaysInRange
  have hI : Finset.Icc a b = insert a (Finset.Icc (a + 1) b) := by
    ext x
    simp only [Finset.mem_Icc, Finset.mem_insert]
    omega
  have hna : a ∉ Finset.Icc (a + 1) b := by
    simp only [Finset.mem_Icc]
    omega
  rw [hI, Finset.filter_insert]
  by_cases hb : isBusinessDay a
  · rw [if_pos hb, if_pos hb, Finset.card_insert_of_not_mem]
    · omega
    · intro hm
      exact hna (Finset.mem_of_mem_filter a hm)
  · rw [if_neg hb, if_neg hb]
    omega

theorem server_daysBetweenLoop_eq (tz : Int) :
    ∀ (n : Nat) (D E : Int) (count : Nat), (E - D + 1).toNat = n →
      Server.daysBetweenLoop tz (MakeDate E 0 - tz) (MakeDate D 0 - tz) count
        = count + weekdaysInRange D E := by
  intro n
  induction n with
  | zero =>
    intro D E count h
    rw [Server.daysBetweenLoop, if_neg, weekdaysInRange_of_lt (by omega)]
    · rfl
    · simp only [MakeDate, msPerDay]; omega
  | succ n ih =>
    intro D E count h
    have hle : D ≤ E := by omega
    have hnext : Server.setDateNext tz (MakeDate D 0 - tz) = MakeDate (D + 1) 0 - tz := by
      simp only [Server.setDateNext, MakeDate, Day, TimeWithinDay, msPerDay]; omega
    have hday : Server.getDay tz (MakeDate D 0 - tz) = (D + 4) % 7 := by
      simp only [Server.getDay, WeekDay, MakeDate, Day, msPerDay]; omega
    rw [Server.daysBetweenLoop, if_pos (by simp only [MakeDate, msPerDay]; omega)]
    simp only [hnext, hday]
    rw [ih (D + 1) E _ (by omega), weekdaysInRange_step hle]
    by_cases hb : isBusinessDay D
    · rw [if_pos hb, if_pos (show (D + 4) % 7 ≠ 0 ∧ (D + 4) % 7 ≠ 6 from hb)]; omega
    · rw [if_neg hb, if_neg (show ¬((D + 4) % 7 ≠ 0 ∧ (D + 4) % 7 ≠ 6) from hb)]; omega

theorem worker_daysBetweenLoop_eq :
    ∀ (n : Nat) (D E : Int) (count : Nat), (E - D + 1).toNat = n →
      Worker.daysBetweenLoop (MakeDate E 0 - 0) (MakeDate D 0 - 0) count
        = count + weekdaysInRange D E := by
  intro n
  induction n with
  | zero =>
    intro D E count h
    rw [Worker.daysBetweenLoop, if_neg, weekdaysInRange_of_lt (by omega)]
    · rfl
    · simp only [MakeDate, msPerDay]; omega
  | succ n ih =>
    intro D E count h
    have hle : D ≤ E := by omega
    have hnext : Worker.setUTCDateNext (MakeDate D 0 - 0) = MakeDate (D + 1) 0 - 0 := by
      simp only [Worker.setUTCDateNext, MakeDate, Day, TimeWithinDay, msPerDay]; omega
    have hday : Worker.getUTCDay (MakeDate D 0 - 0) = (D + 4) % 7 := by
      simp only [Worker.getUTCDay, WeekDay, MakeDate, Day, msPerDay]; omega
    rw [Worker.daysBetweenLoop, if_pos (by simp only [MakeDate, msPerDay]; omega)]
    simp only [hnext, hday]
    rw [ih (D + 1) E _ (by omega), weekdaysInRange_step hle]
    by_cases hb : isBusinessDay D
    · rw [if_pos hb, if_pos (show (D + 4) % 7 ≠ 0 ∧ (D + 4) % 7 ≠ 6 from hb)]; omega
    · rw [if_neg hb, if_neg (show ¬((D + 4) % 7 ≠ 0 ∧ (D + 4) % 7 ≠ 6) from hb)]; omega

theorem server_daysBetween_eq (tz : Int) (s e : String) (ds de : Int)
    (hs : parseIsoDate s = some ds) (he : parseIsoDate e = some de) :
    Server.daysBetween tz s e = weekdaysInRange ds de := by
  simp only [Server.daysBetween, newDateMidnight, hs, he, Option.map_some']
  rw [server_daysBetweenLoop_eq tz _ ds de 0 rfl]
  omega

theorem worker_daysBetween_eq (s e : String) (ds de : Int)
    (hs : parseIsoDate s = some ds) (he : parseIsoDate e = some de) :
    Worker.daysBetween s e = weekdaysInRange ds de := by
  simp only [Worker.daysBetween, newDateMidnight, hs, he, Option.map_some']
  rw [worker_daysBetweenLoop_eq _ ds de 0 rfl]
  omega


/-! ## JsNum numbers -/

theorem JsNum.nonNeg_nan : JsNum.NonNeg JsNum.nan := by
  intro q h
  cases h

theorem JsNum.nonNeg_fin {q : ℚ} (h : 0 ≤ q) : JsNum.NonNeg (JsNum.fin q) := by
  intro r hr
  cases hr
  exact h

theorem JsNum.nonNeg_toFixed3 {x : JsNum} (h : JsNum.NonNeg x) : JsNum.NonNeg x.toFixed3 := by
  cases x with
  | nan => exact JsNum.nonNeg_nan
  | fin q =>
    have hq : 0 ≤ q := h q rfl
    simp only [JsNum.toFixed3]
    rw [if_neg (not_lt.mpr hq)]
    apply JsNum.nonNeg_fin
    have h1 : (0 : ℤ) ≤ ⌊q * 1000 + 1 / 2⌋ := Int.floor_nonneg.mpr (by positivity)
    have h2 : (0 : ℚ) ≤ ((⌊q * 1000 + 1 / 2⌋ : ℤ) : ℚ) := by exact_mod_cast h1
    positivity

theorem JsNum.nonNeg_div {x : JsNum} {c : ℚ} (h : JsNum.NonNeg x) (hc : 0 < c) :
    JsNum.NonNeg (x.div (JsNum.fin c)) := by
  cases x with
  | nan => exact JsNum.nonNeg_nan
  | fin q =>
    have hq : 0 ≤ q := h q rfl
    simp only [JsNum.div]
    rw [if_neg (ne_of_gt hc)]
    exact JsNum.nonNeg_fin (div_nonneg hq (le_of_lt hc))

theorem JsNum.nonNeg_sub_of_not_lt {a b : JsNum} (h : a.lt b = false) :
    JsNum.NonNeg (a.sub b) := by
  cases a with
  | nan => exact JsNum.nonNeg_nan
  | fin x =>
    cases b with
    | nan => exact JsNum.nonNeg_nan
    | fin y =>
      have hxy : ¬ x < y := by simpa [JsNum.lt] using h
      exact JsNum.nonNeg_fin (by linarith [not_lt.mp hxy])

theorem SqlNum.orZero_eq_toJs (v : SqlNum) : SqlNum.orZero v = SqlNum.toJs v := by
  cases v with
  | none => rfl
  | some q =>
    unfold SqlNum.orZero SqlNum.toJs
    by_cases h : q = 0
    · simp [h]
    · simp [h]

theorem find?_map_update {α : Type} (l : List α) (p : α → Bool) (g : α → α)
    (hp : ∀ x, p (g x) = p x) : (l.map g).find? p = (l.find? p).map g := by
  rw [List.find?_map]
  have : p ∘ g = p := funext hp
  rw [this]

theorem SqlNum.worker_used_update (u d : ℚ) :
    SqlNum.add (SqlNum.coalesce0 (some u)) (SqlNum.orZero (some d)).toSql = some (u + d) := by
  unfold SqlNum.orZero SqlNum.coalesce0
  by_cases h : d = 0
  · simp [h, JsNum.toSql, SqlNum.add]
  · simp [h, JsNum.toSql, SqlNum.add]

theorem splitChars_of_not_mem (sep : Char) :
    ∀ cs : List Char, sep ∉ cs → ∃ p, splitChars sep cs = [p] := by
  intro cs
  induction cs with
  | nil => intro _; exact ⟨[], rfl⟩
  | cons c cs ih =>
    intro h
    have hc : c ≠ sep := fun e => h (by simp [e])
    obtain ⟨p, hp⟩ := ih (fun hm => h (List.mem_cons_of_mem c hm))
    exact ⟨c :: p, by simp [splitChars, hc, hp]⟩

theorem orEmpty_some (s : String) : orEmpty (some s) = s := by
  unfold orEmpty truthy
  by_cases h : s = ""
  · simp [h]
  · simp [h]

/-! ## The two backends side by side -/

theorem daysBetween_server_eq_worker (tz : Int) (s e : String) :
    Server.daysBetween tz s e = Worker.daysBetween s e := by
  cases hs : parseIsoDate s with
  | none => simp [Server.daysBetween, Worker.daysBetween, newDateMidnight, hs]
  | some ds =>
    cases he : parseIsoDate e with
    | none => simp [Server.daysBetween, Worker.daysBetween, newDateMidnight, hs, he]
    | some de =>
      rw [server_daysBetween_eq tz s e ds de hs he, worker_daysBetween_eq s e ds de hs he]

theorem applyDefaults_server_eq_worker (st et tfm : Option String) :
    Server.applyDefaults st et tfm = Worker.applyDefaults st et tfm := rfl

theorem computeDuration_server_eq_worker (tz : Int) (sd ed : String) (f : Frame) :
    Server.computeDuration tz sd ed f = Worker.computeDuration sd ed f := by
  unfold Server.computeDuration Worker.computeDuration
  rw [daysBetween_server_eq_worker tz sd ed]
  rfl

theorem postLeaves_server_eq_worker (tz : Int) (appliedAt : String) (user : AuthUser)
    (body : LeaveBody) (file : Option String) (db : Db) :
    Server.postLeaves tz appliedAt user body file db
      = Worker.postLeaves appliedAt user body file db := by
  unfold Server.postLeaves Worker.postLeaves
  simp only [computeDuration_server_eq_worker, applyDefaults_server_eq_worker,
    SqlNum.orZero_eq_toJs]

/-! ## CSV text -/

theorem splitChars_eq_self (sep : Char) :
    ∀ cs : List Char, sep ∉ cs → splitChars sep cs = [cs] := by
  intro cs
  induction cs with
  | nil => intro _; rfl
  | cons c cs ih =>
    intro h
    have hc : c ≠ sep := fun e => h (by simp [e])
    have hcs := ih (fun hm => h (List.mem_cons_of_mem c hm))
    simp [splitChars, hc, hcs]

theorem splitChars_append_sep (sep : Char) (b : List Char) :
    ∀ a : List Char, sep ∉ a → splitChars sep (a ++ sep :: b) = a :: splitChars sep b := by
  intro a
  induction a with
  | nil => intro _; simp [splitChars]
  | cons c a ih =>
    intro h
    have hc : c ≠ sep := fun e => h (by simp [e])
    have ha := ih (fun hm => h (List.mem_cons_of_mem c hm))
    simp [splitChars, hc, ha]

theorem join_cons_cons (x y : String) (rest : List String) (sep : String) :
    join (x :: y :: rest) sep = x ++ sep ++ join (y :: rest) sep := rfl

theorem split_join_newline :
    ∀ xs : List String, xs ≠ [] → (∀ x ∈ xs, '\n' ∉ x.toList) →
      split (join xs "\n") '\n' = xs := by
  intro xs
  induction xs with
  | nil => intro h; exact absurd rfl h
  | cons x rest ih =>
    intro _ hx
    cases rest with
    | nil =>
      have h1 : '\n' ∉ x.toList := hx x (by simp)
      unfold split
      show List.map String.mk (splitChars '\n' x.toList) = [x]
      rw [splitChars_eq_self '\n' x.toList h1]
      rfl
    | cons y rest =>
      have h1 : '\n' ∉ x.toList := hx x (by simp)
      have h2 := ih (by simp) (fun z hz => hx z (List.mem_cons_of_mem x hz))
      unfold split at h2 ⊢
      rw [join_cons_cons]
      have e : (x ++ "\n" ++ join (y :: rest) "\n").toList
          = x.toList ++ '\n' :: (join (y :: rest) "\n").toList := by
        show (x ++ "\n" ++ join (y :: rest) "\n").data = _
        rw [String.data_append, String.data_append]
        simp [String.toList]
      rw [e, splitChars_append_sep '\n' _ _ h1, List.map_cons, h2]
      rfl

theorem mem_join_toList (sep : String) :
    ∀ (xs : List String) (c : Char), c ∈ (join xs sep).toList →
      c ∈ sep.toList ∨ ∃ x ∈ xs, c ∈ x.toList := by
  intro xs
  induction xs with
  | nil => intro c hc; simp [join, String.toList] at hc
  | cons x rest ih =>
    intro c hc
    cases rest with
    | nil => exact Or.inr ⟨x, by simp, hc⟩
    | cons y rest =>
      rw [join_cons_cons] at hc
      have e : (x ++ sep ++ join (y :: rest) sep).toList
          = x.toList ++ sep.toList ++ (join (y :: rest) sep).toList := by
        show (x ++ sep ++ join (y :: rest) sep).data = _
        rw [String.data_append, String.data_append]
        rfl
      rw [e] at hc
      rcases List.mem_append.mp hc with h | h
      · rcases List.mem_append.mp h with h | h
        · exact Or.inr ⟨x, by simp, h⟩
        · exact Or.inl h
      · rcases ih c h with h | ⟨z, hz, hcz⟩
        · exact Or.inl h
        · exact Or.inr ⟨z, List.mem_cons_of_mem x hz, hcz⟩

theorem mem_replaceQuotesChars :
    ∀ (cs : List Char) (c : Char), c ∈ replaceQuotesChars cs → c = '"' ∨ c ∈ cs := by
  intro cs
  induction cs with
  | nil => intro c hc; simp [replaceQuotesChars] at hc
  | cons a cs ih =>
    intro c hc
    unfold replaceQuotesChars at hc
    split at hc
    · rcases List.mem_cons.mp hc with h | h
      · exact Or.inl h
      · rcases List.mem_cons.mp h with h | h
        · exact Or.inl h
        · rcases ih c h with h | h
          · exact Or.inl h
          · exact Or.inr (List.mem_cons_of_mem a h)
    · rcases List.mem_cons.mp hc with h | h
      · exact Or.inr (by simp [h])
      · rcases ih c h with h | h
        · exact Or.inl h
        · exact Or.inr (List.mem_cons_of_mem a h)

theorem replaceQuotesChars_eq_flatMap (cs : List Char) :
    replaceQuotesChars cs = cs.flatMap (fun c => if c = '"' then ['"', '"'] else [c]) := by
  induction cs with
  | nil => rfl
  | cons a cs ih =>
    unfold replaceQuotesChars
    by_cases h : a = '"'
    · simp [h, ih]
    · simp [h, ih]

theorem unescape_replaceQuotesChars (cs : List Char) :
    unescapeQuotesChars (replaceQuotesChars cs) = cs := by
  induction cs with
  | nil => rfl
  | cons a cs ih =>
    unfold replaceQuotesChars
    by_cases h : a = '"'
    · simp [h, unescapeQuotesChars, ih]
    · rw [if_neg h]
      cases hr : replaceQuotesChars cs with
      | nil =>
        rw [hr] at ih
        simp [unescapeQuotesChars] at ih
        simp [unescapeQuotesChars, ← ih]
      | cons d ds =>
        rw [hr] at ih
        simp [unescapeQuotesChars, h, ih]

theorem join_eq_intercalate_aux (sep : String) :
    ∀ (xs : List String) (acc : String),
      String.intercalate.go acc sep xs
        = if xs = [] then acc else acc ++ sep ++ join xs sep := by
  intro xs
  induction xs with
  | nil => intro acc; simp [String.intercalate.go]
  | cons x rest ih =>
    intro acc
    cases rest with
    | nil => simp [String.intercalate.go, join]
    | cons y rest =>
      rw [String.intercalate.go, ih, join_cons_cons]
      simp [String.append_assoc]

theorem join_eq_intercalate (xs : List String) (sep : String) :
    join xs sep = String.intercalate sep xs := by
  cases xs with
  | nil => rfl
  | cons x rest =>
    rw [String.intercalate, join_eq_intercalate_aux]
    cases rest with
    | nil => simp [join]
    | cons y rest => simp [join_cons_cons]

theorem digitChar_ne_newline (k : Nat) : Nat.digitChar (k % 10) ≠ '\n' := by
  have h : k % 10 < 10 := Nat.mod_lt k (by decide)
  generalize k % 10 = m at h
  interval_cases m <;> decide

theorem toDigitsCore_no_newline :
    ∀ (fuel n : Nat) (ds : List Char), '\n' ∉ ds → '\n' ∉ Nat.toDigitsCore 10 fuel n ds := by
  intro fuel
  induction fuel with
  | zero => intro n ds h; simpa [Nat.toDigitsCore] using h
  | succ fuel ih =>
    intro n ds h
    have hd : '\n' ∉ Nat.digitChar (n % 10) :: ds := by
      intro hm
      rcases List.mem_cons.mp hm with e | e
      · exact digitChar_ne_newline _ e.symm
      · exact h e
    unfold Nat.toDigitsCore
    dsimp only
    split
    · exact hd
    · exact ih _ _ hd

theorem repr_no_newline (n : Nat) : '\n' ∉ (Nat.repr n).toList := by
  show '\n' ∉ (Nat.toDigits 10 n).asString.data
  exact toDigitsCore_no_newline _ _ _ (by simp)

theorem fracDigits_no_newline : ∀ (fuel : Nat) (r : ℚ), '\n' ∉ fracDigits fuel r := by
  intro fuel
  induction fuel with
  | zero => intro r; simp [fracDigits]
  | succ fuel ih =>
    intro r
    unfold fracDigits
    split
    · simp
    · intro hm
      rcases List.mem_cons.mp hm with e | e
      · exact digitChar_ne_newline _ e.symm
      · exact ih _ e

theorem fracString_no_newline (fr : ℚ) : '\n' ∉ (fracString fr).toList := by
  unfold fracString
  split
  · decide
  · have e2 : ("." ++ String.mk (fracDigits 20 fr)).toList = '.' :: fracDigits 20 fr := by
      show ("." ++ String.mk (fracDigits 20 fr)).data = _
      rw [String.data_append]
      rfl
    rw [e2]
    intro h
    rcases List.mem_cons.mp h with h | h
    · exact absurd h (by decide)
    · exact fracDigits_no_newline _ _ h

theorem signString_no_newline (q : ℚ) : '\n' ∉ (signString q).toList := by
  unfold signString
  split <;> decide

theorem ratToString_no_newline (q : ℚ) : '\n' ∉ (ratToString q).toList := by
  unfold ratToString
  dsimp only
  intro hm
  have e : ∀ a b c : String, (a ++ b ++ c).toList = a.toList ++ b.toList ++ c.toList := by
    intro a b c
    show (a ++ b ++ c).data = _
    rw [String.data_append, String.data_append]
    rfl
  rw [e] at hm
  rcases List.mem_append.mp hm with h | h
  · rcases List.mem_append.mp h with h | h
    · exact signString_no_newline _ h
    · exact repr_no_newline _ h
  · exact fracString_no_newline _ h

theorem cell_toString_no_newline (c : Cell)
    (h : ∀ s, c = Cell.str s → '\n' ∉ s.toList) : '\n' ∉ c.toString.toList := by
  cases c with
  | str s => exact h s rfl
  | num x =>
    cases x with
    | nan => decide
    | fin q => exact ratToString_no_newline q
  | null => decide

theorem field_no_newline (s : String) (h : '\n' ∉ s.toList) :
    '\n' ∉ ("\"" ++ replaceQuotes s ++ "\"").toList := by
  have e : ("\"" ++ replaceQuotes s ++ "\"").toList
      = '"' :: (replaceQuotesChars s.toList ++ ['"']) := by
    show ("\"" ++ replaceQuotes s ++ "\"").data = _
    rw [String.data_append, String.data_append]
    rfl
  rw [e]
  intro hm
  rcases List.mem_cons.mp hm with h1 | h1
  · exact absurd h1 (by decide)
  · rcases List.mem_append.mp h1 with h2 | h2
    · rcases mem_replaceQuotesChars _ _ h2 with h3 | h3
      · exact absurd h3 (by decide)
      · exact h h3
    · exact absurd (List.mem_singleton.mp h2) (by decide)

theorem row_no_newline (r : List Cell)
    (h : ∀ c ∈ r, ∀ s, c = Cell.str s → '\n' ∉ s.toList) :
    '\n' ∉ (join (r.map (fun c => "\"" ++ replaceQuotes c.toString ++ "\"")) ",").toList := by
  intro hm
  rcases mem_join_toList _ _ _ hm with h1 | ⟨x, hx, hcx⟩
  · exact absurd h1 (by decide)
  · obtain ⟨c, hc, rfl⟩ := List.mem_map.mp hx
    exact field_no_newline _ (cell_toString_no_newline c (h c hc)) hcx

theorem rowsToCSV_lines (rows : List (List Cell)) (hne : rows ≠ [])
    (h : ∀ r ∈ rows, ∀ c ∈ r, ∀ s, c = Cell.str s → '\n' ∉ s.toList) :
    split (Server.rowsToCSV rows) '\n'
      = rows.map (fun r =>
          join (r.map (fun c => "\"" ++ replaceQuotes c.toString ++ "\"")) ",") := by
  unfold Server.rowsToCSV
  apply split_join_newline
  · simpa using hne
  · intro x hx
    obtain ⟨r, hr, rfl⟩ := List.mem_map.mp hx
    exact row_no_newline r (h r hr)

theorem join_getLast (sep : String) :
    ∀ (xs : List String) (x : String), xs.getLast? = some x → x.toList ≠ [] →
      (join xs sep).toList.getLast? = x.toList.getLast? := by
  intro xs
  induction xs with
  | nil => intro x h; simp at h
  | cons a rest ih =>
    intro x h hx
    cases rest with
    | nil =>
      have : a = x := by simpa using h
      rw [this]
      rfl
    | cons y rest =>
      rw [List.getLast?_cons_cons] at h
      have hJ := ih x h hx
      rw [join_cons_cons]
      have e : (a ++ sep ++ join (y :: rest) sep).toList
          = (a.toList ++ sep.toList) ++ (join (y :: rest) sep).toList := by
        show (a ++ sep ++ join (y :: rest) sep).data = _
        rw [String.data_append, String.data_append]
        rfl
      rw [e, List.getLast?_append, hJ]
      cases hl : x.toList.getLast? with
      | none => exact absurd (List.getLast?_eq_none_iff.mp hl) hx
      | some c => rfl

theorem field_toList (s : String) :
    ("\"" ++ replaceQuotes s ++ "\"").toList = ('"' :: replaceQuotesChars s.toList) ++ ['"'] := by
  show ("\"" ++ replaceQuotes s ++ "\"").data = _
  rw [String.data_append, String.data_append]
  rfl

theorem row_getLast (r : List Cell) (hr : r ≠ []) :
    (join (r.map (fun c => "\"" ++ replaceQuotes c.toString ++ "\"")) ",").toList.getLast?
      = some '"' := by
  cases hl : r.getLast? with
  | none => exact absurd (List.getLast?_eq_none_iff.mp hl) hr
  | some c =>
    have hm : (r.map (fun c => "\"" ++ replaceQuotes c.toString ++ "\"")).getLast?
        = some ("\"" ++ replaceQuotes c.toString ++ "\"") := by
      rw [List.getLast?_map, hl]
      rfl
    rw [join_getLast "," _ _ hm (by rw [field_toList]; simp), field_toList,
      List.getLast?_concat]

theorem rowsToCSV_getLast (rows : List (List Cell)) (r : List Cell)
    (hlast : rows.getLast? = some r) (hr : r ≠ []) :
    (Server.rowsToCSV rows).toList.getLast? = some '"' := by
  unfold Server.rowsToCSV
  have hm : (rows.map (fun r =>
      join (r.map (fun c => "\"" ++ replaceQuotes c.toString ++ "\"")) ",")).getLast?
      = some (join (r.map (fun c => "\"" ++ replaceQuotes c.toString ++ "\"")) ",") := by
    rw [List.getLast?_map, hlast]
    rfl
  have hne : (join (r.map (fun c => "\"" ++ replaceQuotes c.toString ++ "\"")) ",").toList
      ≠ [] := by
    intro h0
    have := row_getLast r hr
    rw [h0] at this
    simp at this
  rw [join_getLast "\n" _ _ hm hne, row_getLast r hr]

theorem field_eq_csvFieldSpec (s : String) :
    "\"" ++ replaceQuotes s ++ "\"" = csvFieldSpec s := by
  unfold csvFieldSpec replaceQuotes
  rw [replaceQuotesChars_eq_flatMap]

theorem rowsToCSV_eq_csvSpec (rows : List (List Cell)) :
    Server.rowsToCSV rows = csvSpec rows := by
  unfold Server.rowsToCSV csvSpec
  simp only [join_eq_intercalate, field_eq_csvFieldSpec]

/-- The code's `+(x).toFixed(3)` of a non-negative number is that number rounded to three
decimal places. -/
theorem JsNum.toFixed3_rounded (q : ℚ) (hq : 0 ≤ q) :
    ∃ r : ℚ, (JsNum.fin q).toFixed3 = JsNum.fin r ∧ RoundedTo3 r q ∧ 0 ≤ r := by
  have h1 := Int.floor_le (q * 1000 + 1 / 2)
  have h2 := Int.lt_floor_add_one (q * 1000 + 1 / 2)
  have h3 : (0 : ℤ) ≤ ⌊q * 1000 + 1 / 2⌋ := Int.floor_nonneg.mpr (by linarith)
  have h4 : (0 : ℚ) ≤ ((⌊q * 1000 + 1 / 2⌋ : ℤ) : ℚ) := by exact_mod_cast h3
  refine ⟨((⌊q * 1000 + 1 / 2⌋ : ℤ) : ℚ) / 1000, ?_, ⟨⟨_, rfl⟩, ?_⟩, ?_⟩
  · simp only [JsNum.toFixed3]
    rw [if_neg (not_lt.mpr hq)]
  · rw [abs_le]
    constructor <;> linarith
  · linarith

/-! ## The join of the listing -/

/-- When every leave has exactly one owner row, the leaves of the joined rows a predicate on
the leave selects are the selected leaves, in the order of the table. -/
theorem joinUsers_filter_leaves (users : List User) (p : LeaveRow → Bool) (q : Leave → Bool)
    (hpq : ∀ r, p r = q r.leave) :
    ∀ ls : List Leave,
      (∀ l ∈ ls, (users.filter (fun u => l.user_id == u.id)).length = 1) →
      (((ls.flatMap (fun l => (users.filter (fun u => l.user_id == u.id)).map
          (fun u => (⟨l, u.name, u.role⟩ : LeaveRow)))).filter p).map (fun r => r.leave))
        = ls.filter q := by
  intro ls
  induction ls with
  | nil => intro _; rfl
  | cons l ls ih =>
    intro hown
    obtain ⟨u, hu⟩ := List.length_eq_one.mp (hown l (List.mem_cons_self _ _))
    have ih2 := ih (fun x hx => hown x (List.mem_cons_of_mem _ hx))
    rw [List.flatMap_cons, List.filter_append, List.map_append, ih2, hu]
    by_cases hq : q l = true
    · simp [List.filter_cons, hpq, hq]
    · simp [List.filter_cons, hpq, hq]

theorem selectedByFilters_none (l : Leave) : selectedByFilters none none l = true := rfl

/-- The `substr(x, 1, 4)` of the listing's SQL is the first four characters of `x`. -/
theorem substr4_eq_firstFourChars (s : String) : substr4 s = firstFourChars s := by
  unfold substr4 firstFourChars
  rw [String.take_eq]
  rfl

/-- The status clause `if (status) ... l.status = ?` keeps a row exactly when the filter is
absent, empty, or the row's status. -/
theorem statusClause_eq (s : Option String) (x : String) :
    (if truthy s then x == s.getD "" else true) = (s == none || s == some "" || s == some x) := by
  cases s with
  | none => rfl
  | some v =>
    by_cases hv : v = ""
    · subst hv
      simp [truthy]
    · have ht : truthy (some v) = true := by simp [truthy, hv]
      have h1 : (some v == (none : Option String)) = false := rfl
      have h2 : (some v == some "") = false := by simpa using hv
      have h3 : (some v == some x) = (x == v) := by
        rw [Bool.eq_iff_iff]
        simp only [beq_iff_eq, Option.some.injEq]
        exact eq_comm
      rw [if_pos ht, h1, h2, h3]
      rfl

/-- The year clause keeps a row exactly when the filter is absent, empty, or one of the two
compared texts. -/
theorem yearClause_eq (s : Option String) (x y : String) :
    (if truthy s then (x == s.getD "" || y == s.getD "") else true)
      = (s == none || s == some "" || s == some x || s == some y) := by
  cases s with
  | none => rfl
  | some v =>
    by_cases hv : v = ""
    · subst hv
      simp [truthy]
    · have ht : truthy (some v) = true := by simp [truthy, hv]
      have h1 : (some v == (none : Option String)) = false := rfl
      have h2 : (some v == some "") = false := by simpa using hv
      have h3 : ∀ z : String, (some v == some z) = (z == v) := by
        intro z
        rw [Bool.eq_iff_iff]
        simp only [beq_iff_eq, Option.some.injEq]
        exact eq_comm
      rw [if_pos ht, h1, h2, h3, h3]
      rfl

/-- The WHERE clauses the listing builds for a manager select the rows of
`selectedByFilters`. -/
theorem clauses_eq_selectedByFilters (status year : Option String) (l : Leave) :
    ((if truthy status then l.status == status.getD "" else true) &&
      (if truthy year then
        (substr4 l.start_date == year.getD "" || substr4 l.end_date == year.getD "")
       else true))
      = selectedByFilters status year l := by
  rw [substr4_eq_firstFourChars, substr4_eq_firstFourChars, statusClause_eq, yearClause_eq]
  rfl

theorem filter_owner_length (users : List User) (x : Nat) :
    (users.filter (fun u => x == u.id)).length
      = ((users.map (fun u => u.id)).filter (fun i => x == i)).length := by
  induction users with
  | nil => rfl
  | cons v vs ih =>
    simp only [List.map_cons, List.filter_cons]
    split <;> simp [ih]

theorem ids_filter_length_one (x : Nat) :
    ∀ ids : List Nat, ids.Nodup → x ∈ ids → (ids.filter (fun i => x == i)).length = 1 := by
  intro ids
  induction ids with
  | nil => intro _ hx; cases hx
  | cons i is ih =>
    intro hn hx
    rw [List.nodup_cons] at hn
    by_cases h : x = i
    · subst h
      have hnil : is.filter (fun j => x == j) = [] := by
        rw [List.filter_eq_nil_iff]
        intro j hj hxj
        have : x = j := by simpa using hxj
        exact hn.1 (this ▸ hj)
      simp [List.filter_cons, hnil]
    · have hx2 : x ∈ is := by
        rcases List.mem_cons.mp hx with h2 | h2
        · exact absurd h2 h
        · exact h2
      simp [List.filter_cons, h, ih hn.2 hx2]

/-- With unique user ids, a leave whose owner row is found has exactly one owner row. -/
theorem owner_length_one (users : List User) (x : Nat) (u : User)
    (hn : (users.map (fun u => u.id)).Nodup)
    (hf : users.find? (fun u => u.id == x) = some u) :
    (users.filter (fun u => x == u.id)).length = 1 := by
  rw [filter_owner_length]
  apply ids_filter_length_one x _ hn
  have hid : u.id = x := by simpa using List.find?_some hf
  rw [← hid]
  exact List.mem_map.mpr ⟨u, List.mem_of_find?_eq_some hf, rfl⟩

/-! ## The duration computation (Server) -/

theorem server_minutesOf_full_start :
    Server.minutesOf (some Server.DEFAULTS.full.start) = some (JsNum.fin 525) := by decide!

theorem server_minutesOf_full_end :
    Server.minutesOf (some Server.DEFAULTS.full.end_) = some (JsNum.fin 1080) := by decide!

theorem server_fullDayHours :
    Server.fullDayMinutes.div (JsNum.fin 60) = JsNum.fin (37 / 4) := by decide!

theorem server_startMinutes_ne_none (f : Frame) : ∃ x, Server.startMinutes f = some x := by
  unfold Server.startMinutes
  cases h : Server.minutesOf f.start_time with
  | none => exact ⟨JsNum.fin 525, by simp [server_minutesOf_full_start]⟩
  | some x => exact ⟨x, by simp⟩

theorem server_endMinutes_ne_none (f : Frame) : ∃ x, Server.endMinutes f = some x := by
  unfold Server.endMinutes
  cases h : Server.minutesOf f.end_time with
  | none => exact ⟨JsNum.fin 1080, by simp [server_minutesOf_full_end]⟩
  | some x => exact ⟨x, by simp⟩

theorem server_computeDuration_sameDay (tz : Int) (date : String) (f : Frame) (sm em : JsNum)
    (hs : Server.startMinutes f = some sm) (he : Server.endMinutes f = some em) :
    Server.computeDuration tz date date f =
      if em.lt sm then none
      else if f.tf == "am" || f.tf == "pm" then
        some ⟨JsNum.fin (1 / 2), ((em.sub sm).div (JsNum.fin 60)).toFixed3⟩
      else if f.tf == "full day" || f.tf == "fullday" || f.tf == "full" then
        some ⟨JsNum.fin 1, ((em.sub sm).div (JsNum.fin 60)).toFixed3⟩
      else
        some ⟨((((em.sub sm).div (JsNum.fin 60)).toFixed3).div (JsNum.fin (37 / 4))).toFixed3,
          ((em.sub sm).div (JsNum.fin 60)).toFixed3⟩ := by
  simp only [Server.computeDuration, beq_self_eq_true, if_true, hs, he, server_fullDayHours]

theorem server_computeDuration_multiDay (tz : Int) (sd ed : String) (f : Frame) (h : sd ≠ ed) :
    Server.computeDuration tz sd ed f =
      some ⟨JsNum.fin (Server.daysBetween tz sd ed : ℚ),
        ((JsNum.fin (Server.daysBetween tz sd ed : ℚ)).mul (JsNum.fin (37 / 4))).toFixed3⟩ := by
  have hb : (sd == ed) = false := by simpa using h
  simp only [Server.computeDuration, hb, server_fullDayHours]
  rfl


theorem server_applyDefaults_am_missing (st et : Option String)
    (h : (truthy st && truthy et) = false) :
    Server.applyDefaults st et (some "AM")
      = ⟨"AM", "am", some "08:45", some "13:20"⟩ := by
  have h0 : (if !truthy (some "AM") then "Full Day" else (some "AM" : Option String).getD "")
      = "AM" := by
    decide
  have h2 : toLowerCase (orEmpty (some "AM")) = "am" := by decide
  have h3 : (!truthy st || !truthy et) = true := by
    cases hs : truthy st <;> cases he : truthy et <;> simp_all
  simp only [Server.applyDefaults, h0, h2, h3]
  rw [if_pos (by decide)]
  decide

theorem server_applyDefaults_am_supplied (st et : Option String)
    (h : (truthy st && truthy et) = true) :
    Server.applyDefaults st et (some "AM")
      = ⟨"AM", "am", st, et⟩ := by
  have h0 : (if !truthy (some "AM") then "Full Day" else (some "AM" : Option String).getD "")
      = "AM" := by
    decide
  have h2 : toLowerCase (orEmpty (some "AM")) = "am" := by decide
  have h3 : (!truthy st || !truthy et) = false := by
    cases hs : truthy st <;> cases he : truthy et <;> simp_all
  simp only [Server.applyDefaults, h0, h2, h3]
  rw [if_neg (by decide)]

theorem server_applyDefaults_am_tf (st et : Option String) :
    (Server.applyDefaults st et (some "AM")).tf = "am" := by
  cases h : (truthy st && truthy et) with
  | false => rw [server_applyDefaults_am_missing st et h]
  | true => rw [server_applyDefaults_am_supplied st et h]

theorem server_applyDefaults_fullDay_missing (st et : Option String)
    (h : (truthy st && truthy et) = false) :
    Server.applyDefaults st et (some "Full Day")
      = ⟨"Full Day", "full day", some "08:45", some "18:00"⟩ := by
  have h0 : (if !truthy (some "Full Day") then "Full Day" else (some "Full Day" : Option String).getD "")
      = "Full Day" := by
    decide
  have h2 : toLowerCase (orEmpty (some "Full Day")) = "full day" := by decide
  have h3 : (!truthy st || !truthy et) = true := by
    cases hs : truthy st <;> cases he : truthy et <;> simp_all
  simp only [Server.applyDefaults, h0, h2, h3]
  rw [if_pos (by decide)]
  decide

theorem server_applyDefaults_fullDay_supplied (st et : Option String)
    (h : (truthy st && truthy et) = true) :
    Server.applyDefaults st et (some "Full Day")
      = ⟨"Full Day", "full day", st, et⟩ := by
  have h0 : (if !truthy (some "Full Day") then "Full Day" else (some "Full Day" : Option String).getD "")
      = "Full Day" := by
    decide
  have h2 : toLowerCase (orEmpty (some "Full Day")) = "full day" := by decide
  have h3 : (!truthy st || !truthy et) = false := by
    cases hs : truthy st <;> cases he : truthy et <;> simp_all
  simp only [Server.applyDefaults, h0, h2, h3]
  rw [if_neg (by decide)]

theorem server_applyDefaults_fullDay_tf (st et : Option String) :
    (Server.applyDefaults st et (some "Full Day")).tf = "full day" := by
  cases h : (truthy st && truthy et) with
  | false => rw [server_applyDefaults_fullDay_missing st et h]
  | true => rw [server_applyDefaults_fullDay_supplied st et h]

theorem server_applyDefaults_absent_missing (st et : Option String)
    (h : (truthy st && truthy et) = false) :
    Server.applyDefaults st et (none)
      = ⟨"Full Day", "full day", some "08:45", some "18:00"⟩ := by
  have h0 : (if !truthy (none) then "Full Day" else (none : Option String).getD "")
      = "Full Day" := by
    decide
  have h2 : toLowerCase (orEmpty (some "Full Day")) = "full day" := by decide
  have h3 : (!truthy st || !truthy et) = true := by
    cases hs : truthy st <;> cases he : truthy et <;> simp_all
  simp only [Server.applyDefaults, h0, h2, h3]
  rw [if_pos (by decide)]
  decide

theorem server_applyDefaults_absent_supplied (st et : Option String)
    (h : (truthy st && truthy et) = true) :
    Server.applyDefaults st et (none)
      = ⟨"Full Day", "full day", st, et⟩ := by
  have h0 : (if !truthy (none) then "Full Day" else (none : Option String).getD "")
      = "Full Day" := by
    decide
  have h2 : toLowerCase (orEmpty (some "Full Day")) = "full day" := by decide
  have h3 : (!truthy st || !truthy et) = false := by
    cases hs : truthy st <;> cases he : truthy et <;> simp_all
  simp only [Server.applyDefaults, h0, h2, h3]
  rw [if_neg (by decide)]

theorem server_applyDefaults_absent_tf (st et : Option String) :
    (Server.applyDefaults st et (none)).tf = "full day" := by
  cases h : (truthy st && truthy et) with
  | false => rw [server_applyDefaults_absent_missing st et h]
  | true => rw [server_applyDefaults_absent_supplied st et h]

theorem server_computeDuration_sameDay_days (tz : Int) (date : String) (f : Frame) (tag : String) (q : ℚ)
    (htf : f.tf = tag)
    (hq : (if tag == "am" || tag == "pm" then (1 / 2 : ℚ) else 1) = q)
    (htag : (tag == "am" || tag == "pm" || tag == "full day" || tag == "fullday" || tag == "full")
      = true)
    (d : Duration) (h : Server.computeDuration tz date date f = some d) :
    d.durationDays = JsNum.fin q := by
  obtain ⟨sm, hs⟩ := server_startMinutes_ne_none f
  obtain ⟨em, he⟩ := server_endMinutes_ne_none f
  rw [server_computeDuration_sameDay tz date f sm em hs he, htf] at h
  cases hlt : em.lt sm with
  | true => rw [hlt] at h; simp at h
  | false =>
    rw [hlt] at h
    simp only [Bool.false_eq_true, if_false] at h
    cases h1 : (tag == "am" || tag == "pm") with
    | true =>
      rw [h1] at h hq
      simp only [if_true] at h hq
      rw [← hq, ← Option.some.inj h]
    | false =>
      rw [h1] at h hq
      have h2 : (tag == "full day" || tag == "fullday" || tag == "full") = true := by
        simpa [Bool.or_assoc, h1] using htag
      rw [h2] at h
      simp only [Bool.false_eq_true, if_false, if_true] at h hq
      rw [← hq, ← Option.some.inj h]

theorem server_applyDefaults_empty_missing (st et : Option String)
    (h : (truthy st && truthy et) = false) :
    Server.applyDefaults st et (some "")
      = ⟨"Full Day", "full day", some "08:45", some "18:00"⟩ := by
  have h0 : (if !truthy (some "") then "Full Day" else (some "" : Option String).getD "")
      = "Full Day" := by
    decide
  have h2 : toLowerCase (orEmpty (some "Full Day")) = "full day" := by decide
  have h3 : (!truthy st || !truthy et) = true := by
    cases hs : truthy st <;> cases he : truthy et <;> simp_all
  simp only [Server.applyDefaults, h0, h2, h3]
  rw [if_pos (by decide)]
  decide

theorem server_applyDefaults_empty_supplied (st et : Option String)
    (h : (truthy st && truthy et) = true) :
    Server.applyDefaults st et (some "")
      = ⟨"Full Day", "full day", st, et⟩ := by
  have h0 : (if !truthy (some "") then "Full Day" else (some "" : Option String).getD "")
      = "Full Day" := by
    decide
  have h2 : toLowerCase (orEmpty (some "Full Day")) = "full day" := by decide
  have h3 : (!truthy st || !truthy et) = false := by
    cases hs : truthy st <;> cases he : truthy et <;> simp_all
  simp only [Server.applyDefaults, h0, h2, h3]
  rw [if_neg (by decide)]

theorem server_applyDefaults_empty_tf (st et : Option String) :
    (Server.applyDefaults st et (some "")).tf = "full day" := by
  cases h : (truthy st && truthy et) with
  | false => rw [server_applyDefaults_empty_missing st et h]
  | true => rw [server_applyDefaults_empty_supplied st et h]

theorem server_minutesOf_no_colon (s : String) (h : ':' ∉ s.toList) :
    Server.minutesOf (some s) = none := by
  obtain ⟨p, hp⟩ := splitChars_of_not_mem ':' s.toList h
  unfold Server.minutesOf split
  rw [orEmpty_some, hp]
  rfl

theorem server_computeDuration_nonNeg (tz : Int) (sd ed : String) (f : Frame) (d : Duration)
    (h : Server.computeDuration tz sd ed f = some d) : JsNum.NonNeg d.durationDays := by
  by_cases hse : sd = ed
  · subst hse
    obtain ⟨sm, hs⟩ := server_startMinutes_ne_none f
    obtain ⟨em, he⟩ := server_endMinutes_ne_none f
    rw [server_computeDuration_sameDay tz sd f sm em hs he] at h
    cases hlt : em.lt sm with
    | true => rw [hlt] at h; simp at h
    | false =>
      rw [hlt] at h
      simp only [Bool.false_eq_true, if_false] at h
      split at h
      · rw [← Option.some.inj h]
        exact JsNum.nonNeg_fin (by norm_num)
      · split at h
        · rw [← Option.some.inj h]
          exact JsNum.nonNeg_fin (by norm_num)
        · rw [← Option.some.inj h]
          exact JsNum.nonNeg_toFixed3 (JsNum.nonNeg_div (JsNum.nonNeg_toFixed3
            (JsNum.nonNeg_div (JsNum.nonNeg_sub_of_not_lt hlt) (by norm_num))) (by norm_num))
  · rw [server_computeDuration_multiDay tz sd ed f hse] at h
    rw [← Option.some.inj h]
    exact JsNum.nonNeg_fin (Nat.cast_nonneg _)

theorem server_postLeaves_invalid (tz : Int) (appliedAt : String) (user : AuthUser) (body : LeaveBody)
    (file : Option String) (db : Db)
    (hsd : truthy body.start_date = true) (hed : truthy body.end_date = true)
    (hd : Server.computeDuration tz (body.start_date.getD "") (body.end_date.getD "")
      (Server.applyDefaults body.start_time body.end_time body.time_frame) = none) :
    Server.postLeaves tz appliedAt user body file db
      = (Response.error 400 "Invalid start_time or end_time for same-day leave", db) := by
  simp only [Server.postLeaves, hsd, hed, hd]
  rfl

theorem server_postLeaves_insufficient (tz : Int) (appliedAt : String) (user : AuthUser)
    (body : LeaveBody) (file : Option String) (db : Db) (d : Duration) (u : User)
    (hsd : truthy body.start_date = true) (hed : truthy body.end_date = true)
    (hd : Server.computeDuration tz (body.start_date.getD "") (body.end_date.getD "")
      (Server.applyDefaults body.start_time body.end_time body.time_frame) = some d)
    (hu : db.users.find? (fun u => u.id == user.id) = some u)
    (hgt : d.durationDays.gt (u.allocation.toJs.sub u.used.toJs) = true) :
    Server.postLeaves tz appliedAt user body file db
      = (Response.error 400 "Insufficient leave balance", db) := by
  simp only [Server.postLeaves, hsd, hed, hd, hu, SqlNum.orZero_eq_toJs, hgt]
  rfl

theorem server_postLeaves_accept (tz : Int) (appliedAt : String) (user : AuthUser)
    (body : LeaveBody) (file : Option String) (db : Db) (d : Duration) (u : User)
    (hsd : truthy body.start_date = true) (hed : truthy body.end_date = true)
    (hd : Server.computeDuration tz (body.start_date.getD "") (body.end_date.getD "")
      (Server.applyDefaults body.start_time body.end_time body.time_frame) = some d)
    (hu : db.users.find? (fun u => u.id == user.id) = some u)
    (hgt : d.durationDays.gt (u.allocation.toJs.sub u.used.toJs) = false) :
    Server.postLeaves tz appliedAt user body file db
      = (Response.leaveRequested (db.leaveSeq + 1),
          { db with
            leaves := db.leaves ++ [
              { id := db.leaveSeq + 1, user_id := user.id, type := body.type,
                start_date := body.start_date.getD "", end_date := body.end_date.getD "",
                start_time := orEmpty
                  (Server.applyDefaults body.start_time body.end_time body.time_frame).start_time,
                end_time := orEmpty
                  (Server.applyDefaults body.start_time body.end_time body.time_frame).end_time,
                time_frame := orEmpty (some
                  (Server.applyDefaults body.start_time body.end_time body.time_frame).time_frame),
                reason := orEmpty body.reason, attachment := file,
                duration_days := d.durationDays.toSql,
                duration_hours := d.durationHours.toSql,
                status := "Pending", applied_at := appliedAt,
                actioned_at := none, action_by := none }],
            leaveSeq := db.leaveSeq + 1 }) := by
  simp only [Server.postLeaves, hsd, hed, hd, hu, SqlNum.orZero_eq_toJs, hgt]
  rfl

theorem server_postLeaves_users (tz : Int) (appliedAt : String) (user : AuthUser) (body : LeaveBody)
    (file : Option String) (db : Db) :
    (Server.postLeaves tz appliedAt user body file db).2.users = db.users := by
  unfold Server.postLeaves
  split
  · rfl
  · dsimp only
    split
    · rfl
    · split
      · rfl
      · split <;> rfl

theorem server_postLeaves_leaves (tz : Int) (appliedAt : String) (user : AuthUser) (body : LeaveBody)
    (file : Option String) (db : Db) :
    (Server.postLeaves tz appliedAt user body file db).2.leaves = db.leaves ∨
    ∃ (d : Duration) (row : Leave),
      Server.computeDuration tz (body.start_date.getD "") (body.end_date.getD "")
        (Server.applyDefaults body.start_time body.end_time body.time_frame) = some d ∧
      row.duration_days = d.durationDays.toSql ∧
      (Server.postLeaves tz appliedAt user body file db).2.leaves = db.leaves ++ [row] := by
  unfold Server.postLeaves
  split
  · exact Or.inl rfl
  · dsimp only
    split
    · exact Or.inl rfl
    · rename_i d hd
      split
      · exact Or.inl rfl
      · split
        · exact Or.inl rfl
        · exact Or.inr ⟨d, _, hd, rfl, rfl⟩

/-! ## The approval handler (Server) -/

theorem server_approve_eq (actionedAt : String) (user : AuthUser) (id : Nat)
    (action : Option String) (db : Db) (leaf : Leave)
    (hrole : (user.role == "Manager" || user.role == "Admin") = true)
    (hact : (action == some "Approved" || action == some "Rejected") = true)
    (hleaf : db.leaves.find? (fun l => l.id == id) = some leaf) :
    Server.approve actionedAt user id action db =
      (Response.actionRecorded,
        { db with
          leaves := db.leaves.map (fun l =>
            if l.id == id then
              { l with status := action.getD "", actioned_at := some actionedAt,
                       action_by := some user.id }
            else l),
          users :=
            if action == some "Approved" then
              db.users.map (fun u =>
                if u.id == leaf.user_id then { u with used := SqlNum.add u.used leaf.duration_days } else u)
            else db.users }) := by
  simp only [Server.approve, hrole, hact, hleaf]
  rfl

theorem server_approve_forbidden (actionedAt : String) (user : AuthUser) (id : Nat)
    (action : Option String) (db : Db)
    (hrole : (user.role == "Manager" || user.role == "Admin") = false) :
    Server.approve actionedAt user id action db
      = (Response.error 403 "Manager role required", db) := by
  simp only [Server.approve, hrole]
  rfl

theorem server_approve_invalid (actionedAt : String) (user : AuthUser) (id : Nat)
    (action : Option String) (db : Db)
    (hrole : (user.role == "Manager" || user.role == "Admin") = true)
    (hact : (action == some "Approved" || action == some "Rejected") = false) :
    Server.approve actionedAt user id action db
      = (Response.error 400 "action must be Approved or Rejected", db) := by
  simp only [Server.approve, hrole, hact]
  rfl

theorem server_approve_find_leaf (actionedAt : String) (user : AuthUser) (id : Nat)
    (action : Option String) (db : Db) (leaf : Leave)
    (hrole : (user.role == "Manager" || user.role == "Admin") = true)
    (hact : (action == some "Approved" || action == some "Rejected") = true)
    (hleaf : db.leaves.find? (fun l => l.id == id) = some leaf) :
    (Server.approve actionedAt user id action db).2.leaves.find? (fun l => l.id == id)
      = some { leaf with status := action.getD "", actioned_at := some actionedAt,
                         action_by := some user.id } := by
  rw [server_approve_eq actionedAt user id action db leaf hrole hact hleaf]
  dsimp only
  rw [find?_map_update _ _ _ (by intro x; by_cases h : (x.id == id) = true <;> simp [h]), hleaf]
  have hid : leaf.id = id := by simpa using List.find?_some hleaf
  simp [hid]

theorem server_approve_find_owner_approved (actionedAt : String) (user : AuthUser) (id : Nat)
    (db : Db) (leaf : Leave) (owner : User) (d u : ℚ)
    (hrole : (user.role == "Manager" || user.role == "Admin") = true)
    (hleaf : db.leaves.find? (fun l => l.id == id) = some leaf)
    (hd : leaf.duration_days = some d)
    (hown : db.users.find? (fun x => x.id == leaf.user_id) = some owner)
    (hu : owner.used = some u) :
    (Server.approve actionedAt user id (some "Approved") db).2.users.find?
        (fun x => x.id == leaf.user_id)
      = some { owner with used := some (u + d) } := by
  rw [server_approve_eq actionedAt user id (some "Approved") db leaf hrole (by decide) hleaf]
  dsimp only
  rw [if_pos (by decide),
    find?_map_update _ _ _ (by intro x; by_cases h : (x.id == leaf.user_id) = true <;> simp [h]),
    hown]
  have hid : owner.id = leaf.user_id := by simpa using List.find?_some hown
  simp only [Option.map_some', hid, beq_self_eq_true, if_true, hu, hd, Option.some.injEq,
    User.mk.injEq, true_and, and_true]
  exact rfl

theorem server_approve_users_rejected (actionedAt : String) (user : AuthUser) (id : Nat)
    (action : Option String) (db : Db) (h : action ≠ some "Approved") :
    (Server.approve actionedAt user id action db).2.users = db.users := by
  have h' : (action == some "Approved") = false := by simpa using h
  unfold Server.approve
  split
  · rfl
  · split
    · rfl
    · split
      · rfl
      · simp [h']

theorem server_approve_leaves_duration (actionedAt : String) (user : AuthUser) (id : Nat)
    (action : Option String) (db : Db) (l' : Leave)
    (h : l' ∈ (Server.approve actionedAt user id action db).2.leaves) :
    ∃ l ∈ db.leaves, l'.duration_days = l.duration_days := by
  unfold Server.approve at h
  split at h
  · exact ⟨l', h, rfl⟩
  · split at h
    · exact ⟨l', h, rfl⟩
    · split at h
      · exact ⟨l', h, rfl⟩
      · dsimp only at h
        obtain ⟨l, hl, rfl⟩ := List.mem_map.mp h
        refine ⟨l, hl, ?_⟩
        split <;> rfl

theorem server_reachable_duration_nonNeg (tz : Int) (db : Db) (h : Server.Reachable tz db) :
    ∀ l ∈ db.leaves, ∀ q, l.duration_days = some q → 0 ≤ q := by
  induction h with
  | init db h0 =>
    intro l hl
    rw [h0] at hl
    cases hl
  | submit db appliedAt user body file _ ih =>
    intro l hl q hq
    rcases server_postLeaves_leaves tz appliedAt user body file db with h1 | ⟨d, row, hd, hrow, h1⟩
    · rw [h1] at hl
      exact ih l hl q hq
    · rw [h1] at hl
      rcases List.mem_append.mp hl with hl | hl
      · exact ih l hl q hq
      · have hlr : l = row := by simpa using hl
        rw [hlr, hrow] at hq
        have hn := server_computeDuration_nonNeg tz _ _ _ d hd
        cases hdd : d.durationDays with
        | nan => rw [hdd] at hq; cases hq
        | fin x =>
          rw [hdd] at hq
          have hx : x = q := by simpa [JsNum.toSql] using hq
          rw [← hx]
          exact hn x hdd
  | decide db actionedAt user id action _ ih =>
    intro l hl q hq
    obtain ⟨l0, hl0, he⟩ := server_approve_leaves_duration actionedAt user id action db l hl
    rw [he] at hq
    exact ih l0 hl0 q hq

/-! ## The listing handler (Server) -/

theorem server_getLeaves_own_rows (user : AuthUser) (status year : Option String) (db : Db)
    (hrole : (user.role == "Manager" || user.role == "Admin") = false) :
    ∃ rs, Server.getLeaves user status year db = (Response.rows rs, db) ∧
      ∀ r ∈ rs, r.leave.user_id = user.id := by
  refine ⟨_, rfl, ?_⟩
  intro r hr
  unfold orderByAppliedAtDesc at hr
  rw [List.mem_insertionSort] at hr
  have hf := (List.mem_filter.mp hr).2
  simp only [hrole, Bool.and_eq_true] at hf
  simpa using hf.2

theorem server_decideAll_used (id : Nat) (d : ℚ) (uid : Nat) :
    ∀ (cs : List Decision) (db : Db) (leaf : Leave) (owner : User) (u : ℚ),
      db.leaves.find? (fun l => l.id == id) = some leaf →
      leaf.duration_days = some d → leaf.user_id = uid →
      db.users.find? (fun x => x.id == uid) = some owner → owner.used = some u →
      ∃ owner', (Server.decideAll id cs db).users.find? (fun x => x.id == uid) = some owner' ∧
        owner'.used = some (u + (approvals cs : ℚ) * d) := by
  intro cs
  induction cs with
  | nil =>
    intro db leaf owner u _ _ _ hown hu
    exact ⟨owner, hown, by simp [approvals, hu]⟩
  | cons c cs ih =>
    intro db leaf owner u hleaf hd huid hown hu
    have hfold : Server.decideAll id (c :: cs) db
        = Server.decideAll id cs (Server.approve c.actionedAt c.user id c.action db).2 := rfl
    rw [hfold]
    cases hrole : (c.user.role == "Manager" || c.user.role == "Admin") with
    | false =>
      rw [server_approve_forbidden c.actionedAt c.user id c.action db hrole]
      have hc : approvals (c :: cs) = approvals cs := by simp [approvals, hrole]
      rw [hc]
      exact ih db leaf owner u hleaf hd huid hown hu
    | true =>
      cases hact : (c.action == some "Approved" || c.action == some "Rejected") with
      | false =>
        rw [server_approve_invalid c.actionedAt c.user id c.action db hrole hact]
        have hA : (c.action == some "Approved") = false := by
          cases h : (c.action == some "Approved") with
          | false => rfl
          | true => rw [h] at hact; simp at hact
        have hc : approvals (c :: cs) = approvals cs := by simp [approvals, hrole, hA]
        rw [hc]
        exact ih db leaf owner u hleaf hd huid hown hu
      | true =>
        have hleaf' := server_approve_find_leaf c.actionedAt c.user id c.action db leaf hrole hact
          hleaf
        by_cases hA : c.action = some "Approved"
        · have hown' := server_approve_find_owner_approved c.actionedAt c.user id db leaf owner
            d u hrole hleaf hd (by rw [huid]; exact hown) hu
          rw [huid, ← hA] at hown'
          have hc : approvals (c :: cs) = approvals cs + 1 := by simp [approvals, hrole, hA]
          obtain ⟨o, ho, hou⟩ := ih _ _ _ (u + d) hleaf' hd huid hown' rfl
          refine ⟨o, ho, ?_⟩
          rw [hou, hc]
          push_cast
          ring_nf
        · have husers := server_approve_users_rejected c.actionedAt c.user id c.action db hA
          have hA' : (c.action == some "Approved") = false := by simpa using hA
          have hc : approvals (c :: cs) = approvals cs := by simp [approvals, hrole, hA']
          rw [hc]
          exact ih _ _ owner u hleaf' hd huid (by rw [husers]; exact hown) hu

theorem server_approve_notFound (actionedAt : String) (user : AuthUser) (id : Nat)
    (action : Option String) (db : Db)
    (hrole : (user.role == "Manager" || user.role == "Admin") = true)
    (hact : (action == some "Approved" || action == some "Rejected") = true)
    (hleaf : db.leaves.find? (fun l => l.id == id) = none) :
    Server.approve actionedAt user id action db = (Response.error 404 "Leave not found", db) := by
  simp only [Server.approve, hrole, hact, hleaf]
  rfl

theorem server_approve_frame (actionedAt : String) (user : AuthUser) (id : Nat)
    (action : Option String) (db : Db) (leaf : Leave)
    (hrole : (user.role == "Manager" || user.role == "Admin") = true)
    (hact : (action == some "Approved" || action == some "Rejected") = true)
    (hleaf : db.leaves.find? (fun l => l.id == id) = some leaf) :
    (Server.approve actionedAt user id action db).2.leaveSeq = db.leaveSeq ∧
    List.Forall₂
      (fun l l' =>
        if l.id = id then
          l' = { l with status := action.getD "", actioned_at := some actionedAt,
                        action_by := some user.id }
        else l' = l)
      db.leaves (Server.approve actionedAt user id action db).2.leaves ∧
    List.Forall₂
      (fun u u' =>
        if action = some "Approved" ∧ u.id = leaf.user_id then
          u' = { u with used := SqlNum.add u.used leaf.duration_days }
        else u' = u)
      db.users (Server.approve actionedAt user id action db).2.users := by
  rw [server_approve_eq actionedAt user id action db leaf hrole hact hleaf]
  refine ⟨rfl, ?_, ?_⟩
  · dsimp only
    rw [List.forall₂_map_right_iff, List.forall₂_same]
    intro l _
    by_cases h : l.id = id
    · simp [h]
    · simp [h]
  · dsimp only
    by_cases hA : action = some "Approved"
    · rw [if_pos (by simp [hA]), List.forall₂_map_right_iff, List.forall₂_same]
      intro u _
      by_cases h : u.id = leaf.user_id
      · simp [h, hA]
      · simp [h]
    · rw [if_neg (by simpa using hA), List.forall₂_same]
      intro u _
      simp [hA]

theorem server_applyDefaults_some (st et : Option String) (t : String) (ht : t ≠ "") :
    Server.applyDefaults st et (some t) =
      if (!truthy st || !truthy et) &&
          (toLowerCase t == "am" || toLowerCase t == "pm" || toLowerCase t == "full day" ||
            toLowerCase t == "fullday" || toLowerCase t == "full") then
        if toLowerCase t == "am" then ⟨t, toLowerCase t, some "08:45", some "13:20"⟩
        else if toLowerCase t == "pm" then ⟨t, toLowerCase t, some "13:30", some "18:00"⟩
        else ⟨t, toLowerCase t, some "08:45", some "18:00"⟩
      else ⟨t, toLowerCase t, st, et⟩ := by
  have h0 : (if !truthy (some t) then "Full Day" else (some t : Option String).getD "") = t := by
    simp [truthy, ht]
  simp only [Server.applyDefaults, h0, orEmpty_some]
  rfl

theorem server_applyDefaults_unrecognized (st et : Option String) (t : String) (ht : t ≠ "")
    (h1 : toLowerCase t ≠ "am") (h2 : toLowerCase t ≠ "pm") (h3 : toLowerCase t ≠ "full day")
    (h4 : toLowerCase t ≠ "fullday") (h5 : toLowerCase t ≠ "full") :
    Server.applyDefaults st et (some t) = ⟨t, toLowerCase t, st, et⟩ := by
  rw [server_applyDefaults_some st et t ht]
  simp [h1, h2, h3, h4, h5]

theorem server_applyDefaults_supplied (st et : Option String) (t : String) (ht : t ≠ "")
    (hs : truthy st = true) (he : truthy et = true) :
    Server.applyDefaults st et (some t) = ⟨t, toLowerCase t, st, et⟩ := by
  rw [server_applyDefaults_some st et t ht]
  simp [hs, he]

theorem server_applyDefaults_missing (st et : Option String) (t : String) (ht : t ≠ "")
    (hm : truthy st = false ∨ truthy et = false) :
    (toLowerCase t = "am" →
      Server.applyDefaults st et (some t) = ⟨t, "am", some "08:45", some "13:20"⟩) ∧
    (toLowerCase t = "pm" →
      Server.applyDefaults st et (some t) = ⟨t, "pm", some "13:30", some "18:00"⟩) ∧
    (toLowerCase t = "full day" ∨ toLowerCase t = "fullday" ∨ toLowerCase t = "full" →
      Server.applyDefaults st et (some t) = ⟨t, toLowerCase t, some "08:45", some "18:00"⟩) := by
  have hc : (!truthy st || !truthy et) = true := by
    rcases hm with h | h <;> simp [h]
  rw [server_applyDefaults_some st et t ht, hc]
  refine ⟨fun h => ?_, fun h => ?_, fun h => ?_⟩
  · rw [h, if_pos (by decide), if_pos (by decide)]
  · rw [h, if_pos (by decide), if_neg (by decide), if_pos (by decide)]
  · rcases h with h | h | h <;>
      rw [h, if_pos (by decide), if_neg (by decide), if_neg (by decide)]

theorem server_startMinutes_fallback (f : Frame) :
    (Server.minutesOf f.start_time = none → Server.startMinutes f = some (JsNum.fin 525)) ∧
    (∀ x, Server.minutesOf f.start_time = some x → Server.startMinutes f = some x) ∧
    (Server.minutesOf f.end_time = none → Server.endMinutes f = some (JsNum.fin 1080)) ∧
    (∀ x, Server.minutesOf f.end_time = some x → Server.endMinutes f = some x) := by
  refine ⟨fun h => ?_, fun x h => ?_, fun h => ?_, fun x h => ?_⟩
  · simp only [Server.startMinutes, h]
    decide!
  · simp only [Server.startMinutes, h]
    rfl
  · simp only [Server.endMinutes, h]
    decide!
  · simp only [Server.endMinutes, h]
    rfl

theorem server_hourly_duration (tz : Int) (date : String) (f : Frame) (a b : ℚ)
    (h1 : f.tf ≠ "am") (h2 : f.tf ≠ "pm") (h3 : f.tf ≠ "full day")
    (h4 : f.tf ≠ "fullday") (h5 : f.tf ≠ "full")
    (hs : Server.startMinutes f = some (JsNum.fin a)) (he : Server.endMinutes f = some (JsNum.fin b))
    (hab : a ≤ b) :
    ∃ h d : ℚ, Server.computeDuration tz date date f = some ⟨JsNum.fin d, JsNum.fin h⟩ ∧
      RoundedTo3 h ((b - a) / 60) ∧ RoundedTo3 d (h / (37 / 4)) := by
  obtain ⟨h, hh, hr, h0⟩ := JsNum.toFixed3_rounded ((b - a) / 60)
    (div_nonneg (sub_nonneg.mpr hab) (by norm_num))
  obtain ⟨d, hd, hdr, -⟩ := JsNum.toFixed3_rounded (h / (37 / 4)) (div_nonneg h0 (by norm_num))
  refine ⟨h, d, ?_, hr, hdr⟩
  rw [server_computeDuration_sameDay tz date f _ _ hs he]
  have hlt : (JsNum.fin b).lt (JsNum.fin a) = false := by
    simp only [JsNum.lt]
    exact decide_eq_false (not_lt.mpr hab)
  have e1 : ((JsNum.fin b).sub (JsNum.fin a)).div (JsNum.fin 60) = JsNum.fin ((b - a) / 60) := by
    simp only [JsNum.sub, JsNum.div]
    rw [if_neg (by norm_num)]
  have e2 : (JsNum.fin h).div (JsNum.fin (37 / 4)) = JsNum.fin (h / (37 / 4)) := by
    simp only [JsNum.div]
    rw [if_neg (by norm_num)]
  simp only [hlt, e1, hh, e2, hd]
  simp [h1, h2, h3, h4, h5]

theorem server_getLeaves_manager (user : AuthUser) (status year : Option String) (db : Db)
    (hrole : user.role = "Manager" ∨ user.role = "Admin") :
    Server.getLeaves user status year db =
      (Response.rows (orderByAppliedAtDesc
        ((joinUsers db).filter (fun r => selectedByFilters status year r.leave))), db) := by
  have hr : (user.role == "Manager" || user.role == "Admin") = true := by
    rcases hrole with h | h <;> simp [h]
  have hf : (fun r : LeaveRow =>
      (if truthy status then r.leave.status == status.getD "" else true) &&
      (if truthy year then
        (substr4 r.leave.start_date == year.getD "" || substr4 r.leave.end_date == year.getD "")
       else true) &&
      (if !(user.role == "Manager" || user.role == "Admin") then r.leave.user_id == user.id
       else true))
      = (fun r => selectedByFilters status year r.leave) := by
    funext r
    rw [hr, ← clauses_eq_selectedByFilters status year r.leave]
    simp
  simp only [Server.getLeaves]
  rw [hf]

theorem server_getLeaves_manager_leaves (user : AuthUser) (status year : Option String) (db : Db)
    (hrole : user.role = "Manager" ∨ user.role = "Admin") (hown : OwnersUnique db) :
    ∃ rs, Server.getLeaves user status year db = (Response.rows rs, db) ∧
      (rs.map (fun r => r.leave)).Perm (db.leaves.filter (selectedByFilters status year)) ∧
      ∀ r ∈ rs, r.leave ∈ db.leaves ∧
        ∃ u ∈ db.users, u.id = r.leave.user_id ∧ r.name = u.name ∧ r.role = u.role := by
  refine ⟨_, server_getLeaves_manager user status year db hrole, ?_, ?_⟩
  · rw [← joinUsers_filter_leaves db.users (fun r => selectedByFilters status year r.leave)
      (selectedByFilters status year) (fun _ => rfl) db.leaves hown]
    exact (List.perm_insertionSort _ _).map _
  · intro r hr
    unfold orderByAppliedAtDesc at hr
    rw [List.mem_insertionSort] at hr
    have hj := (List.mem_filter.mp hr).1
    simp only [joinUsers, List.mem_flatMap, List.mem_map, List.mem_filter] at hj
    obtain ⟨l, hl, u, ⟨hu, hid⟩, rfl⟩ := hj
    have hid2 : l.user_id = u.id := by simpa using hid
    exact ⟨hl, u, hu, hid2.symm, rfl, rfl⟩

theorem server_postLeaves_row_owner (tz : Int) (appliedAt : String) (user : AuthUser) (body : LeaveBody)
    (file : Option String) (db : Db) :
    (Server.postLeaves tz appliedAt user body file db).2.leaves = db.leaves ∨
    ∃ (row : Leave) (u : User),
      db.users.find? (fun u => u.id == user.id) = some u ∧ row.user_id = user.id ∧
      (Server.postLeaves tz appliedAt user body file db).2.leaves = db.leaves ++ [row] := by
  unfold Server.postLeaves
  split
  · exact Or.inl rfl
  · dsimp only
    split
    · exact Or.inl rfl
    · split
      · exact Or.inl rfl
      · rename_i u hu
        split
        · exact Or.inl rfl
        · exact Or.inr ⟨_, u, hu, rfl, rfl⟩

theorem server_approve_ids (actionedAt : String) (user : AuthUser) (id : Nat)
    (action : Option String) (db : Db) :
    (Server.approve actionedAt user id action db).2.users.map (fun u => u.id)
      = db.users.map (fun u => u.id) ∧
    (Server.approve actionedAt user id action db).2.leaves.map (fun l => l.user_id)
      = db.leaves.map (fun l => l.user_id) := by
  unfold Server.approve
  split
  · exact ⟨rfl, rfl⟩
  · split
    · exact ⟨rfl, rfl⟩
    · split
      · exact ⟨rfl, rfl⟩
      · dsimp only
        constructor
        · split
          · rw [List.map_map]
            apply List.map_congr_left
            intro u _
            simp only [Function.comp]
            split <;> rfl
          · rfl
        · rw [List.map_map]
          apply List.map_congr_left
          intro l _
          simp only [Function.comp]
          split <;> rfl

/-- Every store reached from a store without leaves by submissions and decisions, the user
ids being unique, gives each leave exactly one owner row. -/
theorem server_ownersUnique_reachable (tz : Int) (db : Db) (h : Server.Reachable tz db) :
    (db.users.map (fun u => u.id)).Nodup → OwnersUnique db := by
  induction h with
  | init db h0 =>
    intro _ l hl
    rw [h0] at hl
    cases hl
  | submit db appliedAt user body file _ ih =>
    intro hn l hl
    rw [server_postLeaves_users] at hn ⊢
    rcases server_postLeaves_row_owner tz appliedAt user body file db with h1 | ⟨row, u, hu, hrow, h1⟩
    · rw [h1] at hl
      exact ih hn l hl
    · rw [h1] at hl
      rcases List.mem_append.mp hl with hl | hl
      · exact ih hn l hl
      · have hlr : l = row := by simpa using hl
        rw [hlr, hrow]
        exact owner_length_one db.users user.id u hn hu
  | decide db actionedAt user id action _ ih =>
    intro hn l hl
    obtain ⟨hu, hls⟩ := server_approve_ids actionedAt user id action db
    rw [hu] at hn
    have hm : l.user_id ∈ db.leaves.map (fun l => l.user_id) := by
      rw [← hls]
      exact List.mem_map.mpr ⟨l, hl, rfl⟩
    obtain ⟨l0, hl0, hid⟩ := List.mem_map.mp hm
    have h0 := ih hn l0 hl0
    rw [filter_owner_length, hu, ← filter_owner_length, ← hid]
    exact h0

/-! ## The duration computation (Worker) -/

theorem worker_minutesOf_full_start :
    Worker.minutesOf (some Worker.DEFAULTS.full.start) = some (JsNum.fin 525) := by decide!

theorem worker_minutesOf_full_end :
    Worker.minutesOf (some Worker.DEFAULTS.full.end_) = some (JsNum.fin 1080) := by decide!

theorem worker_fullDayHours :
    Worker.fullDayMinutes.div (JsNum.fin 60) = JsNum.fin (37 / 4) := by decide!

theorem worker_startMinutes_ne_none (f : Frame) : ∃ x, Worker.startMinutes f = some x := by
  unfold Worker.startMinutes
  cases h : Worker.minutesOf f.start_time with
  | none => exact ⟨JsNum.fin 525, by simp [worker_minutesOf_full_start]⟩
  | some x => exact ⟨x, by simp⟩

theorem worker_endMinutes_ne_none (f : Frame) : ∃ x, Worker.endMinutes f = some x := by
  unfold Worker.endMinutes
  cases h : Worker.minutesOf f.end_time with
  | none => exact ⟨JsNum.fin 1080, by simp [worker_minutesOf_full_end]⟩
  | some x => exact ⟨x, by simp⟩

theorem worker_computeDuration_sameDay (date : String) (f : Frame) (sm em : JsNum)
    (hs : Worker.startMinutes f = some sm) (he : Worker.endMinutes f = some em) :
    Worker.computeDuration date date f =
      if em.lt sm then none
      else if f.tf == "am" || f.tf == "pm" then
        some ⟨JsNum.fin (1 / 2), ((em.sub sm).div (JsNum.fin 60)).toFixed3⟩
      else if f.tf == "full day" || f.tf == "fullday" || f.tf == "full" then
        some ⟨JsNum.fin 1, ((em.sub sm).div (JsNum.fin 60)).toFixed3⟩
      else
        some ⟨((((em.sub sm).div (JsNum.fin 60)).toFixed3).div (JsNum.fin (37 / 4))).toFixed3,
          ((em.sub sm).div (JsNum.fin 60)).toFixed3⟩ := by
  simp only [Worker.computeDuration, beq_self_eq_true, if_true, hs, he, worker_fullDayHours]

theorem worker_computeDuration_multiDay (sd ed : String) (f : Frame) (h : sd ≠ ed) :
    Worker.computeDuration sd ed f =
      some ⟨JsNum.fin (Worker.daysBetween sd ed : ℚ),
        ((JsNum.fin (Worker.daysBetween sd ed : ℚ)).mul (JsNum.fin (37 / 4))).toFixed3⟩ := by
  have hb : (sd == ed) = false := by simpa using h
  simp only [Worker.computeDuration, hb, worker_fullDayHours]
  rfl


theorem worker_applyDefaults_am_missing (st et : Option String)
    (h : (truthy st && truthy et) = false) :
    Worker.applyDefaults st et (some "AM")
      = ⟨"AM", "am", some "08:45", some "13:20"⟩ := by
  have h0 : (if !truthy (some "AM") then "Full Day" else (some "AM" : Option String).getD "")
      = "AM" := by
    decide
  have h2 : toLowerCase (orEmpty (some "AM")) = "am" := by decide
  have h3 : (!truthy st || !truthy et) = true := by
    cases hs : truthy st <;> cases he : truthy et <;> simp_all
  simp only [Worker.applyDefaults, h0, h2, h3]
  rw [if_pos (by decide)]
  decide

theorem worker_applyDefaults_am_supplied (st et : Option String)
    (h : (truthy st && truthy et) = true) :
    Worker.applyDefaults st et (some "AM")
      = ⟨"AM", "am", st, et⟩ := by
  have h0 : (if !truthy (some "AM") then "Full Day" else (some "AM" : Option String).getD "")
      = "AM" := by
    decide
  have h2 : toLowerCase (orEmpty (some "AM")) = "am" := by decide
  have h3 : (!truthy st || !truthy et) = false := by
    cases hs : truthy st <;> cases he : truthy et <;> simp_all
  simp only [Worker.applyDefaults, h0, h2, h3]
  rw [if_neg (by decide)]

theorem worker_applyDefaults_am_tf (st et : Option String) :
    (Worker.applyDefaults st et (some "AM")).tf = "am" := by
  cases h : (truthy st && truthy et) with
  | false => rw [worker_applyDefaults_am_missing st et h]
  | true => rw [worker_applyDefaults_am_supplied st et h]

theorem worker_applyDefaults_fullDay_missing (st et : Option String)
    (h : (truthy st && truthy et) = false) :
    Worker.applyDefaults st et (some "Full Day")
      = ⟨"Full Day", "full day", some "08:45", some "18:00"⟩ := by
  have h0 : (if !truthy (some "Full Day") then "Full Day" else (some "Full Day" : Option String).getD "")
      = "Full Day" := by
    decide
  have h2 : toLowerCase (orEmpty (some "Full Day")) = "full day" := by decide
  have h3 : (!truthy st || !truthy et) = true := by
    cases hs : truthy st <;> cases he : truthy et <;> simp_all
  simp only [Worker.applyDefaults, h0, h2, h3]
  rw [if_pos (by decide)]
  decide

theorem worker_applyDefaults_fullDay_supplied (st et : Option String)
    (h : (truthy st && truthy et) = true) :
    Worker.applyDefaults st et (some "Full Day")
      = ⟨"Full Day", "full day", st, et⟩ := by
  have h0 : (if !truthy (some "Full Day") then "Full Day" else (some "Full Day" : Option String).getD "")
      = "Full Day" := by
    decide
  have h2 : toLowerCase (orEmpty (some "Full Day")) = "full day" := by decide
  have h3 : (!truthy st || !truthy et) = false := by
    cases hs : truthy st <;> cases he : truthy et <;> simp_all
  simp only [Worker.applyDefaults, h0, h2, h3]
  rw [if_neg (by decide)]

theorem worker_applyDefaults_fullDay_tf (st et : Option String) :
    (Worker.applyDefaults st et (some "Full Day")).tf = "full day" := by
  cases h : (truthy st && truthy et) with
  | false => rw [worker_applyDefaults_fullDay_missing st et h]
  | true => rw [worker_applyDefaults_fullDay_supplied st et h]

theorem worker_applyDefaults_absent_missing (st et : Option String)
    (h : (truthy st && truthy et) = false) :
    Worker.applyDefaults st et (none)
      = ⟨"Full Day", "full day", some "08:45", some "18:00"⟩ := by
  have h0 : (if !truthy (none) then "Full Day" else (none : Option String).getD "")
      = "Full Day" := by
    decide
  have h2 : toLowerCase (orEmpty (some "Full Day")) = "full day" := by decide
  have h3 : (!truthy st || !truthy et) = true := by
    cases hs : truthy st <;> cases he : truthy et <;> simp_all
  simp only [Worker.applyDefaults, h0, h2, h3]
  rw [if_pos (by decide)]
  decide

theorem worker_applyDefaults_absent_supplied (st et : Option String)
    (h : (truthy st && truthy et) = true) :
    Worker.applyDefaults st et (none)
      = ⟨"Full Day", "full day", st, et⟩ := by
  have h0 : (if !truthy (none) then "Full Day" else (none : Option String).getD "")
      = "Full Day" := by
    decide
  have h2 : toLowerCase (orEmpty (some "Full Day")) = "full day" := by decide
  have h3 : (!truthy st || !truthy et) = false := by
    cases hs : truthy st <;> cases he : truthy et <;> simp_all
  simp only [Worker.applyDefaults, h0, h2, h3]
  rw [if_neg (by decide)]

theorem worker_applyDefaults_absent_tf (st et : Option String) :
    (Worker.applyDefaults st et (none)).tf = "full day" := by
  cases h : (truthy st && truthy et) with
  | false => rw [worker_applyDefaults_absent_missing st et h]
  | true => rw [worker_applyDefaults_absent_supplied st et h]

theorem worker_computeDuration_sameDay_days (date : String) (f : Frame) (tag : String) (q : ℚ)
    (htf : f.tf = tag)
    (hq : (if tag == "am" || tag == "pm" then (1 / 2 : ℚ) else 1) = q)
    (htag : (tag == "am" || tag == "pm" || tag == "full day" || tag == "fullday" || tag == "full")
      = true)
    (d : Duration) (h : Worker.computeDuration date date f = some d) :
    d.durationDays = JsNum.fin q := by
  obtain ⟨sm, hs⟩ := worker_startMinutes_ne_none f
  obtain ⟨em, he⟩ := worker_endMinutes_ne_none f
  rw [worker_computeDuration_sameDay date f sm em hs he, htf] at h
  cases hlt : em.lt sm with
  | true => rw [hlt] at h; simp at h
  | false =>
    rw [hlt] at h
    simp only [Bool.false_eq_true, if_false] at h
    cases h1 : (tag == "am" || tag == "pm") with
    | true =>
      rw [h1] at h hq
      simp only [if_true] at h hq
      rw [← hq, ← Option.some.inj h]
    | false =>
      rw [h1] at h hq
      have h2 : (tag == "full day" || tag == "fullday" || tag == "full") = true := by
        simpa [Bool.or_assoc, h1] using htag
      rw [h2] at h
      simp only [Bool.false_eq_true, if_false, if_true] at h hq
      rw [← hq, ← Option.some.inj h]

theorem worker_applyDefaults_empty_missing (st et : Option String)
    (h : (truthy st && truthy et) = false) :
    Worker.applyDefaults st et (some "")
      = ⟨"Full Day", "full day", some "08:45", some "18:00"⟩ := by
  have h0 : (if !truthy (some "") then "Full Day" else (some "" : Option String).getD "")
      = "Full Day" := by
    decide
  have h2 : toLowerCase (orEmpty (some "Full Day")) = "full day" := by decide
  have h3 : (!truthy st || !truthy et) = true := by
    cases hs : truthy st <;> cases he : truthy et <;> simp_all
  simp only [Worker.applyDefaults, h0, h2, h3]
  rw [if_pos (by decide)]
  decide

theorem worker_applyDefaults_empty_supplied (st et : Option String)
    (h : (truthy st && truthy et) = true) :
    Worker.applyDefaults st et (some "")
      = ⟨"Full Day", "full day", st, et⟩ := by
  have h0 : (if !truthy (some "") then "Full Day" else (some "" : Option String).getD "")
      = "Full Day" := by
    decide
  have h2 : toLowerCase (orEmpty (some "Full Day")) = "full day" := by decide
  have h3 : (!truthy st || !truthy et) = false := by
    cases hs : truthy st <;> cases he : truthy et <;> simp_all
  simp only [Worker.applyDefaults, h0, h2, h3]
  rw [if_neg (by decide)]

theorem worker_applyDefaults_empty_tf (st et : Option String) :
    (Worker.applyDefaults st et (some "")).tf = "full day" := by
  cases h : (truthy st && truthy et) with
  | false => rw [worker_applyDefaults_empty_missing st et h]
  | true => rw [worker_applyDefaults_empty_supplied st et h]

theorem worker_minutesOf_no_colon (s : String) (h : ':' ∉ s.toList) :
    Worker.minutesOf (some s) = none := by
  obtain ⟨p, hp⟩ := splitChars_of_not_mem ':' s.toList h
  unfold Worker.minutesOf split
  rw [orEmpty_some, hp]
  rfl

theorem worker_computeDuration_nonNeg (sd ed : String) (f : Frame) (d : Duration)
    (h : Worker.computeDuration sd ed f = some d) : JsNum.NonNeg d.durationDays := by
  by_cases hse : sd = ed
  · subst hse
    obtain ⟨sm, hs⟩ := worker_startMinutes_ne_none f
    obtain ⟨em, he⟩ := worker_endMinutes_ne_none f
    rw [worker_computeDuration_sameDay sd f sm em hs he] at h
    cases hlt : em.lt sm with
    | true => rw [hlt] at h; simp at h
    | false =>
      rw [hlt] at h
      simp only [Bool.false_eq_true, if_false] at h
      split at h
      · rw [← Option.some.inj h]
        exact JsNum.nonNeg_fin (by norm_num)
      · split at h
        · rw [← Option.some.inj h]
          exact JsNum.nonNeg_fin (by norm_num)
        · rw [← Option.some.inj h]
          exact JsNum.nonNeg_toFixed3 (JsNum.nonNeg_div (JsNum.nonNeg_toFixed3
            (JsNum.nonNeg_div (JsNum.nonNeg_sub_of_not_lt hlt) (by norm_num))) (by norm_num))
  · rw [worker_computeDuration_multiDay sd ed f hse] at h
    rw [← Option.some.inj h]
    exact JsNum.nonNeg_fin (Nat.cast_nonneg _)

theorem worker_postLeaves_invalid (appliedAt : String) (user : AuthUser) (body : LeaveBody)
    (file : Option String) (db : Db)
    (hsd : truthy body.start_date = true) (hed : truthy body.end_date = true)
    (hd : Worker.computeDuration (body.start_date.getD "") (body.end_date.getD "")
      (Worker.applyDefaults body.start_time body.end_time body.time_frame) = none) :
    Worker.postLeaves appliedAt user body file db
      = (Response.error 400 "Invalid start_time or end_time for same-day leave", db) := by
  simp only [Worker.postLeaves, hsd, hed, hd]
  rfl

theorem worker_postLeaves_insufficient (appliedAt : String) (user : AuthUser)
    (body : LeaveBody) (file : Option String) (db : Db) (d : Duration) (u : User)
    (hsd : truthy body.start_date = true) (hed : truthy body.end_date = true)
    (hd : Worker.computeDuration (body.start_date.getD "") (body.end_date.getD "")
      (Worker.applyDefaults body.start_time body.end_time body.time_frame) = some d)
    (hu : db.users.find? (fun u => u.id == user.id) = some u)
    (hgt : d.durationDays.gt (u.allocation.toJs.sub u.used.toJs) = true) :
    Worker.postLeaves appliedAt user body file db
      = (Response.error 400 "Insufficient leave balance", db) := by
  simp only [Worker.postLeaves, hsd, hed, hd, hu, SqlNum.orZero_eq_toJs, hgt]
  rfl

theorem worker_postLeaves_accept (appliedAt : String) (user : AuthUser)
    (body : LeaveBody) (file : Option String) (db : Db) (d : Duration) (u : User)
    (hsd : truthy body.start_date = true) (hed : truthy body.end_date = true)
    (hd : Worker.computeDuration (body.start_date.getD "") (body.end_date.getD "")
      (Worker.applyDefaults body.start_time body.end_time body.time_frame) = some d)
    (hu : db.users.find? (fun u => u.id == user.id) = some u)
    (hgt : d.durationDays.gt (u.allocation.toJs.sub u.used.toJs) = false) :
    Worker.postLeaves appliedAt user body file db
      = (Response.leaveRequested (db.leaveSeq + 1),
          { db with
            leaves := db.leaves ++ [
              { id := db.leaveSeq + 1, user_id := user.id, type := body.type,
                start_date := body.start_date.getD "", end_date := body.end_date.getD "",
                start_time := orEmpty
                  (Worker.applyDefaults body.start_time body.end_time body.time_frame).start_time,
                end_time := orEmpty
                  (Worker.applyDefaults body.start_time body.end_time body.time_frame).end_time,
                time_frame := orEmpty (some
                  (Worker.applyDefaults body.start_time body.end_time body.time_frame).time_frame),
                reason := orEmpty body.reason, attachment := file,
                duration_days := d.durationDays.toSql,
                duration_hours := d.durationHours.toSql,
                status := "Pending", applied_at := appliedAt,
                actioned_at := none, action_by := none }],
            leaveSeq := db.leaveSeq + 1 }) := by
  simp only [Worker.postLeaves, hsd, hed, hd, hu, SqlNum.orZero_eq_toJs, hgt]
  rfl

theorem worker_postLeaves_users (appliedAt : String) (user : AuthUser) (body : LeaveBody)
    (file : Option String) (db : Db) :
    (Worker.postLeaves appliedAt user body file db).2.users = db.users := by
  unfold Worker.postLeaves
  split
  · rfl
  · dsimp only
    split
    · rfl
    · split
      · rfl
      · split <;> rfl

theorem worker_postLeaves_leaves (appliedAt : String) (user : AuthUser) (body : LeaveBody)
    (file : Option String) (db : Db) :
    (Worker.postLeaves appliedAt user body file db).2.leaves = db.leaves ∨
    ∃ (d : Duration) (row : Leave),
      Worker.computeDuration (body.start_date.getD "") (body.end_date.getD "")
        (Worker.applyDefaults body.start_time body.end_time body.time_frame) = some d ∧
      row.duration_days = d.durationDays.toSql ∧
      (Worker.postLeaves appliedAt user body file db).2.leaves = db.leaves ++ [row] := by
  unfold Worker.postLeaves
  split
  · exact Or.inl rfl
  · dsimp only
    split
    · exact Or.inl rfl
    · rename_i d hd
      split
      · exact Or.inl rfl
      · split
        · exact Or.inl rfl
        · exact Or.inr ⟨d, _, hd, rfl, rfl⟩

/-! ## The approval handler (Worker) -/

theorem worker_approve_eq (actionedAt : String) (user : AuthUser) (id : Nat)
    (action : Option String) (db : Db) (leaf : Leave)
    (hrole : (user.role == "Manager" || user.role == "Admin") = true)
    (hact : (action == some "Approved" || action == some "Rejected") = true)
    (hleaf : db.leaves.find? (fun l => l.id == id) = some leaf) :
    Worker.approve actionedAt user id action db =
      (Response.actionRecorded,
        { db with
          leaves := db.leaves.map (fun l =>
            if l.id == id then
              { l with status := action.getD "", actioned_at := some actionedAt,
                       action_by := some user.id }
            else l),
          users :=
            if action == some "Approved" then
              db.users.map (fun u =>
                if u.id == leaf.user_id then { u with used := SqlNum.add u.used.coalesce0 leaf.duration_days.orZero.toSql } else u)
            else db.users }) := by
  simp only [Worker.approve, hrole, hact, hleaf]
  rfl

theorem worker_approve_forbidden (actionedAt : String) (user : AuthUser) (id : Nat)
    (action : Option String) (db : Db)
    (hrole : (user.role == "Manager" || user.role == "Admin") = false) :
    Worker.approve actionedAt user id action db
      = (Response.error 403 "Manager role required", db) := by
  simp only [Worker.approve, hrole]
  rfl

theorem worker_approve_invalid (actionedAt : String) (user : AuthUser) (id : Nat)
    (action : Option String) (db : Db)
    (hrole : (user.role == "Manager" || user.role == "Admin") = true)
    (hact : (action == some "Approved" || action == some "Rejected") = false) :
    Worker.approve actionedAt user id action db
      = (Response.error 400 "action must be Approved or Rejected", db) := by
  simp only [Worker.approve, hrole, hact]
  rfl

theorem worker_approve_find_leaf (actionedAt : String) (user : AuthUser) (id : Nat)
    (action : Option String) (db : Db) (leaf : Leave)
    (hrole : (user.role == "Manager" || user.role == "Admin") = true)
    (hact : (action == some "Approved" || action == some "Rejected") = true)
    (hleaf : db.leaves.find? (fun l => l.id == id) = some leaf) :
    (Worker.approve actionedAt user id action db).2.leaves.find? (fun l => l.id == id)
      = some { leaf with status := action.getD "", actioned_at := some actionedAt,
                         action_by := some user.id } := by
  rw [worker_approve_eq actionedAt user id action db leaf hrole hact hleaf]
  dsimp only
  rw [find?_map_update _ _ _ (by intro x; by_cases h : (x.id == id) = true <;> simp [h]), hleaf]
  have hid : leaf.id = id := by simpa using List.find?_some hleaf
  simp [hid]

theorem worker_approve_find_owner_approved (actionedAt : String) (user : AuthUser) (id : Nat)
    (db : Db) (leaf : Leave) (owner : User) (d u : ℚ)
    (hrole : (user.role == "Manager" || user.role == "Admin") = true)
    (hleaf : db.leaves.find? (fun l => l.id == id) = some leaf)
    (hd : leaf.duration_days = some d)
    (hown : db.users.find? (fun x => x.id == leaf.user_id) = some owner)
    (hu : owner.used = some u) :
    (Worker.approve actionedAt user id (some "Approved") db).2.users.find?
        (fun x => x.id == leaf.user_id)
      = some { owner with used := some (u + d) } := by
  rw [worker_approve_eq actionedAt user id (some "Approved") db leaf hrole (by decide) hleaf]
  dsimp only
  rw [if_pos (by decide),
    find?_map_update _ _ _ (by intro x; by_cases h : (x.id == leaf.user_id) = true <;> simp [h]),
    hown]
  have hid : owner.id = leaf.user_id := by simpa using List.find?_some hown
  simp only [Option.map_some', hid, beq_self_eq_true, if_true, hu, hd, Option.some.injEq,
    User.mk.injEq, true_and, and_true]
  exact SqlNum.worker_used_update u d

theorem worker_approve_users_rejected (actionedAt : String) (user : AuthUser) (id : Nat)
    (action : Option String) (db : Db) (h : action ≠ some "Approved") :
    (Worker.approve actionedAt user id action db).2.users = db.users := by
  have h' : (action == some "Approved") = false := by simpa using h
  unfold Worker.approve
  split
  · rfl
  · split
    · rfl
    · split
      · rfl
      · simp [h']

theorem worker_approve_leaves_duration (actionedAt : String) (user : AuthUser) (id : Nat)
    (action : Option String) (db : Db) (l' : Leave)
    (h : l' ∈ (Worker.approve actionedAt user id action db).2.leaves) :
    ∃ l ∈ db.leaves, l'.duration_days = l.duration_days := by
  unfold Worker.approve at h
  split at h
  · exact ⟨l', h, rfl⟩
  · split at h
    · exact ⟨l', h, rfl⟩
    · split at h
      · exact ⟨l', h, rfl⟩
      · dsimp only at h
        obtain ⟨l, hl, rfl⟩ := List.mem_map.mp h
        refine ⟨l, hl, ?_⟩
        split <;> rfl

theorem worker_reachable_duration_nonNeg (db : Db) (h : Worker.Reachable db) :
    ∀ l ∈ db.leaves, ∀ q, l.duration_days = some q → 0 ≤ q := by
  induction h with
  | init db h0 =>
    intro l hl
    rw [h0] at hl
    cases hl
  | submit db appliedAt user body file _ ih =>
    intro l hl q hq
    rcases worker_postLeaves_leaves appliedAt user body file db with h1 | ⟨d, row, hd, hrow, h1⟩
    · rw [h1] at hl
      exact ih l hl q hq
    · rw [h1] at hl
      rcases List.mem_append.mp hl with hl | hl
      · exact ih l hl q hq
      · have hlr : l = row := by simpa using hl
        rw [hlr, hrow] at hq
        have hn := worker_computeDuration_nonNeg _ _ _ d hd
        cases hdd : d.durationDays with
        | nan => rw [hdd] at hq; cases hq
        | fin x =>
          rw [hdd] at hq
          have hx : x = q := by simpa [JsNum.toSql] using hq
          rw [← hx]
          exact hn x hdd
  | decide db actionedAt user id action _ ih =>
    intro l hl q hq
    obtain ⟨l0, hl0, he⟩ := worker_approve_leaves_duration actionedAt user id action db l hl
    rw [he] at hq
    exact ih l0 hl0 q hq

/-! ## The listing handler (Worker) -/

theorem worker_getLeaves_own_rows (user : AuthUser) (status year : Option String) (db : Db)
    (hrole : (user.role == "Manager" || user.role == "Admin") = false) :
    ∃ rs, Worker.getLeaves user status year db = (Response.rows rs, db) ∧
      ∀ r ∈ rs, r.leave.user_id = user.id := by
  refine ⟨_, rfl, ?_⟩
  intro r hr
  unfold orderByAppliedAtDesc at hr
  rw [List.mem_insertionSort] at hr
  have hf := (List.mem_filter.mp hr).2
  simp only [hrole, Bool.and_eq_true] at hf
  simpa using hf.2

theorem worker_decideAll_used (id : Nat) (d : ℚ) (uid : Nat) :
    ∀ (cs : List Decision) (db : Db) (leaf : Leave) (owner : User) (u : ℚ),
      db.leaves.find? (fun l => l.id == id) = some leaf →
      leaf.duration_days = some d → leaf.user_id = uid →
      db.users.find? (fun x => x.id == uid) = some owner → owner.used = some u →
      ∃ owner', (Worker.decideAll id cs db).users.find? (fun x => x.id == uid) = some owner' ∧
        owner'.used = some (u + (approvals cs : ℚ) * d) := by
  intro cs
  induction cs with
  | nil =>
    intro db leaf owner u _ _ _ hown hu
    exact ⟨owner, hown, by simp [approvals, hu]⟩
  | cons c cs ih =>
    intro db leaf owner u hleaf hd huid hown hu
    have hfold : Worker.decideAll id (c :: cs) db
        = Worker.decideAll id cs (Worker.approve c.actionedAt c.user id c.action db).2 := rfl
    rw [hfold]
    cases hrole : (c.user.role == "Manager" || c.user.role == "Admin") with
    | false =>
      rw [worker_approve_forbidden c.actionedAt c.user id c.action db hrole]
      have hc : approvals (c :: cs) = approvals cs := by simp [approvals, hrole]
      rw [hc]
      exact ih db leaf owner u hleaf hd huid hown hu
    | true =>
      cases hact : (c.action == some "Approved" || c.action == some "Rejected") with
      | false =>
        rw [worker_approve_invalid c.actionedAt c.user id c.action db hrole hact]
        have hA : (c.action == some "Approved") = false := by
          cases h : (c.action == some "Approved") with
          | false => rfl
          | true => rw [h] at hact; simp at hact
        have hc : approvals (c :: cs) = approvals cs := by simp [approvals, hrole, hA]
        rw [hc]
        exact ih db leaf owner u hleaf hd huid hown hu
      | true =>
        have hleaf' := worker_approve_find_leaf c.actionedAt c.user id c.action db leaf hrole hact
          hleaf
        by_cases hA : c.action = some "Approved"
        · have hown' := worker_approve_find_owner_approved c.actionedAt c.user id db leaf owner
            d u hrole hleaf hd (by rw [huid]; exact hown) hu
          rw [huid, ← hA] at hown'
          have hc : approvals (c :: cs) = approvals cs + 1 := by simp [approvals, hrole, hA]
          obtain ⟨o, ho, hou⟩ := ih _ _ _ (u + d) hleaf' hd huid hown' rfl
          refine ⟨o, ho, ?_⟩
          rw [hou, hc]
          push_cast
          ring_nf
        · have husers := worker_approve_users_rejected c.actionedAt c.user id c.action db hA
          have hA' : (c.action == some "Approved") = false := by simpa using hA
          have hc : approvals (c :: cs) = approvals cs := by simp [approvals, hrole, hA']
          rw [hc]
          exact ih _ _ owner u hleaf' hd huid (by rw [husers]; exact hown) hu

theorem worker_approve_notFound (actionedAt : String) (user : AuthUser) (id : Nat)
    (action : Option String) (db : Db)
    (hrole : (user.role == "Manager" || user.role == "Admin") = true)
    (hact : (action == some "Approved" || action == some "Rejected") = true)
    (hleaf : db.leaves.find? (fun l => l.id == id) = none) :
    Worker.approve actionedAt user id action db = (Response.error 404 "Leave not found", db) := by
  simp only [Worker.approve, hrole, hact, hleaf]
  rfl

theorem worker_approve_frame (actionedAt : String) (user : AuthUser) (id : Nat)
    (action : Option String) (db : Db) (leaf : Leave)
    (hrole : (user.role == "Manager" || user.role == "Admin") = true)
    (hact : (action == some "Approved" || action == some "Rejected") = true)
    (hleaf : db.leaves.find? (fun l => l.id == id) = some leaf) :
    (Worker.approve actionedAt user id action db).2.leaveSeq = db.leaveSeq ∧
    List.Forall₂
      (fun l l' =>
        if l.id = id then
          l' = { l with status := action.getD "", actioned_at := some actionedAt,
                        action_by := some user.id }
        else l' = l)
      db.leaves (Worker.approve actionedAt user id action db).2.leaves ∧
    List.Forall₂
      (fun u u' =>
        if action = some "Approved" ∧ u.id = leaf.user_id then
          u' = { u with used := SqlNum.add u.used.coalesce0 leaf.duration_days.orZero.toSql }
        else u' = u)
      db.users (Worker.approve actionedAt user id action db).2.users := by
  rw [worker_approve_eq actionedAt user id action db leaf hrole hact hleaf]
  refine ⟨rfl, ?_, ?_⟩
  · dsimp only
    rw [List.forall₂_map_right_iff, List.forall₂_same]
    intro l _
    by_cases h : l.id = id
    · simp [h]
    · simp [h]
  · dsimp only
    by_cases hA : action = some "Approved"
    · rw [if_pos (by simp [hA]), List.forall₂_map_right_iff, List.forall₂_same]
      intro u _
      by_cases h : u.id = leaf.user_id
      · simp [h, hA]
      · simp [h]
    · rw [if_neg (by simpa using hA), List.forall₂_same]
      intro u _
      simp [hA]

theorem worker_applyDefaults_some (st et : Option String) (t : String) (ht : t ≠ "") :
    Worker.applyDefaults st et (some t) =
      if (!truthy st || !truthy et) &&
          (toLowerCase t == "am" || toLowerCase t == "pm" || toLowerCase t == "full day" ||
            toLowerCase t == "fullday" || toLowerCase t == "full") then
        if toLowerCase t == "am" then ⟨t, toLowerCase t, some "08:45", some "13:20"⟩
        else if toLowerCase t == "pm" then ⟨t, toLowerCase t, some "13:30", some "18:00"⟩
        else ⟨t, toLowerCase t, some "08:45", some "18:00"⟩
      else ⟨t, toLowerCase t, st, et⟩ := by
  have h0 : (if !truthy (some t) then "Full Day" else (some t : Option String).getD "") = t := by
    simp [truthy, ht]
  simp only [Worker.applyDefaults, h0, orEmpty_some]
  rfl

theorem worker_applyDefaults_unrecognized (st et : Option String) (t : String) (ht : t ≠ "")
    (h1 : toLowerCase t ≠ "am") (h2 : toLowerCase t ≠ "pm") (h3 : toLowerCase t ≠ "full day")
    (h4 : toLowerCase t ≠ "fullday") (h5 : toLowerCase t ≠ "full") :
    Worker.applyDefaults st et (some t) = ⟨t, toLowerCase t, st, et⟩ := by
  rw [worker_applyDefaults_some st et t ht]
  simp [h1, h2, h3, h4, h5]

theorem worker_applyDefaults_supplied (st et : Option String) (t : String) (ht : t ≠ "")
    (hs : truthy st = true) (he : truthy et = true) :
    Worker.applyDefaults st et (some t) = ⟨t, toLowerCase t, st, et⟩ := by
  rw [worker_applyDefaults_some st et t ht]
  simp [hs, he]

theorem worker_applyDefaults_missing (st et : Option String) (t : String) (ht : t ≠ "")
    (hm : truthy st = false ∨ truthy et = false) :
    (toLowerCase t = "am" →
      Worker.applyDefaults st et (some t) = ⟨t, "am", some "08:45", some "13:20"⟩) ∧
    (toLowerCase t = "pm" →
      Worker.applyDefaults st et (some t) = ⟨t, "pm", some "13:30", some "18:00"⟩) ∧
    (toLowerCase t = "full day" ∨ toLowerCase t = "fullday" ∨ toLowerCase t = "full" →
      Worker.applyDefaults st et (some t) = ⟨t, toLowerCase t, some "08:45", some "18:00"⟩) := by
  have hc : (!truthy st || !truthy et) = true := by
    rcases hm with h | h <;> simp [h]
  rw [worker_applyDefaults_some st et t ht, hc]
  refine ⟨fun h => ?_, fun h => ?_, fun h => ?_⟩
  · rw [h, if_pos (by decide), if_pos (by decide)]
  · rw [h, if_pos (by decide), if_neg (by decide), if_pos (by decide)]
  · rcases h with h | h | h <;>
      rw [h, if_pos (by decide), if_neg (by decide), if_neg (by decide)]

theorem worker_startMinutes_fallback (f : Frame) :
    (Worker.minutesOf f.start_time = none → Worker.startMinutes f = some (JsNum.fin 525)) ∧
    (∀ x, Worker.minutesOf f.start_time = some x → Worker.startMinutes f = some x) ∧
    (Worker.minutesOf f.end_time = none → Worker.endMinutes f = some (JsNum.fin 1080)) ∧
    (∀ x, Worker.minutesOf f.end_time = some x → Worker.endMinutes f = some x) := by
  refine ⟨fun h => ?_, fun x h => ?_, fun h => ?_, fun x h => ?_⟩
  · simp only [Worker.startMinutes, h]
    decide!
  · simp only [Worker.startMinutes, h]
    rfl
  · simp only [Worker.endMinutes, h]
    decide!
  · simp only [Worker.endMinutes, h]
    rfl

theorem worker_hourly_duration (date : String) (f : Frame) (a b : ℚ)
    (h1 : f.tf ≠ "am") (h2 : f.tf ≠ "pm") (h3 : f.tf ≠ "full day")
    (h4 : f.tf ≠ "fullday") (h5 : f.tf ≠ "full")
    (hs : Worker.startMinutes f = some (JsNum.fin a)) (he : Worker.endMinutes f = some (JsNum.fin b))
    (hab : a ≤ b) :
    ∃ h d : ℚ, Worker.computeDuration date date f = some ⟨JsNum.fin d, JsNum.fin h⟩ ∧
      RoundedTo3 h ((b - a) / 60) ∧ RoundedTo3 d (h / (37 / 4)) := by
  obtain ⟨h, hh, hr, h0⟩ := JsNum.toFixed3_rounded ((b - a) / 60)
    (div_nonneg (sub_nonneg.mpr hab) (by norm_num))
  obtain ⟨d, hd, hdr, -⟩ := JsNum.toFixed3_rounded (h / (37 / 4)) (div_nonneg h0 (by norm_num))
  refine ⟨h, d, ?_, hr, hdr⟩
  rw [worker_computeDuration_sameDay date f _ _ hs he]
  have hlt : (JsNum.fin b).lt (JsNum.fin a) = false := by
    simp only [JsNum.lt]
    exact decide_eq_false (not_lt.mpr hab)
  have e1 : ((JsNum.fin b).sub (JsNum.fin a)).div (JsNum.fin 60) = JsNum.fin ((b - a) / 60) := by
    simp only [JsNum.sub, JsNum.div]
    rw [if_neg (by norm_num)]
  have e2 : (JsNum.fin h).div (JsNum.fin (37 / 4)) = JsNum.fin (h / (37 / 4)) := by
    simp only [JsNum.div]
    rw [if_neg (by norm_num)]
  simp only [hlt, e1, hh, e2, hd]
  simp [h1, h2, h3, h4, h5]

theorem worker_getLeaves_manager (user : AuthUser) (status year : Option String) (db : Db)
    (hrole : user.role = "Manager" ∨ user.role = "Admin") :
    Worker.getLeaves user status year db =
      (Response.rows (orderByAppliedAtDesc
        ((joinUsers db).filter (fun r => selectedByFilters status year r.leave))), db) := by
  have hr : (user.role == "Manager" || user.role == "Admin") = true := by
    rcases hrole with h | h <;> simp [h]
  have hf : (fun r : LeaveRow =>
      (if truthy status then r.leave.status == status.getD "" else true) &&
      (if truthy year then
        (substr4 r.leave.start_date == year.getD "" || substr4 r.leave.end_date == year.getD "")
       else true) &&
      (if !(user.role == "Manager" || user.role == "Admin") then r.leave.user_id == user.id
       else true))
      = (fun r => selectedByFilters status year r.leave) := by
    funext r
    rw [hr, ← clauses_eq_selectedByFilters status year r.leave]
    simp
  simp only [Worker.getLeaves]
  rw [hf]

theorem worker_getLeaves_manager_leaves (user : AuthUser) (status year : Option String) (db : Db)
    (hrole : user.role = "Manager" ∨ user.role = "Admin") (hown : OwnersUnique db) :
    ∃ rs, Worker.getLeaves user status year db = (Response.rows rs, db) ∧
      (rs.map (fun r => r.leave)).Perm (db.leaves.filter (selectedByFilters status year)) ∧
      ∀ r ∈ rs, r.leave ∈ db.leaves ∧
        ∃ u ∈ db.users, u.id = r.leave.user_id ∧ r.name = u.name ∧ r.role = u.role := by
  refine ⟨_, worker_getLeaves_manager user status year db hrole, ?_, ?_⟩
  · rw [← joinUsers_filter_leaves db.users (fun r => selectedByFilters status year r.leave)
      (selectedByFilters status year) (fun _ => rfl) db.leaves hown]
    exact (List.perm_insertionSort _ _).map _
  · intro r hr
    unfold orderByAppliedAtDesc at hr
    rw [List.mem_insertionSort] at hr
    have hj := (List.mem_filter.mp hr).1
    simp only [joinUsers, List.mem_flatMap, List.mem_map, List.mem_filter] at hj
    obtain ⟨l, hl, u, ⟨hu, hid⟩, rfl⟩ := hj
    have hid2 : l.user_id = u.id := by simpa using hid
    exact ⟨hl, u, hu, hid2.symm, rfl, rfl⟩

theorem worker_postLeaves_row_owner (appliedAt : String) (user : AuthUser) (body : LeaveBody)
    (file : Option String) (db : Db) :
    (Worker.postLeaves appliedAt user body file db).2.leaves = db.leaves ∨
    ∃ (row : Leave) (u : User),
      db.users.find? (fun u => u.id == user.id) = some u ∧ row.user_id = user.id ∧
      (Worker.postLeaves appliedAt user body file db).2.leaves = db.leaves ++ [row] := by
  unfold Worker.postLeaves
  split
  · exact Or.inl rfl
  · dsimp only
    split
    · exact Or.inl rfl
    · split
      · exact Or.inl rfl
      · rename_i u hu
        split
        · exact Or.inl rfl
        · exact Or.inr ⟨_, u, hu, rfl, rfl⟩

theorem worker_approve_ids (actionedAt : String) (user : AuthUser) (id : Nat)
    (action : Option String) (db : Db) :
    (Worker.approve actionedAt user id action db).2.users.map (fun u => u.id)
      = db.users.map (fun u => u.id) ∧
    (Worker.approve actionedAt user id action db).2.leaves.map (fun l => l.user_id)
      = db.leaves.map (fun l => l.user_id) := by
  unfold Worker.approve
  split
  · exact ⟨rfl, rfl⟩
  · split
    · exact ⟨rfl, rfl⟩
    · split
      · exact ⟨rfl, rfl⟩
      · dsimp only
        constructor
        · split
          · rw [List.map_map]
            apply List.map_congr_left
            intro u _
            simp only [Function.comp]
            split <;> rfl
          · rfl
        · rw [List.map_map]
          apply List.map_congr_left
          intro l _
          simp only [Function.comp]
          split <;> rfl

/-- Every store reached from a store without leaves by submissions and decisions, the user
ids being unique, gives each leave exactly one owner row. -/
theorem worker_ownersUnique_reachable (db : Db) (h : Worker.Reachable db) :
    (db.users.map (fun u => u.id)).Nodup → OwnersUnique db := by
  induction h with
  | init db h0 =>
    intro _ l hl
    rw [h0] at hl
    cases hl
  | submit db appliedAt user body file _ ih =>
    intro hn l hl
    rw [worker_postLeaves_users] at hn ⊢
    rcases worker_postLeaves_row_owner appliedAt user body file db with h1 | ⟨row, u, hu, hrow, h1⟩
    · rw [h1] at hl
      exact ih hn l hl
    · rw [h1] at hl
      rcases List.mem_append.mp hl with hl | hl
      · exact ih hn l hl
      · have hlr : l = row := by simpa using hl
        rw [hlr, hrow]
        exact owner_length_one db.users user.id u hn hu
  | decide db actionedAt user id action _ ih =>
    intro hn l hl
    obtain ⟨hu, hls⟩ := worker_approve_ids actionedAt user id action db
    rw [hu] at hn
    have hm : l.user_id ∈ db.leaves.map (fun l => l.user_id) := by
      rw [← hls]
      exact List.mem_map.mpr ⟨l, hl, rfl⟩
    obtain ⟨l0, hl0, hid⟩ := List.mem_map.mp hm
    have h0 := ih hn l0 hl0
    rw [filter_owner_length, hu, ← filter_owner_length, ← hid]
    exact h0

/-! ## Claims on the duration calculator -/

/-- C1: for calendar dates `start_date ≠ end_date` the `duration_days` computed at submission,
by the Express and by the Workers handler, is the number of dates `d` with
`start_date ≤ d ≤ end_date` that fall on Monday to Friday; `2025-12-01..2025-12-05` gives 5
and `2025-11-29..2025-11-30` gives 0. -/
theorem C1_multi_day_duration_counts_weekdays (tz : Int) (start_date end_date : String)
    (ds de : Int) (f : Frame)
    (hs : parseIsoDate start_date = some ds) (he : parseIsoDate end_date = some de)
    (hne : start_date ≠ end_date) :
    (Server.computeDuration tz start_date end_date f).map (fun d => d.durationDays)
        = some (JsNum.fin (weekdaysInRange ds de : ℚ)) ∧
    (Worker.computeDuration start_date end_date f).map (fun d => d.durationDays)
        = some (JsNum.fin (weekdaysInRange ds de : ℚ)) ∧
    (Server.computeDuration tz "2025-12-01" "2025-12-05" f).map (fun d => d.durationDays)
        = some (JsNum.fin 5) ∧
    (Worker.computeDuration "2025-12-01" "2025-12-05" f).map (fun d => d.durationDays)
        = some (JsNum.fin 5) ∧
    (Server.computeDuration tz "2025-11-29" "2025-11-30" f).map (fun d => d.durationDays)
        = some (JsNum.fin 0) ∧
    (Worker.computeDuration "2025-11-29" "2025-11-30" f).map (fun d => d.durationDays)
        = some (JsNum.fin 0) := by
  have p1 : parseIsoDate "2025-12-01" = some 20423 := by decide
  have p5 : parseIsoDate "2025-12-05" = some 20427 := by decide
  have p29 : parseIsoDate "2025-11-29" = some 20421 := by decide
  have p30 : parseIsoDate "2025-11-30" = some 20422 := by decide
  have w5 : weekdaysInRange 20423 20427 = 5 := by decide
  have w0 : weekdaysInRange 20421 20422 = 0 := by decide
  have n1 : ("2025-12-01" : String) ≠ "2025-12-05" := by decide
  have n2 : ("2025-11-29" : String) ≠ "2025-11-30" := by decide
  refine ⟨?_, ?_, ?_, ?_, ?_, ?_⟩
  · rw [server_computeDuration_multiDay tz _ _ f hne, server_daysBetween_eq tz _ _ ds de hs he]
    rfl
  · rw [worker_computeDuration_multiDay _ _ f hne, worker_daysBetween_eq _ _ ds de hs he]
    rfl
  · rw [server_computeDuration_multiDay tz _ _ f n1, server_daysBetween_eq tz _ _ _ _ p1 p5, w5]
    simp
  · rw [worker_computeDuration_multiDay _ _ f n1, worker_daysBetween_eq _ _ _ _ p1 p5, w5]
    simp
  · rw [server_computeDuration_multiDay tz _ _ f n2, server_daysBetween_eq tz _ _ _ _ p29 p30, w0]
    simp
  · rw [worker_computeDuration_multiDay _ _ f n2, worker_daysBetween_eq _ _ _ _ p29 p30, w0]
    simp

/-- Witness of C1 at `2025-12-01..2025-12-05` on a host one hour ahead of UTC. -/
theorem C1_multi_day_duration_counts_weekdays_witness :
    (Server.computeDuration 3600000 "2025-12-01" "2025-12-05"
        (Server.applyDefaults none none none)).map (fun d => d.durationDays)
      = some (JsNum.fin (weekdaysInRange 20423 20427 : ℚ)) :=
  (C1_multi_day_duration_counts_weekdays 3600000 "2025-12-01" "2025-12-05" 20423 20427
    (Server.applyDefaults none none none) (by decide) (by decide) (by decide)).1

/-- C2 as stated fails: a same-day `AM` request that supplies both clock times keeps them,
so `09:00`-`10:00` has `duration_hours` 1, not 4.583. -/
theorem C2_am_hours_counterexample :
    Server.computeDuration 0 "2025-12-02" "2025-12-02"
        (Server.applyDefaults (some "09:00") (some "10:00") (some "AM"))
      = some ⟨JsNum.fin (1 / 2), JsNum.fin 1⟩ ∧
    Worker.computeDuration "2025-12-02" "2025-12-02"
        (Worker.applyDefaults (some "09:00") (some "10:00") (some "AM"))
      = some ⟨JsNum.fin (1 / 2), JsNum.fin 1⟩ ∧
    JsNum.fin 1 ≠ JsNum.fin (4583 / 1000) := by
  decide!

/-- C2, amended: for a same-day request with `time_frame = "AM"`, when `start_time` or
`end_time` is missing the computed `duration_days` is 0.5 and `duration_hours` is 4.583; when
both are supplied they are kept as the effective times and every accepted request still has
`duration_days` 0.5. -/
theorem C2_am_same_day (tz : Int) (date : String) (st et : Option String) :
    ((truthy st && truthy et) = false →
      Server.computeDuration tz date date (Server.applyDefaults st et (some "AM"))
        = some ⟨JsNum.fin (1 / 2), JsNum.fin (4583 / 1000)⟩ ∧
      Worker.computeDuration date date (Worker.applyDefaults st et (some "AM"))
        = some ⟨JsNum.fin (1 / 2), JsNum.fin (4583 / 1000)⟩) ∧
    (∀ d, Server.computeDuration tz date date (Server.applyDefaults st et (some "AM")) = some d →
      d.durationDays = JsNum.fin (1 / 2)) ∧
    (∀ d, Worker.computeDuration date date (Worker.applyDefaults st et (some "AM")) = some d →
      d.durationDays = JsNum.fin (1 / 2)) ∧
    ((truthy st && truthy et) = true →
      Server.applyDefaults st et (some "AM") = ⟨"AM", "am", st, et⟩ ∧
      Worker.applyDefaults st et (some "AM") = ⟨"AM", "am", st, et⟩) := by
  refine ⟨fun h => ⟨?_, ?_⟩, fun d h => ?_, fun d h => ?_,
    fun h => ⟨server_applyDefaults_am_supplied st et h, worker_applyDefaults_am_supplied st et h⟩⟩
  · rw [server_applyDefaults_am_missing st et h,
      server_computeDuration_sameDay tz date _ (JsNum.fin 525) (JsNum.fin 800)
        (by decide!) (by decide!)]
    decide!
  · rw [worker_applyDefaults_am_missing st et h,
      worker_computeDuration_sameDay date _ (JsNum.fin 525) (JsNum.fin 800)
        (by decide!) (by decide!)]
    decide!
  · exact server_computeDuration_sameDay_days tz date _ "am" (1 / 2)
      (server_applyDefaults_am_tf st et) (by decide!) (by decide) d h
  · exact worker_computeDuration_sameDay_days date _ "am" (1 / 2)
      (worker_applyDefaults_am_tf st et) (by decide!) (by decide) d h

/-- Witness of C2 (amended) for an `AM` request without clock times. -/
theorem C2_am_same_day_witness :
    Server.computeDuration 0 "2025-12-02" "2025-12-02" (Server.applyDefaults none none (some "AM"))
        = some ⟨JsNum.fin (1 / 2), JsNum.fin (4583 / 1000)⟩ ∧
    Worker.computeDuration "2025-12-02" "2025-12-02" (Worker.applyDefaults none none (some "AM"))
        = some ⟨JsNum.fin (1 / 2), JsNum.fin (4583 / 1000)⟩ :=
  (C2_am_same_day 0 "2025-12-02" none none).1 (by decide)

/-- C3 as stated fails: a same-day `Full Day` request that supplies both clock times keeps
them, so `09:00`-`10:00` has `duration_hours` 1, not 9.25. -/
theorem C3_full_day_hours_counterexample :
    Server.computeDuration 0 "2025-12-02" "2025-12-02"
        (Server.applyDefaults (some "09:00") (some "10:00") (some "Full Day"))
      = some ⟨JsNum.fin 1, JsNum.fin 1⟩ ∧
    Worker.computeDuration "2025-12-02" "2025-12-02"
        (Worker.applyDefaults (some "09:00") (some "10:00") none)
      = some ⟨JsNum.fin 1, JsNum.fin 1⟩ ∧
    JsNum.fin 1 ≠ JsNum.fin (37 / 4) := by
  decide!

/-- C3, amended: for a same-day request with `time_frame = "Full Day"` or with `time_frame`
absent or empty, when `start_time` or `end_time` is missing the computed `duration_days` is 1 and
`duration_hours` is 9.25; when both are supplied they are kept as the effective times and
every accepted request still has `duration_days` 1. -/
theorem C3_full_day_same_day (tz : Int) (date : String) (st et : Option String)
    (tfm : Option String) (htfm : tfm = some "Full Day" ∨ tfm = none ∨ tfm = some "") :
    ((truthy st && truthy et) = false →
      Server.computeDuration tz date date (Server.applyDefaults st et tfm)
        = some ⟨JsNum.fin 1, JsNum.fin (37 / 4)⟩ ∧
      Worker.computeDuration date date (Worker.applyDefaults st et tfm)
        = some ⟨JsNum.fin 1, JsNum.fin (37 / 4)⟩) ∧
    (∀ d, Server.computeDuration tz date date (Server.applyDefaults st et tfm) = some d →
      d.durationDays = JsNum.fin 1) ∧
    (∀ d, Worker.computeDuration date date (Worker.applyDefaults st et tfm) = some d →
      d.durationDays = JsNum.fin 1) ∧
    ((truthy st && truthy et) = true →
      Server.applyDefaults st et tfm = ⟨"Full Day", "full day", st, et⟩ ∧
      Worker.applyDefaults st et tfm = ⟨"Full Day", "full day", st, et⟩) := by
  have hS : ∀ h : (truthy st && truthy et) = false,
      Server.applyDefaults st et tfm = ⟨"Full Day", "full day", some "08:45", some "18:00"⟩ := by
    intro h
    rcases htfm with rfl | rfl | rfl
    · exact server_applyDefaults_fullDay_missing st et h
    · exact server_applyDefaults_absent_missing st et h
    · exact server_applyDefaults_empty_missing st et h
  have hW : ∀ h : (truthy st && truthy et) = false,
      Worker.applyDefaults st et tfm = ⟨"Full Day", "full day", some "08:45", some "18:00"⟩ := by
    intro h
    rcases htfm with rfl | rfl | rfl
    · exact worker_applyDefaults_fullDay_missing st et h
    · exact worker_applyDefaults_absent_missing st et h
    · exact worker_applyDefaults_empty_missing st et h
  have tS : (Server.applyDefaults st et tfm).tf = "full day" := by
    rcases htfm with rfl | rfl | rfl
    · exact server_applyDefaults_fullDay_tf st et
    · exact server_applyDefaults_absent_tf st et
    · exact server_applyDefaults_empty_tf st et
  have tW : (Worker.applyDefaults st et tfm).tf = "full day" := by
    rcases htfm with rfl | rfl | rfl
    · exact worker_applyDefaults_fullDay_tf st et
    · exact worker_applyDefaults_absent_tf st et
    · exact worker_applyDefaults_empty_tf st et
  refine ⟨fun h => ⟨?_, ?_⟩, fun d h => ?_, fun d h => ?_, fun h => ⟨?_, ?_⟩⟩
  · rw [hS h, server_computeDuration_sameDay tz date _ (JsNum.fin 525) (JsNum.fin 1080)
        (by decide!) (by decide!)]
    decide!
  · rw [hW h, worker_computeDuration_sameDay date _ (JsNum.fin 525) (JsNum.fin 1080)
        (by decide!) (by decide!)]
    decide!
  · exact server_computeDuration_sameDay_days tz date _ "full day" 1 tS (by decide!)
      (by decide) d h
  · exact worker_computeDuration_sameDay_days date _ "full day" 1 tW (by decide!)
      (by decide) d h
  · rcases htfm with rfl | rfl | rfl
    · exact server_applyDefaults_fullDay_supplied st et h
    · exact server_applyDefaults_absent_supplied st et h
    · exact server_applyDefaults_empty_supplied st et h
  · rcases htfm with rfl | rfl | rfl
    · exact worker_applyDefaults_fullDay_supplied st et h
    · exact worker_applyDefaults_absent_supplied st et h
    · exact worker_applyDefaults_empty_supplied st et h

/-- Witness of C3 (amended) for a request without `time_frame` and without clock times. -/
theorem C3_full_day_same_day_witness :
    Server.computeDuration 0 "2025-12-02" "2025-12-02" (Server.applyDefaults none none none)
        = some ⟨JsNum.fin 1, JsNum.fin (37 / 4)⟩ ∧
    Worker.computeDuration "2025-12-02" "2025-12-02" (Worker.applyDefaults none none none)
        = some ⟨JsNum.fin 1, JsNum.fin (37 / 4)⟩ :=
  (C3_full_day_same_day 0 "2025-12-02" none none none (Or.inr (Or.inl rfl))).1 (by decide)


/-- C4 as stated fails: a same-day request whose end time equals its start time
(`09:00`-`09:00`, `Hourly`) is not rejected; it is persisted with both durations 0. -/
theorem C4_equal_times_counterexample :
    Server.postLeaves 0 "2025-12-01T08:00:00.000Z" employeeA
        (sameDayBody (some "09:00") (some "09:00") (some "Hourly")) none sampleDb
      = (Response.leaveRequested 1,
          { sampleDb with
            leaves := [⟨1, 1, some "Annual", "2025-12-02", "2025-12-02", "09:00", "09:00",
              "Hourly", "", none, some 0, some 0, "Pending", "2025-12-01T08:00:00.000Z",
              none, none⟩],
            leaveSeq := 1 }) ∧
    Worker.postLeaves "2025-12-01T08:00:00.000Z" employeeA
        (sameDayBody (some "09:00") (some "09:00") (some "Hourly")) none sampleDb
      = (Response.leaveRequested 1,
          { sampleDb with
            leaves := [⟨1, 1, some "Annual", "2025-12-02", "2025-12-02", "09:00", "09:00",
              "Hourly", "", none, some 0, some 0, "Pending", "2025-12-01T08:00:00.000Z",
              none, none⟩],
            leaveSeq := 1 }) := by
  decide!

/-- C4, amended: for a same-day submission whose effective start and end minutes are numbers
`a` and `b`, the submission fails with 400 `Invalid start_time or end_time for same-day leave`
and the store unchanged when `b < a`, and passes the time check when `a ≤ b` (equal times
included), with `duration_hours` = `(b - a) / 60` rounded to three decimals; a clock time
without a colon counts as missing and is replaced by the full-day default, 08:45 for the start
and 18:00 for the end. -/
theorem C4_same_day_time_validation (tz : Int) (appliedAt : String) (user : AuthUser)
    (body : LeaveBody) (file : Option String) (db : Db) (date : String) (a b : ℚ)
    (hsd : body.start_date = some date) (hed : body.end_date = some date) (hne : date ≠ "") :
    (Server.startMinutes (Server.applyDefaults body.start_time body.end_time body.time_frame)
        = some (JsNum.fin a) →
      Server.endMinutes (Server.applyDefaults body.start_time body.end_time body.time_frame)
        = some (JsNum.fin b) →
      (b < a → Server.postLeaves tz appliedAt user body file db
        = (Response.error 400 "Invalid start_time or end_time for same-day leave", db)) ∧
      (a ≤ b → ∃ d, Server.computeDuration tz date date
          (Server.applyDefaults body.start_time body.end_time body.time_frame) = some d ∧
        d.durationHours = (JsNum.fin ((b - a) / 60)).toFixed3)) ∧
    (Worker.startMinutes (Worker.applyDefaults body.start_time body.end_time body.time_frame)
        = some (JsNum.fin a) →
      Worker.endMinutes (Worker.applyDefaults body.start_time body.end_time body.time_frame)
        = some (JsNum.fin b) →
      (b < a → Worker.postLeaves appliedAt user body file db
        = (Response.error 400 "Invalid start_time or end_time for same-day leave", db)) ∧
      (a ≤ b → ∃ d, Worker.computeDuration date date
          (Worker.applyDefaults body.start_time body.end_time body.time_frame) = some d ∧
        d.durationHours = (JsNum.fin ((b - a) / 60)).toFixed3)) ∧
    (∀ (f : Frame) (s : String), f.start_time = some s → ':' ∉ s.toList →
      Server.startMinutes f = some (JsNum.fin 525)) ∧
    (∀ (f : Frame) (s : String), f.end_time = some s → ':' ∉ s.toList →
      Server.endMinutes f = some (JsNum.fin 1080)) ∧
    (∀ (f : Frame) (s : String), f.start_time = some s → ':' ∉ s.toList →
      Worker.startMinutes f = some (JsNum.fin 525)) ∧
    (∀ (f : Frame) (s : String), f.end_time = some s → ':' ∉ s.toList →
      Worker.endMinutes f = some (JsNum.fin 1080)) := by
  have ts : truthy body.start_date = true := by simp [truthy, hsd, hne]
  have te : truthy body.end_date = true := by simp [truthy, hed, hne]
  have gs : body.start_date.getD "" = date := by simp [hsd]
  have ge : body.end_date.getD "" = date := by simp [hed]
  refine ⟨fun hs he => ⟨fun hlt => ?_, fun hle => ?_⟩, fun hs he => ⟨fun hlt => ?_, fun hle => ?_⟩,
    ?_, ?_, ?_, ?_⟩
  · apply server_postLeaves_invalid tz appliedAt user body file db ts te
    rw [gs, ge, server_computeDuration_sameDay tz date _ _ _ hs he]
    have : (JsNum.fin b).lt (JsNum.fin a) = true := by simpa [JsNum.lt] using hlt
    rw [this]
    rfl
  · rw [server_computeDuration_sameDay tz date _ _ _ hs he]
    have : (JsNum.fin b).lt (JsNum.fin a) = false := by simpa [JsNum.lt] using hle
    rw [this]
    simp only [Bool.false_eq_true, if_false]
    split_ifs <;> exact ⟨_, rfl, by simp [JsNum.sub, JsNum.div]⟩
  · apply worker_postLeaves_invalid appliedAt user body file db ts te
    rw [gs, ge, worker_computeDuration_sameDay date _ _ _ hs he]
    have : (JsNum.fin b).lt (JsNum.fin a) = true := by simpa [JsNum.lt] using hlt
    rw [this]
    rfl
  · rw [worker_computeDuration_sameDay date _ _ _ hs he]
    have : (JsNum.fin b).lt (JsNum.fin a) = false := by simpa [JsNum.lt] using hle
    rw [this]
    simp only [Bool.false_eq_true, if_false]
    split_ifs <;> exact ⟨_, rfl, by simp [JsNum.sub, JsNum.div]⟩
  · intro f s hf h
    simp [Server.startMinutes, hf, server_minutesOf_no_colon s h, server_minutesOf_full_start]
  · intro f s hf h
    simp [Server.endMinutes, hf, server_minutesOf_no_colon s h, server_minutesOf_full_end]
  · intro f s hf h
    simp [Worker.startMinutes, hf, worker_minutesOf_no_colon s h, worker_minutesOf_full_start]
  · intro f s hf h
    simp [Worker.endMinutes, hf, worker_minutesOf_no_colon s h, worker_minutesOf_full_end]

/-- Witness of C4 (amended): `10:00`-`09:00` on 2025-12-02 is rejected with the store
unchanged. -/
theorem C4_same_day_time_validation_witness :
    Server.postLeaves 0 "2025-12-01T08:00:00.000Z" employeeA
        (sameDayBody (some "10:00") (some "09:00") (some "Hourly")) none sampleDb
      = (Response.error 400 "Invalid start_time or end_time for same-day leave", sampleDb) :=
  ((C4_same_day_time_validation 0 "2025-12-01T08:00:00.000Z" employeeA
    (sameDayBody (some "10:00") (some "09:00") (some "Hourly")) none sampleDb "2025-12-02"
    600 540 rfl rfl (by decide)).1 (by decide!) (by decide!)).1 (by norm_num)

/-! ## Claims on the balance ledger -/

/-- C5: whenever the computed `duration_days` is a number greater than `allocation - used` of
the requesting user, the submission fails with 400 `Insufficient leave balance` and the store
is returned unchanged: no leave row is inserted and every user row is as before. -/
theorem C5_insufficient_balance_rejected (tz : Int) (appliedAt : String) (user : AuthUser)
    (body : LeaveBody) (file : Option String) (db : Db) (u : User) (a us x : ℚ)
    (hsd : truthy body.start_date = true) (hed : truthy body.end_date = true)
    (hu : db.users.find? (fun u => u.id == user.id) = some u)
    (ha : u.allocation = some a) (hus : u.used = some us) (hx : x > a - us) :
    (∀ d, Server.computeDuration tz (body.start_date.getD "") (body.end_date.getD "")
        (Server.applyDefaults body.start_time body.end_time body.time_frame) = some d →
      d.durationDays = JsNum.fin x →
      Server.postLeaves tz appliedAt user body file db
        = (Response.error 400 "Insufficient leave balance", db)) ∧
    (∀ d, Worker.computeDuration (body.start_date.getD "") (body.end_date.getD "")
        (Worker.applyDefaults body.start_time body.end_time body.time_frame) = some d →
      d.durationDays = JsNum.fin x →
      Worker.postLeaves appliedAt user body file db
        = (Response.error 400 "Insufficient leave balance", db)) := by
  have hgt : ∀ d : Duration, d.durationDays = JsNum.fin x →
      d.durationDays.gt (u.allocation.toJs.sub u.used.toJs) = true := by
    intro d hd
    rw [hd, ha, hus]
    simpa [JsNum.gt, JsNum.lt, JsNum.sub, SqlNum.toJs] using hx
  exact ⟨fun d hd hdx => server_postLeaves_insufficient tz appliedAt user body file db d u
      hsd hed hd hu (hgt d hdx),
    fun d hd hdx => worker_postLeaves_insufficient appliedAt user body file db d u
      hsd hed hd hu (hgt d hdx)⟩

/-- Witness of C5: with the allocation used up, an `AM` request of half a day is rejected
and the store is unchanged. -/
theorem C5_insufficient_balance_rejected_witness :
    Server.postLeaves 0 "2025-12-01T08:00:00.000Z" employeeA (sameDayBody none none (some "AM"))
        none exhaustedDb
      = (Response.error 400 "Insufficient leave balance", exhaustedDb) :=
  (C5_insufficient_balance_rejected 0 "2025-12-01T08:00:00.000Z" employeeA
    (sameDayBody none none (some "AM")) none exhaustedDb ⟨1, "A", "Employee", some 20, some 20⟩
    20 20 (1 / 2) (by decide) (by decide) (by decide!) rfl rfl (by norm_num)).1
    ⟨JsNum.fin (1 / 2), JsNum.fin (4583 / 1000)⟩ (by decide!) rfl

/-- C6: for an existing request with stored `duration_days = d` whose owner has `used = u`,
a decide by a Manager or Admin with action `Approved` succeeds and makes the owner's `used`
exactly `u + d`; with action `Rejected` it succeeds and leaves every user row unchanged. -/
theorem C6_approve_adds_duration (actionedAt : String) (user : AuthUser) (id : Nat) (db : Db)
    (leaf : Leave) (owner : User) (d u : ℚ)
    (hrole : user.role = "Manager" ∨ user.role = "Admin")
    (hleaf : db.leaves.find? (fun l => l.id == id) = some leaf)
    (hd : leaf.duration_days = some d)
    (hown : db.users.find? (fun x => x.id == leaf.user_id) = some owner)
    (hu : owner.used = some u) :
    ((Server.approve actionedAt user id (some "Approved") db).1 = Response.actionRecorded ∧
      (Server.approve actionedAt user id (some "Approved") db).2.users.find?
          (fun x => x.id == leaf.user_id) = some { owner with used := some (u + d) }) ∧
    ((Server.approve actionedAt user id (some "Rejected") db).1 = Response.actionRecorded ∧
      (Server.approve actionedAt user id (some "Rejected") db).2.users = db.users) ∧
    ((Worker.approve actionedAt user id (some "Approved") db).1 = Response.actionRecorded ∧
      (Worker.approve actionedAt user id (some "Approved") db).2.users.find?
          (fun x => x.id == leaf.user_id) = some { owner with used := some (u + d) }) ∧
    ((Worker.approve actionedAt user id (some "Rejected") db).1 = Response.actionRecorded ∧
      (Worker.approve actionedAt user id (some "Rejected") db).2.users = db.users) := by
  have hr : (user.role == "Manager" || user.role == "Admin") = true := by
    rcases hrole with h | h <;> simp [h]
  refine ⟨⟨?_, ?_⟩, ⟨?_, ?_⟩, ⟨?_, ?_⟩, ⟨?_, ?_⟩⟩
  · rw [server_approve_eq actionedAt user id _ db leaf hr (by decide) hleaf]
  · exact server_approve_find_owner_approved actionedAt user id db leaf owner d u hr hleaf hd
      hown hu
  · rw [server_approve_eq actionedAt user id _ db leaf hr (by decide) hleaf]
  · exact server_approve_users_rejected actionedAt user id _ db (by decide)
  · rw [worker_approve_eq actionedAt user id _ db leaf hr (by decide) hleaf]
  · exact worker_approve_find_owner_approved actionedAt user id db leaf owner d u hr hleaf hd
      hown hu
  · rw [worker_approve_eq actionedAt user id _ db leaf hr (by decide) hleaf]
  · exact worker_approve_users_rejected actionedAt user id _ db (by decide)

/-- Witness of C6: manager B approves employee A's pending half-day request; A's `used`
goes from 0 to 1/2. -/
theorem C6_approve_adds_duration_witness :
    (Server.approve "2025-12-01T09:00:00.000Z" managerB 1 (some "Approved") pendingDb).1
        = Response.actionRecorded ∧
    (Server.approve "2025-12-01T09:00:00.000Z" managerB 1 (some "Approved")
        pendingDb).2.users.find? (fun x => x.id == (pmLeave "Pending" none none).user_id)
      = some { (⟨1, "A", "Employee", some 20, some 0⟩ : User) with used := some (0 + 1 / 2) } :=
  (C6_approve_adds_duration "2025-12-01T09:00:00.000Z" managerB 1 pendingDb
    (pmLeave "Pending" none none) ⟨1, "A", "Employee", some 20, some 0⟩ (1 / 2) 0
    (Or.inl rfl) (by decide!) rfl (by decide!) rfl).1

/-- C7 as stated fails: the weekend range 2025-11-29..2025-11-30 has `duration_days` 0 and is
accepted, so a reachable store holds a leave row whose `duration_days` is 0. -/
theorem C7_weekend_counterexample :
    Server.Reachable 0
      (Server.postLeaves 0 "2025-11-20T08:00:00.000Z" employeeA weekendBody none sampleDb).2 ∧
    Server.postLeaves 0 "2025-11-20T08:00:00.000Z" employeeA weekendBody none sampleDb
      = (Response.leaveRequested 1,
          { sampleDb with
            leaves := [⟨1, 1, some "Annual", "2025-11-29", "2025-11-30", "08:45", "18:00",
              "Full Day", "", none, some 0, some 0, "Pending", "2025-11-20T08:00:00.000Z",
              none, none⟩],
            leaveSeq := 1 }) ∧
    Worker.postLeaves "2025-11-20T08:00:00.000Z" employeeA weekendBody none sampleDb
      = (Response.leaveRequested 1,
          { sampleDb with
            leaves := [⟨1, 1, some "Annual", "2025-11-29", "2025-11-30", "08:45", "18:00",
              "Full Day", "", none, some 0, some 0, "Pending", "2025-11-20T08:00:00.000Z",
              none, none⟩],
            leaveSeq := 1 }) := by
  have p29 : parseIsoDate "2025-11-29" = some 20421 := by decide
  have p30 : parseIsoDate "2025-11-30" = some 20422 := by decide
  have w0 : weekdaysInRange 20421 20422 = 0 := by decide
  have n2 : ("2025-11-29" : String) ≠ "2025-11-30" := by decide
  have hS : Server.computeDuration 0 (weekendBody.start_date.getD "")
      (weekendBody.end_date.getD "")
      (Server.applyDefaults weekendBody.start_time weekendBody.end_time weekendBody.time_frame)
      = some ⟨JsNum.fin 0, JsNum.fin 0⟩ := by
    show Server.computeDuration 0 "2025-11-29" "2025-11-30" _ = _
    rw [server_computeDuration_multiDay 0 _ _ _ n2, server_daysBetween_eq 0 _ _ _ _ p29 p30, w0]
    decide!
  have hW : Worker.computeDuration (weekendBody.start_date.getD "")
      (weekendBody.end_date.getD "")
      (Worker.applyDefaults weekendBody.start_time weekendBody.end_time weekendBody.time_frame)
      = some ⟨JsNum.fin 0, JsNum.fin 0⟩ := by
    show Worker.computeDuration "2025-11-29" "2025-11-30" _ = _
    rw [worker_computeDuration_multiDay _ _ _ n2, worker_daysBetween_eq _ _ _ _ p29 p30, w0]
    decide!
  refine ⟨Server.Reachable.submit _ _ _ _ _ (Server.Reachable.init sampleDb rfl), ?_, ?_⟩
  · rw [server_postLeaves_accept 0 _ employeeA weekendBody none sampleDb _
      ⟨1, "A", "Employee", some 20, some 0⟩ (by decide) (by decide) hS (by decide) (by decide!)]
    decide!
  · rw [worker_postLeaves_accept _ employeeA weekendBody none sampleDb _
      ⟨1, "A", "Employee", some 20, some 0⟩ (by decide) (by decide) hW (by decide) (by decide!)]
    decide!

/-- C7, amended: in every store reachable from a store without leave rows by submissions and
decisions, every persisted leave request whose `duration_days` is a number has
`duration_days ≥ 0`; and a submission whose computed `duration_days` is 0 (such as a weekend
range) is accepted and persisted whenever the user's remaining balance is not negative. -/
theorem C7_persisted_duration_nonneg (tz : Int) (dbS dbW : Db) (l : Leave) (q : ℚ)
    (appliedAt : String) (user : AuthUser) (body : LeaveBody) (file : Option String) (db : Db)
    (u : User) (a us : ℚ) :
    (Server.Reachable tz dbS → l ∈ dbS.leaves → l.duration_days = some q → 0 ≤ q) ∧
    (Worker.Reachable dbW → l ∈ dbW.leaves → l.duration_days = some q → 0 ≤ q) ∧
    (truthy body.start_date = true → truthy body.end_date = true →
      db.users.find? (fun u => u.id == user.id) = some u →
      u.allocation = some a → u.used = some us → 0 ≤ a - us →
      (∀ d, Server.computeDuration tz (body.start_date.getD "") (body.end_date.getD "")
          (Server.applyDefaults body.start_time body.end_time body.time_frame) = some d →
        d.durationDays = JsNum.fin 0 →
        (Server.postLeaves tz appliedAt user body file db).1
            = Response.leaveRequested (db.leaveSeq + 1) ∧
          ∃ row ∈ (Server.postLeaves tz appliedAt user body file db).2.leaves,
            row.id = db.leaveSeq + 1 ∧ row.duration_days = some 0) ∧
      (∀ d, Worker.computeDuration (body.start_date.getD "") (body.end_date.getD "")
          (Worker.applyDefaults body.start_time body.end_time body.time_frame) = some d →
        d.durationDays = JsNum.fin 0 →
        (Worker.postLeaves appliedAt user body file db).1
            = Response.leaveRequested (db.leaveSeq + 1) ∧
          ∃ row ∈ (Worker.postLeaves appliedAt user body file db).2.leaves,
            row.id = db.leaveSeq + 1 ∧ row.duration_days = some 0)) := by
  refine ⟨fun h hl hq => server_reachable_duration_nonNeg tz dbS h l hl q hq,
    fun h hl hq => worker_reachable_duration_nonNeg dbW h l hl q hq, ?_⟩
  intro hsd hed hu ha hus hbal
  have hgt : ∀ d : Duration, d.durationDays = JsNum.fin 0 →
      d.durationDays.gt (u.allocation.toJs.sub u.used.toJs) = false := by
    intro d hd
    rw [hd, ha, hus]
    simpa [JsNum.gt, JsNum.lt, JsNum.sub, SqlNum.toJs] using hbal
  refine ⟨fun d hd h0 => ?_, fun d hd h0 => ?_⟩
  · rw [server_postLeaves_accept tz appliedAt user body file db d u hsd hed hd hu (hgt d h0)]
    refine ⟨rfl, _, List.mem_append_right _ (List.mem_singleton_self _), rfl, ?_⟩
    simp [h0, JsNum.toSql]
  · rw [worker_postLeaves_accept appliedAt user body file db d u hsd hed hd hu (hgt d h0)]
    refine ⟨rfl, _, List.mem_append_right _ (List.mem_singleton_self _), rfl, ?_⟩
    simp [h0, JsNum.toSql]

/-- Witness of C7 (amended): the store after employee A's `PM` request for 2025-12-02 is
reachable and its row has `duration_days` 1/2. -/
theorem C7_persisted_duration_nonneg_witness :
    Server.Reachable 0
      (Server.postLeaves 0 "2025-12-01T08:00:00.000Z" employeeA
        (sameDayBody none none (some "PM")) none sampleDb).2 ∧
    (0 : ℚ) ≤ 1 / 2 :=
  ⟨Server.Reachable.submit _ _ _ _ _ (Server.Reachable.init sampleDb rfl),
    (C7_persisted_duration_nonneg 0
      (Server.postLeaves 0 "2025-12-01T08:00:00.000Z" employeeA
        (sameDayBody none none (some "PM")) none sampleDb).2 sampleDb
      (pmLeave "Pending" none none) (1 / 2) "" employeeA weekendBody none sampleDb
      ⟨1, "A", "Employee", some 20, some 0⟩ 20 0).1
      (Server.Reachable.submit _ _ _ _ _ (Server.Reachable.init sampleDb rfl))
      (by decide!) rfl⟩

/-! ## Claims on the approval workflow -/

/-- C8 is broken by both approval handlers: a decide on an already approved request is
neither refused nor a no-op. A second `Approved` overwrites `actioned_at` and raises the
owner's `used` from 1/2 to 1; a `Rejected` turns the approved request into a rejected one
and leaves the half day counted. -/
theorem C8_redecide_approved_request :
    Server.approve "2025-12-01T10:00:00.000Z" managerB 1 (some "Approved") approvedOnceDb
      = (Response.actionRecorded,
          { users := [⟨1, "A", "Employee", some 20, some 1⟩,
              ⟨2, "B", "Manager", some 20, some 0⟩],
            leaves := [pmLeave "Approved" (some "2025-12-01T10:00:00.000Z") (some 2)],
            leaveSeq := 1 }) ∧
    Worker.approve "2025-12-01T10:00:00.000Z" managerB 1 (some "Approved") approvedOnceDb
      = (Response.actionRecorded,
          { users := [⟨1, "A", "Employee", some 20, some 1⟩,
              ⟨2, "B", "Manager", some 20, some 0⟩],
            leaves := [pmLeave "Approved" (some "2025-12-01T10:00:00.000Z") (some 2)],
            leaveSeq := 1 }) ∧
    Server.approve "2025-12-01T10:00:00.000Z" managerB 1 (some "Rejected") approvedOnceDb
      = (Response.actionRecorded,
          { approvedOnceDb with
            leaves := [pmLeave "Rejected" (some "2025-12-01T10:00:00.000Z") (some 2)] }) := by
  decide!

/-- The approval handlers never read the status of the request: a decide by a Manager or
Admin with action `Approved` or `Rejected` on a request that is not `Pending` succeeds as on
a pending one, sets `status`, `actioned_at` and `action_by`, and with `Approved` adds the
stored `duration_days` to the owner's `used` again. -/
theorem approve_ignores_status (actionedAt : String) (user : AuthUser) (id : Nat)
    (action : String) (db : Db) (leaf : Leave) (owner : User) (d u : ℚ)
    (hrole : user.role = "Manager" ∨ user.role = "Admin")
    (hact : action = "Approved" ∨ action = "Rejected")
    (hleaf : db.leaves.find? (fun l => l.id == id) = some leaf)
    (_hst : leaf.status ≠ "Pending")
    (hd : leaf.duration_days = some d)
    (hown : db.users.find? (fun x => x.id == leaf.user_id) = some owner)
    (hu : owner.used = some u) :
    ((Server.approve actionedAt user id (some action) db).1 = Response.actionRecorded ∧
      (Server.approve actionedAt user id (some action) db).2.leaves.find? (fun l => l.id == id)
        = some { leaf with status := action, actioned_at := some actionedAt,
                           action_by := some user.id } ∧
      (action = "Approved" →
        (Server.approve actionedAt user id (some action) db).2.users.find?
          (fun x => x.id == leaf.user_id) = some { owner with used := some (u + d) })) ∧
    ((Worker.approve actionedAt user id (some action) db).1 = Response.actionRecorded ∧
      (Worker.approve actionedAt user id (some action) db).2.leaves.find? (fun l => l.id == id)
        = some { leaf with status := action, actioned_at := some actionedAt,
                           action_by := some user.id } ∧
      (action = "Approved" →
        (Worker.approve actionedAt user id (some action) db).2.users.find?
          (fun x => x.id == leaf.user_id) = some { owner with used := some (u + d) })) := by
  have hr : (user.role == "Manager" || user.role == "Admin") = true := by
    rcases hrole with h | h <;> simp [h]
  have ha : (some action == some "Approved" || some action == some "Rejected") = true := by
    rcases hact with h | h <;> simp [h]
  refine ⟨⟨?_, ?_, ?_⟩, ⟨?_, ?_, ?_⟩⟩
  · rw [server_approve_eq actionedAt user id _ db leaf hr ha hleaf]
  · exact server_approve_find_leaf actionedAt user id _ db leaf hr ha hleaf
  · intro h
    subst h
    exact server_approve_find_owner_approved actionedAt user id db leaf owner d u hr hleaf hd
      hown hu
  · rw [worker_approve_eq actionedAt user id _ db leaf hr ha hleaf]
  · exact worker_approve_find_leaf actionedAt user id _ db leaf hr ha hleaf
  · intro h
    subst h
    exact worker_approve_find_owner_approved actionedAt user id db leaf owner d u hr hleaf hd
      hown hu

/-- C9 is broken by both approval handlers: approving the same pending half-day request twice
raises the owner's `used` from 0 to 1, which is twice the request's `duration_days`. -/
theorem C9_double_approval_counts_twice :
    (Server.decideAll 1
        [⟨"2025-12-01T09:00:00.000Z", managerB, some "Approved"⟩,
          ⟨"2025-12-01T10:00:00.000Z", managerB, some "Approved"⟩] pendingDb).users
      = [⟨1, "A", "Employee", some 20, some 1⟩, ⟨2, "B", "Manager", some 20, some 0⟩] ∧
    (Worker.decideAll 1
        [⟨"2025-12-01T09:00:00.000Z", managerB, some "Approved"⟩,
          ⟨"2025-12-01T10:00:00.000Z", managerB, some "Approved"⟩] pendingDb).users
      = [⟨1, "A", "Employee", some 20, some 1⟩, ⟨2, "B", "Manager", some 20, some 0⟩] ∧
    (pmLeave "Pending" none none).duration_days = some (1 / 2) ∧
    ((0 : ℚ) + 1 / 2 ≠ 1) := by
  decide!

/-- Along every finite sequence of decide calls on a request with `duration_days = d`, the
owner's `used` grows by `d` for every call made by a Manager or Admin with action `Approved`
(by `k * d` after `k` such calls) and by 0 for every other call. -/
theorem decideAll_adds_duration_per_approval (id : Nat) (cs : List Decision) (db : Db)
    (leaf : Leave)
    (owner : User) (d u : ℚ)
    (hleaf : db.leaves.find? (fun l => l.id == id) = some leaf)
    (hd : leaf.duration_days = some d)
    (hown : db.users.find? (fun x => x.id == leaf.user_id) = some owner)
    (hu : owner.used = some u) :
    (∃ o, (Server.decideAll id cs db).users.find? (fun x => x.id == leaf.user_id) = some o ∧
      o.used = some (u + (approvals cs : ℚ) * d)) ∧
    (∃ o, (Worker.decideAll id cs db).users.find? (fun x => x.id == leaf.user_id) = some o ∧
      o.used = some (u + (approvals cs : ℚ) * d)) :=
  ⟨server_decideAll_used id d leaf.user_id cs db leaf owner u hleaf hd rfl hown hu,
    worker_decideAll_used id d leaf.user_id cs db leaf owner u hleaf hd rfl hown hu⟩

/-! ## Claims on the leave listing -/

/-- C10: for every store, every caller whose role is neither Manager nor Admin and every
combination of optional `status` and `year` filters, the listing answers with rows that all
have `user_id` equal to the caller's id. -/
theorem C10_non_manager_lists_own_rows (user : AuthUser) (status year : Option String)
    (db : Db) (h1 : user.role ≠ "Manager") (h2 : user.role ≠ "Admin") :
    (∃ rs, Server.getLeaves user status year db = (Response.rows rs, db) ∧
      ∀ r ∈ rs, r.leave.user_id = user.id) ∧
    (∃ rs, Worker.getLeaves user status year db = (Response.rows rs, db) ∧
      ∀ r ∈ rs, r.leave.user_id = user.id) := by
  have hr : (user.role == "Manager" || user.role == "Admin") = false := by
    simp [h1, h2]
  exact ⟨server_getLeaves_own_rows user status year db hr,
    worker_getLeaves_own_rows user status year db hr⟩

/-- Witness of C10: employee A lists the leaves of the store with one pending request,
filtered by status `Pending` and year `2025`. -/
theorem C10_non_manager_lists_own_rows_witness :
    ∃ rs, Server.getLeaves employeeA (some "Pending") (some "2025") pendingDb
        = (Response.rows rs, pendingDb) ∧
      ∀ r ∈ rs, r.leave.user_id = employeeA.id :=
  (C10_non_manager_lists_own_rows employeeA (some "Pending") (some "2025") pendingDb
    (by decide) (by decide)).1

/-! ## Claims on the preconditions and the frame of a decision -/

/-- C11: for every caller whose role is neither Manager nor Admin, a decide fails with 403
`Manager role required` for every request id and every action value, whether the request
exists or not, and the store (all leave rows, all users) is unchanged. -/
theorem C11_non_manager_decide_forbidden (actionedAt : String) (user : AuthUser) (id : Nat)
    (action : Option String) (db : Db)
    (h1 : user.role ≠ "Manager") (h2 : user.role ≠ "Admin") :
    Server.approve actionedAt user id action db
      = (Response.error 403 "Manager role required", db) ∧
    Worker.approve actionedAt user id action db
      = (Response.error 403 "Manager role required", db) := by
  have hr : (user.role == "Manager" || user.role == "Admin") = false := by
    simp [h1, h2]
  exact ⟨server_approve_forbidden actionedAt user id action db hr,
    worker_approve_forbidden actionedAt user id action db hr⟩

/-- Witness of C11: employee A tries to approve the pending request 1. -/
theorem C11_non_manager_decide_forbidden_witness :
    Server.approve "2025-12-01T09:00:00.000Z" employeeA 1 (some "Approved") pendingDb
      = (Response.error 403 "Manager role required", pendingDb) ∧
    Worker.approve "2025-12-01T09:00:00.000Z" employeeA 1 (some "Approved") pendingDb
      = (Response.error 403 "Manager role required", pendingDb) :=
  C11_non_manager_decide_forbidden "2025-12-01T09:00:00.000Z" employeeA 1 (some "Approved")
    pendingDb (by decide) (by decide)

/-- C12: for every Manager or Admin and every action value other than exactly `Approved` or
`Rejected` (an absent action, `approved` and `Pending` included), a decide fails with 400
`action must be Approved or Rejected` whether or not the request exists, and the store is
unchanged. -/
theorem C12_invalid_action_rejected (actionedAt : String) (user : AuthUser) (id : Nat)
    (action : Option String) (db : Db)
    (hrole : user.role = "Manager" ∨ user.role = "Admin")
    (h1 : action ≠ some "Approved") (h2 : action ≠ some "Rejected") :
    Server.approve actionedAt user id action db
      = (Response.error 400 "action must be Approved or Rejected", db) ∧
    Worker.approve actionedAt user id action db
      = (Response.error 400 "action must be Approved or Rejected", db) := by
  have hr : (user.role == "Manager" || user.role == "Admin") = true := by
    rcases hrole with h | h <;> simp [h]
  have ha : (action == some "Approved" || action == some "Rejected") = false := by
    simp [h1, h2]
  exact ⟨server_approve_invalid actionedAt user id action db hr ha,
    worker_approve_invalid actionedAt user id action db hr ha⟩

/-- Witness of C12: manager B sends the lower-case action `approved` for the pending
request, an absent action for it, and `Pending` for a request that does not exist. -/
theorem C12_invalid_action_rejected_witness :
    (Server.approve "2025-12-01T09:00:00.000Z" managerB 1 (some "approved") pendingDb
        = (Response.error 400 "action must be Approved or Rejected", pendingDb) ∧
      Worker.approve "2025-12-01T09:00:00.000Z" managerB 1 (some "approved") pendingDb
        = (Response.error 400 "action must be Approved or Rejected", pendingDb)) ∧
    (Server.approve "2025-12-01T09:00:00.000Z" managerB 1 none pendingDb
        = (Response.error 400 "action must be Approved or Rejected", pendingDb) ∧
      Worker.approve "2025-12-01T09:00:00.000Z" managerB 1 none pendingDb
        = (Response.error 400 "action must be Approved or Rejected", pendingDb)) ∧
    (Server.approve "2025-12-01T09:00:00.000Z" managerB 7 (some "Pending") pendingDb
        = (Response.error 400 "action must be Approved or Rejected", pendingDb) ∧
      Worker.approve "2025-12-01T09:00:00.000Z" managerB 7 (some "Pending") pendingDb
        = (Response.error 400 "action must be Approved or Rejected", pendingDb)) :=
  ⟨C12_invalid_action_rejected "2025-12-01T09:00:00.000Z" managerB 1 (some "approved")
      pendingDb (Or.inl rfl) (by decide) (by decide),
    C12_invalid_action_rejected "2025-12-01T09:00:00.000Z" managerB 1 none
      pendingDb (Or.inl rfl) (by decide) (by decide),
    C12_invalid_action_rejected "2025-12-01T09:00:00.000Z" managerB 7 (some "Pending")
      pendingDb (Or.inl rfl) (by decide) (by decide)⟩

/-- C13: for every Manager or Admin, every action in `Approved`, `Rejected` and every request
id that no leave row carries, a decide fails with 404 `Leave not found` and the store is
unchanged. -/
theorem C13_missing_request_not_found (actionedAt : String) (user : AuthUser) (id : Nat)
    (action : String) (db : Db)
    (hrole : user.role = "Manager" ∨ user.role = "Admin")
    (hact : action = "Approved" ∨ action = "Rejected")
    (hid : ∀ l ∈ db.leaves, l.id ≠ id) :
    Server.approve actionedAt user id (some action) db
      = (Response.error 404 "Leave not found", db) ∧
    Worker.approve actionedAt user id (some action) db
      = (Response.error 404 "Leave not found", db) := by
  have hr : (user.role == "Manager" || user.role == "Admin") = true := by
    rcases hrole with h | h <;> simp [h]
  have ha : (some action == some "Approved" || some action == some "Rejected") = true := by
    rcases hact with h | h <;> simp [h]
  have hf : db.leaves.find? (fun l => l.id == id) = none := by
    rw [List.find?_eq_none]
    intro l hl
    simpa using hid l hl
  exact ⟨server_approve_notFound actionedAt user id _ db hr ha hf,
    worker_approve_notFound actionedAt user id _ db hr ha hf⟩

/-- Witness of C13: manager B approves request 7 in the store whose only request is 1. -/
theorem C13_missing_request_not_found_witness :
    Server.approve "2025-12-01T09:00:00.000Z" managerB 7 (some "Approved") pendingDb
      = (Response.error 404 "Leave not found", pendingDb) ∧
    Worker.approve "2025-12-01T09:00:00.000Z" managerB 7 (some "Approved") pendingDb
      = (Response.error 404 "Leave not found", pendingDb) :=
  C13_missing_request_not_found "2025-12-01T09:00:00.000Z" managerB 7 "Approved" pendingDb
    (Or.inl rfl) (Or.inl rfl) (by decide)

/-- C14: a successful decide answers `Action recorded` and changes the store in exactly this
way. On every leave row with the target id it sets `status` to the action, `actioned_at` to
the clock reading and `action_by` to the caller's id and keeps every other field; every other
leave row is unchanged. When the action is `Approved`, on the row of the request's owner it
replaces `used` (by `used + duration_days`) and keeps every other field, the allocation
included; every other user row is unchanged, and with `Rejected` every user row is. -/
theorem C14_decide_frame (actionedAt : String) (user : AuthUser) (id : Nat) (action : String)
    (db : Db) (leaf : Leave)
    (hrole : user.role = "Manager" ∨ user.role = "Admin")
    (hact : action = "Approved" ∨ action = "Rejected")
    (hleaf : db.leaves.find? (fun l => l.id == id) = some leaf) :
    ((Server.approve actionedAt user id (some action) db).1 = Response.actionRecorded ∧
      (Server.approve actionedAt user id (some action) db).2.leaveSeq = db.leaveSeq ∧
      List.Forall₂
        (fun l l' =>
          if l.id = id then
            l' = { l with status := action, actioned_at := some actionedAt,
                          action_by := some user.id }
          else l' = l)
        db.leaves (Server.approve actionedAt user id (some action) db).2.leaves ∧
      List.Forall₂
        (fun u u' =>
          if action = "Approved" ∧ u.id = leaf.user_id then
            u' = { u with used := SqlNum.add u.used leaf.duration_days }
          else u' = u)
        db.users (Server.approve actionedAt user id (some action) db).2.users) ∧
    ((Worker.approve actionedAt user id (some action) db).1 = Response.actionRecorded ∧
      (Worker.approve actionedAt user id (some action) db).2.leaveSeq = db.leaveSeq ∧
      List.Forall₂
        (fun l l' =>
          if l.id = id then
            l' = { l with status := action, actioned_at := some actionedAt,
                          action_by := some user.id }
          else l' = l)
        db.leaves (Worker.approve actionedAt user id (some action) db).2.leaves ∧
      List.Forall₂
        (fun u u' =>
          if action = "Approved" ∧ u.id = leaf.user_id then
            u' = { u with
              used := SqlNum.add u.used.coalesce0 leaf.duration_days.orZero.toSql }
          else u' = u)
        db.users (Worker.approve actionedAt user id (some action) db).2.users) := by
  have hr : (user.role == "Manager" || user.role == "Admin") = true := by
    rcases hrole with h | h <;> simp [h]
  have ha : (some action == some "Approved" || some action == some "Rejected") = true := by
    rcases hact with h | h <;> simp [h]
  have hS := server_approve_frame actionedAt user id (some action) db leaf hr ha hleaf
  have hW := worker_approve_frame actionedAt user id (some action) db leaf hr ha hleaf
  simp only [Option.getD_some, Option.some.injEq] at hS hW
  refine ⟨⟨?_, hS⟩, ⟨?_, hW⟩⟩
  · rw [server_approve_eq actionedAt user id _ db leaf hr ha hleaf]
  · rw [worker_approve_eq actionedAt user id _ db leaf hr ha hleaf]

/-- Witness of C14: manager B approves the pending request 1 of employee A. -/
theorem C14_decide_frame_witness :
    (Server.approve "2025-12-01T09:00:00.000Z" managerB 1 (some "Approved") pendingDb).1
        = Response.actionRecorded ∧
    (Server.approve "2025-12-01T09:00:00.000Z" managerB 1 (some "Approved")
        pendingDb).2.leaveSeq = pendingDb.leaveSeq ∧
    List.Forall₂
      (fun l l' =>
        if l.id = 1 then
          l' = { l with status := "Approved", actioned_at := some "2025-12-01T09:00:00.000Z",
                        action_by := some managerB.id }
        else l' = l)
      pendingDb.leaves
      (Server.approve "2025-12-01T09:00:00.000Z" managerB 1 (some "Approved")
        pendingDb).2.leaves ∧
    List.Forall₂
      (fun u u' =>
        if "Approved" = "Approved" ∧ u.id = (pmLeave "Pending" none none).user_id then
          u' = { u with used := SqlNum.add u.used (pmLeave "Pending" none none).duration_days }
        else u' = u)
      pendingDb.users
      (Server.approve "2025-12-01T09:00:00.000Z" managerB 1 (some "Approved")
        pendingDb).2.users :=
  (C14_decide_frame "2025-12-01T09:00:00.000Z" managerB 1 "Approved" pendingDb
    (pmLeave "Pending" none none) (Or.inl rfl) (Or.inl rfl) (by decide!)).1

/-! ## Claims on the two backends and the end-to-end run -/

/-- C19: the duration calculators of server.js and worker.js agree on every input
`(start_date, end_date, time_frame, start_time, end_time)`: the same effective times, the
same weekday count from their `daysBetween`, and either both reject or both compute the same
`(duration_days, duration_hours)`; the whole submission handlers give the same response and
store, so a rejection carries the same validation error. -/
theorem C19_backends_compute_same_duration (tz : Int) (start_date end_date : String)
    (start_time end_time time_frame : Option String) :
    Server.applyDefaults start_time end_time time_frame
      = Worker.applyDefaults start_time end_time time_frame ∧
    Server.daysBetween tz start_date end_date = Worker.daysBetween start_date end_date ∧
    Server.computeDuration tz start_date end_date
        (Server.applyDefaults start_time end_time time_frame)
      = Worker.computeDuration start_date end_date
        (Worker.applyDefaults start_time end_time time_frame) ∧
    (∀ (appliedAt : String) (user : AuthUser) (body : LeaveBody) (file : Option String)
        (db : Db),
      Server.postLeaves tz appliedAt user body file db
        = Worker.postLeaves appliedAt user body file db) := by
  refine ⟨applyDefaults_server_eq_worker _ _ _, daysBetween_server_eq_worker tz _ _, ?_,
    fun appliedAt user body file db =>
      postLeaves_server_eq_worker tz appliedAt user body file db⟩
  rw [computeDuration_server_eq_worker, applyDefaults_server_eq_worker]

/-- C20: from the store with Employee A (allocation 20, used 0) and Manager B, A's request
for 2025-12-02..2025-12-02 with `time_frame = PM` and no clock times is accepted and
persisted as `Pending` with `duration_days` 0.5 and `duration_hours` 4.5; B's decide with
`Approved` on that request succeeds; and A's profile then shows `used` 0.5. -/
theorem C20_submit_approve_profile (tz : Int) (appliedAt actionedAt : String) :
    Server.postLeaves tz appliedAt employeeA (sameDayBody none none (some "PM")) none sampleDb
      = (Response.leaveRequested 1,
          { sampleDb with
            leaves := [⟨1, 1, some "Annual", "2025-12-02", "2025-12-02", "13:30", "18:00", "PM",
              "", none, some (1 / 2), some (9 / 2), "Pending", appliedAt, none, none⟩],
            leaveSeq := 1 }) ∧
    (Server.approve actionedAt managerB 1 (some "Approved")
      (Server.postLeaves tz appliedAt employeeA (sameDayBody none none (some "PM")) none
        sampleDb).2).1 = Response.actionRecorded ∧
    (Server.getMe employeeA
      (Server.approve actionedAt managerB 1 (some "Approved")
        (Server.postLeaves tz appliedAt employeeA (sameDayBody none none (some "PM")) none
          sampleDb).2).2).1
      = Response.profile ⟨1, "A", "Employee", some 20, some (1 / 2)⟩ ∧
    (Worker.getMe employeeA
      (Worker.approve actionedAt managerB 1 (some "Approved")
        (Worker.postLeaves appliedAt employeeA (sameDayBody none none (some "PM")) none
          sampleDb).2).2).1
      = Response.profile ⟨1, "A", "Employee", some 20, some (1 / 2)⟩ := by
  have hd : Server.computeDuration tz ((sameDayBody none none (some "PM")).start_date.getD "")
      ((sameDayBody none none (some "PM")).end_date.getD "")
      (Server.applyDefaults (sameDayBody none none (some "PM")).start_time
        (sameDayBody none none (some "PM")).end_time
        (sameDayBody none none (some "PM")).time_frame)
      = some ⟨JsNum.fin (1 / 2), JsNum.fin (9 / 2)⟩ := by
    show Server.computeDuration tz "2025-12-02" "2025-12-02" _ = _
    rw [server_computeDuration_sameDay tz "2025-12-02" _ (JsNum.fin 810) (JsNum.fin 1080)
      (by decide!) (by decide!)]
    decide!
  have hpost : Server.postLeaves tz appliedAt employeeA (sameDayBody none none (some "PM"))
      none sampleDb
      = (Response.leaveRequested 1,
          { sampleDb with
            leaves := [⟨1, 1, some "Annual", "2025-12-02", "2025-12-02", "13:30", "18:00", "PM",
              "", none, some (1 / 2), some (9 / 2), "Pending", appliedAt, none, none⟩],
            leaveSeq := 1 }) := by
    rw [server_postLeaves_accept tz appliedAt employeeA (sameDayBody none none (some "PM")) none
      sampleDb _ ⟨1, "A", "Employee", some 20, some 0⟩ (by decide) (by decide) hd (by decide)
      (by decide!)]
    have e1 : Server.applyDefaults (sameDayBody none none (some "PM")).start_time
        (sameDayBody none none (some "PM")).end_time
        (sameDayBody none none (some "PM")).time_frame
        = ⟨"PM", "pm", some "13:30", some "18:00"⟩ := by decide
    rw [e1]
    rfl
  have happ : ∀ s : String, Server.approve actionedAt managerB 1 (some "Approved")
      { sampleDb with
        leaves := [⟨1, 1, some "Annual", "2025-12-02", "2025-12-02", "13:30", "18:00", "PM",
          "", none, some (1 / 2), some (9 / 2), "Pending", s, none, none⟩],
        leaveSeq := 1 }
      = (Response.actionRecorded,
          { users := [⟨1, "A", "Employee", some 20, SqlNum.add (some 0) (some (1 / 2))⟩,
              ⟨2, "B", "Manager", some 20, some 0⟩],
            leaves := [⟨1, 1, some "Annual", "2025-12-02", "2025-12-02", "13:30", "18:00", "PM",
              "", none, some (1 / 2), some (9 / 2), "Approved", s, some actionedAt, some 2⟩],
            leaveSeq := 1 }) := by
    intro s
    rfl
  have hadd : SqlNum.add (some 0) (some (1 / 2)) = some (1 / 2) := by decide!
  have hW : Worker.postLeaves appliedAt employeeA (sameDayBody none none (some "PM")) none
      sampleDb = Server.postLeaves tz appliedAt employeeA (sameDayBody none none (some "PM"))
      none sampleDb := (postLeaves_server_eq_worker tz _ _ _ _ _).symm
  refine ⟨hpost, ?_, ?_, ?_⟩
  · rw [hpost, happ]
  · rw [hpost, happ, hadd]
    rfl
  · rw [hW, hpost]
    have happW : Worker.approve actionedAt managerB 1 (some "Approved")
        { sampleDb with
          leaves := [⟨1, 1, some "Annual", "2025-12-02", "2025-12-02", "13:30", "18:00", "PM",
            "", none, some (1 / 2), some (9 / 2), "Pending", appliedAt, none, none⟩],
          leaveSeq := 1 }
        = (Response.actionRecorded,
            { users := [⟨1, "A", "Employee", some 20,
                SqlNum.add (SqlNum.coalesce0 (some 0)) (SqlNum.orZero (some (1 / 2))).toSql⟩,
                ⟨2, "B", "Manager", some 20, some 0⟩],
              leaves := [⟨1, 1, some "Annual", "2025-12-02", "2025-12-02", "13:30", "18:00",
                "PM", "", none, some (1 / 2), some (9 / 2), "Approved", appliedAt,
                some actionedAt, some 2⟩],
              leaveSeq := 1 }) := rfl
    rw [happW, SqlNum.worker_used_update 0 (1 / 2)]
    have : (0 : ℚ) + 1 / 2 = 1 / 2 := by norm_num
    rw [this]
    rfl

/-! ## Claims on the monotonicity of the balance -/

/-- C15 is broken by server.js: employee A, with `used` 1/2, submits a same-day `Hourly`
request whose start time is `ab:cd`; the minutes are `NaN`, the time check lets them
through and the request is stored with `duration_days` NULL. Manager B approves it and
`used = used + NULL` leaves A's `used` NULL, which the balance check reads as 0. In worker.js
the same run keeps `used` at 1/2 (`duration_days || 0` and `COALESCE(used,0)`). -/
theorem C15_null_duration_approval_erases_used :
    (Server.getMe employeeA approvedOnceDb).1
        = Response.profile ⟨1, "A", "Employee", some 20, some (1 / 2)⟩ ∧
    (Server.postLeaves 0 "2025-12-01T11:00:00.000Z" employeeA nanTimesBody none
        approvedOnceDb).1 = Response.leaveRequested 2 ∧
    (Server.postLeaves 0 "2025-12-01T11:00:00.000Z" employeeA nanTimesBody none
        approvedOnceDb).2.leaves.map (fun l => (l.id, l.duration_days, l.duration_hours))
      = [(1, some (1 / 2), some (9 / 2)), (2, none, none)] ∧
    Server.approve "2025-12-01T12:00:00.000Z" managerB 2 (some "Approved")
        (Server.postLeaves 0 "2025-12-01T11:00:00.000Z" employeeA nanTimesBody none
          approvedOnceDb).2
      = (Response.actionRecorded,
          { users := [⟨1, "A", "Employee", some 20, none⟩,
              ⟨2, "B", "Manager", some 20, some 0⟩],
            leaves := [pmLeave "Approved" (some "2025-12-01T09:00:00.000Z") (some 2),
              ⟨2, 1, some "Annual", "2025-12-02", "2025-12-02", "ab:cd", "10:00", "Hourly", "",
                none, none, none, "Approved", "2025-12-01T11:00:00.000Z",
                some "2025-12-01T12:00:00.000Z", some 2⟩],
            leaveSeq := 2 }) ∧
    (Worker.approve "2025-12-01T12:00:00.000Z" managerB 2 (some "Approved")
        (Worker.postLeaves "2025-12-01T11:00:00.000Z" employeeA nanTimesBody none
          approvedOnceDb).2).2.users
      = [⟨1, "A", "Employee", some 20, some (1 / 2)⟩, ⟨2, "B", "Manager", some 20, some 0⟩] := by
  decide!

/-- Submission, listing and the profile never change a user row, and a decide whose action is
not `Approved` does not either, in both backends. -/
theorem users_unchanged_outside_approval (tz : Int) (t : String) (user : AuthUser)
    (body : LeaveBody) (file status year : Option String) (id : Nat) (action : Option String)
    (db : Db) :
    (Server.postLeaves tz t user body file db).2.users = db.users ∧
    (Worker.postLeaves t user body file db).2.users = db.users ∧
    (Server.getLeaves user status year db).2 = db ∧
    (Worker.getLeaves user status year db).2 = db ∧
    (Server.getMe user db).2 = db ∧
    (Worker.getMe user db).2 = db ∧
    (action ≠ some "Approved" → (Server.approve t user id action db).2.users = db.users) ∧
    (action ≠ some "Approved" → (Worker.approve t user id action db).2.users = db.users) := by
  refine ⟨server_postLeaves_users tz t user body file db,
    worker_postLeaves_users t user body file db, rfl, rfl, ?_, ?_,
    server_approve_users_rejected t user id action db,
    worker_approve_users_rejected t user id action db⟩
  · unfold Server.getMe
    split <;> rfl
  · unfold Worker.getMe
    split <;> rfl

theorem SqlNum.worker_update_getD (used d : SqlNum) :
    (SqlNum.add used.coalesce0 d.orZero.toSql).getD 0 = used.getD 0 + d.getD 0 := by
  cases used <;> cases d with
  | none => simp [SqlNum.coalesce0, SqlNum.orZero, JsNum.toSql, SqlNum.add]
  | some q =>
    by_cases hq : q = 0
    · simp [SqlNum.coalesce0, SqlNum.orZero, JsNum.toSql, SqlNum.add, hq]
    · simp [SqlNum.coalesce0, SqlNum.orZero, JsNum.toSql, SqlNum.add, hq]

/-- In worker.js no decide ever lowers a user's `used` (NULL counting as 0), in any store
reachable by submissions and decisions. -/
theorem worker_approval_never_lowers_used (t : String) (user : AuthUser) (id : Nat)
    (action : Option String) (db : Db) (h : Worker.Reachable db) :
    List.Forall₂ (fun u u' => u.used.getD 0 ≤ u'.used.getD 0) db.users
      (Worker.approve t user id action db).2.users := by
  cases hrole : (user.role == "Manager" || user.role == "Admin") with
  | false =>
    rw [worker_approve_forbidden t user id action db hrole]
    exact List.forall₂_same.mpr (fun _ _ => le_refl _)
  | true =>
    cases hact : (action == some "Approved" || action == some "Rejected") with
    | false =>
      rw [worker_approve_invalid t user id action db hrole hact]
      exact List.forall₂_same.mpr (fun _ _ => le_refl _)
    | true =>
      cases hleaf : db.leaves.find? (fun l => l.id == id) with
      | none =>
        rw [worker_approve_notFound t user id action db hrole hact hleaf]
        exact List.forall₂_same.mpr (fun _ _ => le_refl _)
      | some leaf =>
        have hmem : leaf ∈ db.leaves := List.mem_of_find?_eq_some hleaf
        have hnn : 0 ≤ leaf.duration_days.getD 0 := by
          cases hd : leaf.duration_days with
          | none => simp
          | some q => simpa using worker_reachable_duration_nonNeg db h leaf hmem q hd
        refine List.Forall₂.imp ?_ (worker_approve_frame t user id action db leaf hrole hact
          hleaf).2.2
        intro u u' huu
        split at huu
        · rw [huu]
          show u.used.getD 0 ≤ (SqlNum.add u.used.coalesce0 leaf.duration_days.orZero.toSql).getD 0
          rw [SqlNum.worker_update_getD]
          linarith
        · rw [huu]

/-- In server.js a decide on a request whose stored `duration_days` is a number never lowers
a `used` that is a number, in any store reachable by submissions and decisions. -/
theorem server_approval_never_lowers_numeric_used (tz : Int) (t : String) (user : AuthUser)
    (id : Nat) (action : Option String) (db : Db) (leaf : Leave) (d : ℚ)
    (h : Server.Reachable tz db)
    (hleaf : db.leaves.find? (fun l => l.id == id) = some leaf)
    (hd : leaf.duration_days = some d) :
    List.Forall₂ (fun u u' => ∀ x, u.used = some x → ∃ x', u'.used = some x' ∧ x ≤ x')
      db.users (Server.approve t user id action db).2.users := by
  have hsame : List.Forall₂
      (fun u u' => ∀ x, u.used = some x → ∃ x', u'.used = some x' ∧ x ≤ x')
      db.users db.users :=
    List.forall₂_same.mpr (fun u _ x hx => ⟨x, hx, le_refl _⟩)
  cases hrole : (user.role == "Manager" || user.role == "Admin") with
  | false =>
    rw [server_approve_forbidden t user id action db hrole]
    exact hsame
  | true =>
    cases hact : (action == some "Approved" || action == some "Rejected") with
    | false =>
      rw [server_approve_invalid t user id action db hrole hact]
      exact hsame
    | true =>
      have hmem : leaf ∈ db.leaves := List.mem_of_find?_eq_some hleaf
      have hnn : 0 ≤ d := server_reachable_duration_nonNeg tz db h leaf hmem d hd
      refine List.Forall₂.imp ?_ (server_approve_frame t user id action db leaf hrole hact
        hleaf).2.2
      intro u u' huu x hx
      split at huu
      · rw [huu]
        refine ⟨x + d, ?_, by linarith⟩
        simp [hx, hd, SqlNum.add]
      · rw [huu]
        exact ⟨x, hx, le_refl _⟩

/-! ## Claims on the authorization gate -/

/-- C16 as stated fails on the stateless gate of server.js: a token that verifies, carrying
id 7, is resolved to that id and role although no user row has id 7; the gate of server.js
never answers 404. -/
theorem C16_server_gate_counterexample :
    Server.authMiddleware sampleVerify (some "Bearer t7") = AuthResult.ok ⟨7, "Manager"⟩ ∧
    sampleDb.users.find? (fun u => u.id == 7) = none ∧
    Server.authMiddleware sampleVerify (some "Bearer t7") ≠ AuthResult.fail 404 "User not found" := by
  decide!

/-- C16, amended: both gates answer 401 for a missing header and for a header that does not
split into exactly two space-separated parts. The session gate of worker.js then answers 401
for a token not in the session store and for one whose `expires_at` is before now, 404 for an
unexpired token whose `user_id` has no user row, and otherwise yields that user's id and
role. The stateless gate of server.js answers 401 for a token that fails verification and
otherwise yields the id and role carried in the token, without a user lookup. -/
theorem C16_authorization_gate (now : Int) (sessions : List Session) (db : Db)
    (verify : String → Option AuthUser) (h : Option String) :
    (truthy h = false →
      Worker.requireAuth now sessions db h = AuthResult.fail 401 "Missing auth token" ∧
      Server.authMiddleware verify h = AuthResult.fail 401 "Missing auth token") ∧
    (truthy h = true → (split (h.getD "") ' ').length ≠ 2 →
      Worker.requireAuth now sessions db h = AuthResult.fail 401 "Invalid auth header" ∧
      Server.authMiddleware verify h = AuthResult.fail 401 "Invalid auth header") ∧
    (∀ scheme token : String, truthy h = true → split (h.getD "") ' ' = [scheme, token] →
      (sessions.find? (fun s => s.token == token) = none →
        Worker.requireAuth now sessions db h = AuthResult.fail 401 "Invalid token") ∧
      (∀ (sess : Session) (e : String) (t : Int),
        sessions.find? (fun s => s.token == token) = some sess →
        sess.expires_at = some e → e ≠ "" → parseIsoTimestamp e = some t →
        (t < now →
          Worker.requireAuth now sessions db h = AuthResult.fail 401 "Token expired") ∧
        (now ≤ t → Worker.sessionExpired now sess = false)) ∧
      (∀ sess : Session, sessions.find? (fun s => s.token == token) = some sess →
        Worker.sessionExpired now sess = false →
        (sess.user_id.bind (fun uid => db.users.find? (fun u => u.id == uid)) = none →
          Worker.requireAuth now sessions db h = AuthResult.fail 404 "User not found") ∧
        (∀ u : User,
          sess.user_id.bind (fun uid => db.users.find? (fun u => u.id == uid)) = some u →
          Worker.requireAuth now sessions db h = AuthResult.ok ⟨u.id, u.role⟩)) ∧
      (verify token = none →
        Server.authMiddleware verify h = AuthResult.fail 401 "Invalid token") ∧
      (∀ payload : AuthUser, verify token = some payload →
        Server.authMiddleware verify h = AuthResult.ok payload)) := by
  refine ⟨fun hh => ?_, fun hh hlen => ?_, fun scheme token hh hsplit => ?_⟩
  · simp [Worker.requireAuth, Server.authMiddleware, hh]
  · have hne : ∀ a b : String, split (h.getD "") ' ' ≠ [a, b] := by
      intro a b hab
      rw [hab] at hlen
      exact hlen rfl
    constructor
    · unfold Worker.requireAuth
      rw [if_neg (by simp [hh])]
      split
      · rename_i a b hab
        exact absurd hab (hne a b)
      · rfl
    · unfold Server.authMiddleware
      rw [if_neg (by simp [hh])]
      split
      · rename_i a b hab
        exact absurd hab (hne a b)
      · rfl
  · refine ⟨fun hf => ?_, fun sess e t hf he hene hp => ⟨fun hlt => ?_, fun hle => ?_⟩,
      fun sess hf hexp => ⟨fun hu => ?_, fun u hu => ?_⟩, fun hv => ?_, fun payload hv => ?_⟩
    · simp [Worker.requireAuth, hh, hsplit, hf]
    · have hexp : Worker.sessionExpired now sess = true := by
        have ht : truthy (some e) = true := by simp [truthy, hene]
        simp only [Worker.sessionExpired, he, ht, Option.getD_some, dateGetTime, hp, JsNum.lt,
          Bool.true_and, decide_eq_true_eq]
        exact_mod_cast hlt
      simp [Worker.requireAuth, hh, hsplit, hf, hexp]
    · have ht : truthy (some e) = true := by simp [truthy, hene]
      simp only [Worker.sessionExpired, he, ht, Option.getD_some, dateGetTime, hp, JsNum.lt,
        Bool.true_and, decide_eq_false_iff_not, not_lt]
      exact_mod_cast hle
    · simp [Worker.requireAuth, hh, hsplit, hf, hexp, hu]
    · simp [Worker.requireAuth, hh, hsplit, hf, hexp, hu]
    · simp [Server.authMiddleware, hh, hsplit, hv]
    · simp [Server.authMiddleware, hh, hsplit, hv]

/-- Witness of C16 (amended): the live session of employee A resolves to A's id and role. -/
theorem C16_authorization_gate_witness :
    Worker.requireAuth sampleNow sampleSessions sampleDb (some "Bearer aaaa")
      = AuthResult.ok ⟨(⟨1, "A", "Employee", some 20, some 0⟩ : User).id,
          (⟨1, "A", "Employee", some 20, some 0⟩ : User).role⟩ :=
  (((C16_authorization_gate sampleNow sampleSessions sampleDb sampleVerify
    (some "Bearer aaaa")).2.2 "Bearer" "aaaa" (by decide) (by decide)).2.2.1
    ⟨"aaaa", some 1, some "2025-12-08T08:00:00.000Z"⟩ (by decide) (by decide!)).2
    ⟨1, "A", "Employee", some 20, some 0⟩ (by decide!)

/-! ## Claims on the CSV export -/

theorem summaryData_no_newline (db : Db)
    (hnl : ∀ u ∈ db.users, '\n' ∉ u.name.toList ∧ '\n' ∉ u.role.toList) :
    (∀ r ∈ Server.summaryData db, ∀ c ∈ r, ∀ s, c = Cell.str s → '\n' ∉ s.toList) ∧
    (∀ r ∈ Worker.summaryData db, ∀ c ∈ r, ∀ s, c = Cell.str s → '\n' ∉ s.toList) := by
  constructor
  · intro r hr c hc s hs
    unfold Server.summaryData at hr
    rcases List.mem_cons.mp hr with h | h
    · subst h hs
      simp only [List.mem_cons, Cell.str.injEq, List.mem_singleton, List.not_mem_nil,
        or_false] at hc
      rcases hc with h | h | h | h | h <;> (rw [h]; decide)
    · obtain ⟨u, hu, rfl⟩ := List.mem_map.mp h
      have hu' : u ∈ db.users := (List.mem_insertionSort _).mp hu
      subst hs
      simp only [List.mem_cons, List.mem_singleton, List.not_mem_nil, or_false] at hc
      rcases hc with h | h | h | h | h
      · rw [Cell.str.inj h]; exact (hnl u hu').1
      · rw [Cell.str.inj h]; exact (hnl u hu').2
      · cases hq : u.allocation <;> rw [hq] at h <;> cases h
      · cases hq : u.used <;> rw [hq] at h <;> cases h
      · cases h
  · intro r hr c hc s hs
    unfold Worker.summaryData at hr
    rcases List.mem_cons.mp hr with h | h
    · subst h hs
      simp only [List.mem_cons, Cell.str.injEq, List.mem_singleton, List.not_mem_nil,
        or_false] at hc
      rcases hc with h | h | h | h | h <;> (rw [h]; decide)
    · obtain ⟨u, hu, rfl⟩ := List.mem_map.mp h
      have hu' : u ∈ db.users := (List.mem_insertionSort _).mp hu
      subst hs
      simp only [List.mem_cons, List.mem_singleton, List.not_mem_nil, or_false] at hc
      rcases hc with h | h | h | h | h
      · rw [Cell.str.inj h]; exact (hnl u hu').1
      · rw [Cell.str.inj h]; exact (hnl u hu').2
      · cases hq : u.allocation <;> rw [hq] at h <;> cases h
      · cases h
      · cases h

/-- C17 as stated fails: a user name may hold a line break; with the single user `Ann\nLee`
the summary CSV splits on newline into 3 pieces, not N + 1 = 2. -/
theorem C17_newline_in_name_counterexample :
    (∃ text, Server.exportSummary "2025" managerB none newlineNameDb
        = (Response.csv "leaves_summary_2025.csv" text, newlineNameDb) ∧
      (split text '\n').length = 3) ∧
    (∃ text, Worker.exportSummary "2025" managerB none newlineNameDb
        = (Response.csv "leaves_summary_2025.csv" text, newlineNameDb) ∧
      (split text '\n').length = 3) ∧
    newlineNameDb.users.length + 1 = 2 := by
  refine ⟨⟨_, rfl, ?_⟩, ⟨_, rfl, ?_⟩, rfl⟩
  · decide!
  · decide!

/-- C17, amended: for every list of N user rows whose names and roles hold no line break, the
summary CSV of a Manager or Admin consists of exactly N + 1 lines when split on newline: the
header line and one line per user in name order, each line being its fields joined by commas,
every field wrapped in double quotes with its internal quotes doubled. -/
theorem C17_summary_csv_lines (currentYear : String) (user : AuthUser) (year : Option String)
    (db : Db) (hrole : user.role = "Manager" ∨ user.role = "Admin")
    (hnl : ∀ u ∈ db.users, '\n' ∉ u.name.toList ∧ '\n' ∉ u.role.toList) :
    (∃ fn text, Server.exportSummary currentYear user year db = (Response.csv fn text, db) ∧
      (split text '\n').length = db.users.length + 1 ∧
      split text '\n' = (Server.summaryData db).map (fun r =>
        String.intercalate "," (r.map (fun c => csvFieldSpec c.toString)))) ∧
    (∃ fn text, Worker.exportSummary currentYear user year db = (Response.csv fn text, db) ∧
      (split text '\n').length = db.users.length + 1 ∧
      split text '\n' = (Worker.summaryData db).map (fun r =>
        String.intercalate "," (r.map (fun c => csvFieldSpec c.toString)))) := by
  have hr : (user.role == "Manager" || user.role == "Admin") = true := by
    rcases hrole with h | h <;> simp [h]
  have hS := rowsToCSV_lines (Server.summaryData db) (by simp [Server.summaryData])
    (summaryData_no_newline db hnl).1
  have hW := rowsToCSV_lines (Worker.summaryData db) (by simp [Worker.summaryData])
    (summaryData_no_newline db hnl).2
  simp only [join_eq_intercalate, field_eq_csvFieldSpec] at hS hW
  have lS : (Server.summaryData db).length = db.users.length + 1 := by
    simp [Server.summaryData, orderByName, List.length_insertionSort]
  have lW : (Worker.summaryData db).length = db.users.length + 1 := by
    simp [Worker.summaryData, orderByName, List.length_insertionSort]
  refine ⟨⟨"leaves_summary_" ++ (if truthy year then year.getD "" else currentYear) ++ ".csv",
      Server.rowsToCSV (Server.summaryData db), ?_, ?_, hS⟩,
    ⟨"leaves_summary_" ++ (if truthy year then year.getD "" else currentYear) ++ ".csv",
      Server.rowsToCSV (Worker.summaryData db), ?_, ?_, hW⟩⟩
  · simp only [Server.exportSummary, hr]
    rfl
  · rw [hS, List.length_map, lS]
  · simp only [Worker.exportSummary, hr]
    rfl
  · rw [hW, List.length_map, lW]

/-- Witness of C17 (amended): manager B exports the summary of the store with employee A
and manager B. -/
theorem C17_summary_csv_lines_witness :
    ∃ fn text, Server.exportSummary "2025" managerB none approvedOnceDb
        = (Response.csv fn text, approvedOnceDb) ∧
      (split text '\n').length = approvedOnceDb.users.length + 1 ∧
      split text '\n' = (Server.summaryData approvedOnceDb).map (fun r =>
        String.intercalate "," (r.map (fun c => csvFieldSpec c.toString))) :=
  (C17_summary_csv_lines "2025" managerB none approvedOnceDb (Or.inl rfl) (by decide)).1

/-- C18: for every table, `rowsToCSV` returns the rows joined by a single newline, each row
being its fields joined by commas and each field being `String(field)` wrapped in double
quotes with every double quote inside doubled (so the field reads back to the text); no
newline is added after the last row, the text ending with the closing quote of its last
field; and server.js, worker.js and the frontend `downloadCSV` produce the same text. -/
theorem C18_rowsToCSV_format (fn : String) (rows : List (List Cell)) :
    Server.rowsToCSV rows = csvSpec rows ∧
    Worker.rowsToCSV rows = csvSpec rows ∧
    (Frontend.downloadCSV fn rows).2 = csvSpec rows ∧
    (Frontend.downloadCSV fn rows).1 = fn ∧
    (∀ s : String, ∃ inner : List Char,
      (csvFieldSpec s).toList = ('"' :: inner) ++ ['"'] ∧ unescapeQuotesChars inner = s.toList) ∧
    (∀ r : List Cell, rows.getLast? = some r → r ≠ [] →
      (Server.rowsToCSV rows).toList.getLast? = some '"') := by
  refine ⟨rowsToCSV_eq_csvSpec rows, rowsToCSV_eq_csvSpec rows, rowsToCSV_eq_csvSpec rows, rfl,
    fun s => ⟨replaceQuotesChars s.toList, ?_, unescape_replaceQuotesChars _⟩,
    fun r hlast hr => rowsToCSV_getLast rows r hlast hr⟩
  rw [← field_eq_csvFieldSpec, field_toList]

/-- Witness of C18: a table with a comma and a quote in one field. -/
theorem C18_rowsToCSV_format_witness :
    (Server.rowsToCSV [[Cell.str "Name", Cell.str "Note"],
        [Cell.str "Lee, Ann", Cell.str "said \"hi\""], [Cell.num (JsNum.fin (1 / 2))]]).toList.getLast?
      = some '"' :=
  (C18_rowsToCSV_format "raw.csv" [[Cell.str "Name", Cell.str "Note"],
    [Cell.str "Lee, Ann", Cell.str "said \"hi\""], [Cell.num (JsNum.fin (1 / 2))]]).2.2.2.2.2
    [Cell.num (JsNum.fin (1 / 2))] (by decide!) (by decide)

/-! ## Hourly durations and the substitution of default times -/

/-- Nine to half past ten with the tag Hourly: 1.5 hours, 0.162 days (1.5 / 9.25 rounded). -/
theorem hourly_example :
    Server.computeDuration 0 "2025-12-02" "2025-12-02"
        (Server.applyDefaults (some "09:00") (some "10:30") (some "Hourly"))
      = some ⟨JsNum.fin (81 / 500), JsNum.fin (3 / 2)⟩ ∧
    Worker.computeDuration "2025-12-02" "2025-12-02"
        (Worker.applyDefaults (some "09:00") (some "10:30") (some "Hourly"))
      = some ⟨JsNum.fin (81 / 500), JsNum.fin (3 / 2)⟩ := by
  decide!

/-- C21: for every same-day request whose non-empty `time_frame` is not, ignoring letter
case, am / pm / full day / fullday / full, with start minutes `a` and end minutes `b` (those
of the supplied times, a missing start counting as 08:45 = 525 and a missing end as
18:00 = 1080) and `a < b`, both backends compute `duration_hours` = `(b - a) / 60` rounded to
three decimals and `duration_days` = that rounded `duration_hours` / 9.25 rounded to three
decimals. -/
theorem C21_hourly_duration (tz : Int) (date : String) (st et : Option String) (t : String)
    (a b : ℚ) (ht : t ≠ "")
    (h1 : toLowerCase t ≠ "am") (h2 : toLowerCase t ≠ "pm") (h3 : toLowerCase t ≠ "full day")
    (h4 : toLowerCase t ≠ "fullday") (h5 : toLowerCase t ≠ "full")
    (hs : (Server.minutesOf st).getD (JsNum.fin 525) = JsNum.fin a)
    (he : (Server.minutesOf et).getD (JsNum.fin 1080) = JsNum.fin b)
    (hab : a < b) :
    ∃ h d : ℚ, RoundedTo3 h ((b - a) / 60) ∧ RoundedTo3 d (h / (37 / 4)) ∧
      Server.computeDuration tz date date (Server.applyDefaults st et (some t))
        = some ⟨JsNum.fin d, JsNum.fin h⟩ ∧
      Worker.computeDuration date date (Worker.applyDefaults st et (some t))
        = some ⟨JsNum.fin d, JsNum.fin h⟩ := by
  have hf := server_applyDefaults_unrecognized st et t ht h1 h2 h3 h4 h5
  have hsm : Server.startMinutes ⟨t, toLowerCase t, st, et⟩ = some (JsNum.fin a) := by
    cases hm : Server.minutesOf st with
    | none =>
      rw [hm] at hs
      rw [(server_startMinutes_fallback ⟨t, toLowerCase t, st, et⟩).1 hm]
      exact congrArg some hs
    | some x =>
      rw [hm] at hs
      rw [(server_startMinutes_fallback ⟨t, toLowerCase t, st, et⟩).2.1 x hm]
      exact congrArg some hs
  have hem : Server.endMinutes ⟨t, toLowerCase t, st, et⟩ = some (JsNum.fin b) := by
    cases hm : Server.minutesOf et with
    | none =>
      rw [hm] at he
      rw [(server_startMinutes_fallback ⟨t, toLowerCase t, st, et⟩).2.2.1 hm]
      exact congrArg some he
    | some x =>
      rw [hm] at he
      rw [(server_startMinutes_fallback ⟨t, toLowerCase t, st, et⟩).2.2.2 x hm]
      exact congrArg some he
  obtain ⟨h, d, hc, hr, hdr⟩ := server_hourly_duration tz date ⟨t, toLowerCase t, st, et⟩ a b
    h1 h2 h3 h4 h5 hsm hem (le_of_lt hab)
  refine ⟨h, d, hr, hdr, ?_, ?_⟩
  · rw [hf]
    exact hc
  · rw [← applyDefaults_server_eq_worker, ← computeDuration_server_eq_worker tz, hf]
    exact hc

/-- Witness of C21: nine to half past ten on 2025-12-02 with the tag Hourly. -/
theorem C21_hourly_duration_witness :
    ∃ h d : ℚ, RoundedTo3 h (((630 : ℚ) - 540) / 60) ∧ RoundedTo3 d (h / (37 / 4)) ∧
      Server.computeDuration 0 "2025-12-02" "2025-12-02"
          (Server.applyDefaults (some "09:00") (some "10:30") (some "Hourly"))
        = some ⟨JsNum.fin d, JsNum.fin h⟩ ∧
      Worker.computeDuration "2025-12-02" "2025-12-02"
          (Worker.applyDefaults (some "09:00") (some "10:30") (some "Hourly"))
        = some ⟨JsNum.fin d, JsNum.fin h⟩ :=
  C21_hourly_duration 0 "2025-12-02" (some "09:00") (some "10:30") "Hourly" 540 630
    (by decide) (by decide!) (by decide!) (by decide!) (by decide!) (by decide!)
    (by decide!) (by decide!) (by norm_num)

/-- C23: for every request with a non-empty `time_frame` `t`, in both backends: when `t`
lowercased is am, pm, or one of full day / fullday / full and at least one of `start_time`,
`end_time` is missing (absent or empty), both effective times are the defaults of the tag
(08:45-13:20, 13:30-18:00, 08:45-18:00), whatever single time was supplied; when both times
are supplied they are kept; and for any other tag the times are left as supplied. -/
theorem C23_time_frame_defaults (st et : Option String) (t : String) (ht : t ≠ "") :
    Worker.applyDefaults st et (some t) = Server.applyDefaults st et (some t) ∧
    (truthy st = false ∨ truthy et = false →
      (toLowerCase t = "am" →
        Server.applyDefaults st et (some t) = ⟨t, "am", some "08:45", some "13:20"⟩) ∧
      (toLowerCase t = "pm" →
        Server.applyDefaults st et (some t) = ⟨t, "pm", some "13:30", some "18:00"⟩) ∧
      (toLowerCase t = "full day" ∨ toLowerCase t = "fullday" ∨ toLowerCase t = "full" →
        Server.applyDefaults st et (some t)
          = ⟨t, toLowerCase t, some "08:45", some "18:00"⟩)) ∧
    (truthy st = true → truthy et = true →
      Server.applyDefaults st et (some t) = ⟨t, toLowerCase t, st, et⟩) ∧
    (toLowerCase t ≠ "am" → toLowerCase t ≠ "pm" → toLowerCase t ≠ "full day" →
      toLowerCase t ≠ "fullday" → toLowerCase t ≠ "full" →
      Server.applyDefaults st et (some t) = ⟨t, toLowerCase t, st, et⟩) :=
  ⟨(applyDefaults_server_eq_worker st et (some t)).symm,
    fun hm => server_applyDefaults_missing st et t ht hm,
    fun hs he => server_applyDefaults_supplied st et t ht hs he,
    fun h1 h2 h3 h4 h5 => server_applyDefaults_unrecognized st et t ht h1 h2 h3 h4 h5⟩

/-- Witness of C23: the tag "Am" with only a start time 09:00 supplied; the supplied time is
discarded for the AM defaults. -/
theorem C23_time_frame_defaults_witness :
    Server.applyDefaults (some "09:00") none (some "Am")
      = ⟨"Am", "am", some "08:45", some "13:20"⟩ :=
  ((C23_time_frame_defaults (some "09:00") none "Am" (by decide)).2.1 (Or.inr rfl)).1
    (by decide!)

/-! ## The listing of a manager -/

/-- The listing is an inner join of the leaves with their owners: a leave row whose `user_id`
names no user row, which no sequence of submissions and decisions produces, is not listed. -/
theorem listing_omits_ownerless_leave :
    Server.getLeaves managerB none none ownerlessDb = (Response.rows [], ownerlessDb) ∧
    Worker.getLeaves managerB none none ownerlessDb = (Response.rows [], ownerlessDb) ∧
    ¬ OwnersUnique ownerlessDb := by
  decide!

/-- C22 as stated fails for a filter given with the empty value: `GET /api/leaves?status=`
(and likewise `?year=`) by manager B on the store with A's one pending request returns that
request, though its status is not the empty text and neither date begins with it; the code
tests `if (status)` and `if (year)`, so an empty filter is no filter. -/
theorem C22_empty_filter_counterexample :
    Server.getLeaves managerB (some "") none pendingDb
      = (Response.rows [⟨pmLeave "Pending" none none, "A", "Employee"⟩], pendingDb) ∧
    Worker.getLeaves managerB (some "") none pendingDb
      = (Response.rows [⟨pmLeave "Pending" none none, "A", "Employee"⟩], pendingDb) ∧
    Server.getLeaves managerB none (some "") pendingDb
      = (Response.rows [⟨pmLeave "Pending" none none, "A", "Employee"⟩], pendingDb) ∧
    Worker.getLeaves managerB none (some "") pendingDb
      = (Response.rows [⟨pmLeave "Pending" none none, "A", "Employee"⟩], pendingDb) ∧
    OwnersUnique pendingDb ∧
    pendingDb.leaves.filter (selectedAsStated (some "") none) = [] ∧
    pendingDb.leaves.filter (selectedAsStated none (some "")) = [] := by
  decide!

/-- C22, amended: for every Manager or Admin caller and every store, both backends answer the
leave listing with the same rows `rs`, which are (up to order) exactly the rows of leaves
joined with their requester whose leave has (status filter absent, empty, or equal to
`status`) and (year filter absent, empty, or equal to the first 4 characters of `start_date`
or of `end_date`); when every leave has its one requester row, the leaves of `rs` are exactly
the leaves of the store so selected, and with no filters every leave; for filters that are
absent or non-empty the selection is the one of the claim as stated. On the store with a
pending request on 2025-12-02 and an approved one for 2026-01-05..2026-01-23, the filters
Pending and 2025 return the first alone and the filter 2026 the second alone. -/
theorem C22_manager_listing_filters (user : AuthUser) (status year : Option String) (db : Db)
    (hrole : user.role = "Manager" ∨ user.role = "Admin") :
    (∃ rs, Server.getLeaves user status year db = (Response.rows rs, db) ∧
      Worker.getLeaves user status year db = (Response.rows rs, db) ∧
      rs.Perm ((joinUsers db).filter (fun r => selectedByFilters status year r.leave)) ∧
      (OwnersUnique db →
        (rs.map (fun r => r.leave)).Perm (db.leaves.filter (selectedByFilters status year)))) ∧
    (∃ rs, Server.getLeaves user none none db = (Response.rows rs, db) ∧
      Worker.getLeaves user none none db = (Response.rows rs, db) ∧
      rs.Perm (joinUsers db) ∧
      (OwnersUnique db → (rs.map (fun r => r.leave)).Perm db.leaves)) ∧
    (status ≠ some "" → year ≠ some "" →
      ∀ l, selectedByFilters status year l = selectedAsStated status year l) ∧
    Server.getLeaves managerB (some "Pending") (some "2025") twoYearsDb
      = (Response.rows [⟨pmLeave "Pending" none none, "A", "Employee"⟩], twoYearsDb) ∧
    Worker.getLeaves managerB (some "Pending") (some "2025") twoYearsDb
      = (Response.rows [⟨pmLeave "Pending" none none, "A", "Employee"⟩], twoYearsDb) ∧
    Server.getLeaves managerB none (some "2026") twoYearsDb
      = (Response.rows [⟨fifteenDayLeave 2 "2026-01-05" "2026-01-23" "2025-11-03T09:05:00.000Z"
          "Approved" (some "2025-11-04T10:05:00.000Z") (some 2), "A", "Employee"⟩], twoYearsDb) ∧
    Worker.getLeaves managerB none (some "2026") twoYearsDb
      = (Response.rows [⟨fifteenDayLeave 2 "2026-01-05" "2026-01-23" "2025-11-03T09:05:00.000Z"
          "Approved" (some "2025-11-04T10:05:00.000Z") (some 2), "A", "Employee"⟩], twoYearsDb) := by
  have key : ∀ st yr : Option String,
      ∃ rs, Server.getLeaves user st yr db = (Response.rows rs, db) ∧
        Worker.getLeaves user st yr db = (Response.rows rs, db) ∧
        rs.Perm ((joinUsers db).filter (fun r => selectedByFilters st yr r.leave)) ∧
        (OwnersUnique db →
          (rs.map (fun r => r.leave)).Perm (db.leaves.filter (selectedByFilters st yr))) := by
    intro st yr
    refine ⟨_, server_getLeaves_manager user st yr db hrole,
      worker_getLeaves_manager user st yr db hrole, List.perm_insertionSort _ _, fun hown => ?_⟩
    rw [← joinUsers_filter_leaves db.users (fun r => selectedByFilters st yr r.leave)
      (selectedByFilters st yr) (fun _ => rfl) db.leaves hown]
    exact (List.perm_insertionSort _ _).map _
  have hnone : ∃ rs, Server.getLeaves user none none db = (Response.rows rs, db) ∧
      Worker.getLeaves user none none db = (Response.rows rs, db) ∧
      rs.Perm (joinUsers db) ∧
      (OwnersUnique db → (rs.map (fun r => r.leave)).Perm db.leaves) := by
    obtain ⟨rs, h1, h2, h3, h4⟩ := key none none
    have e1 : (joinUsers db).filter (fun r => selectedByFilters none none r.leave)
        = joinUsers db := List.filter_eq_self.mpr (fun _ _ => rfl)
    have e2 : db.leaves.filter (selectedByFilters none none) = db.leaves :=
      List.filter_eq_self.mpr (fun _ _ => rfl)
    rw [e1] at h3
    rw [e2] at h4
    exact ⟨rs, h1, h2, h3, h4⟩
  have hstated : status ≠ some "" → year ≠ some "" →
      ∀ l, selectedByFilters status year l = selectedAsStated status year l := by
    intro hs hy l
    have e1 : (status == some "") = false := by simpa using hs
    have e2 : (year == some "") = false := by simpa using hy
    simp only [selectedByFilters, selectedAsStated, e1, e2, Bool.or_false]
  exact ⟨key status year, hnone, hstated, by decide!, by decide!, by decide!, by decide!⟩

/-- Witness of C22 (amended): manager B lists the requests of status Pending and year 2025 of
the store with a pending request of 2025 and an approved one of 2026, and gets the request
of 2025 alone. -/
theorem C22_manager_listing_filters_witness :
    ∃ rs, Server.getLeaves managerB (some "Pending") (some "2025") twoYearsDb
        = (Response.rows rs, twoYearsDb) ∧
      (rs.map (fun r => r.leave)).Perm [pmLeave "Pending" none none] :=
  match (C22_manager_listing_filters managerB (some "Pending") (some "2025") twoYearsDb
    (Or.inl rfl)).1 with
  | ⟨rs, h1, _, _, h4⟩ =>
    ⟨rs, h1,
      (show twoYearsDb.leaves.filter (selectedByFilters (some "Pending") (some "2025"))
          = [pmLeave "Pending" none none] from by decide!) ▸ h4 (by decide)⟩

/-! ## The balance is not bounded by the allocation -/

/-- Both fifteen-weekday ranges of the scenario of C24 have a computed duration of 15 days
and 138.75 hours, whatever the frame. -/
theorem fifteen_weekdays (tz : Int) (f : Frame) :
    Server.computeDuration tz "2025-12-01" "2025-12-19" f
      = some ⟨JsNum.fin 15, JsNum.fin (555 / 4)⟩ ∧
    Server.computeDuration tz "2026-01-05" "2026-01-23" f
      = some ⟨JsNum.fin 15, JsNum.fin (555 / 4)⟩ := by
  have p1 : parseIsoDate "2025-12-01" = some 20423 := by decide
  have p2 : parseIsoDate "2025-12-19" = some 20441 := by decide
  have p3 : parseIsoDate "2026-01-05" = some 20458 := by decide
  have p4 : parseIsoDate "2026-01-23" = some 20476 := by decide
  have w1 : weekdaysInRange 20423 20441 = 15 := by decide
  have w2 : weekdaysInRange 20458 20476 = 15 := by decide
  have n1 : ("2025-12-01" : String) ≠ "2025-12-19" := by decide
  have n2 : ("2026-01-05" : String) ≠ "2026-01-23" := by decide
  have hh : ((JsNum.fin ((15 : ℕ) : ℚ)).mul (JsNum.fin (37 / 4))).toFixed3
      = JsNum.fin (555 / 4) := by decide!
  have h15 : JsNum.fin ((15 : ℕ) : ℚ) = JsNum.fin 15 := by decide!
  constructor
  · rw [server_computeDuration_multiDay tz _ _ f n1, server_daysBetween_eq tz _ _ _ _ p1 p2, w1,
      hh, h15]
  · rw [server_computeDuration_multiDay tz _ _ f n2, server_daysBetween_eq tz _ _ _ _ p3 p4, w2,
      hh, h15]

/-- C24: `used ≤ allocation` is not an invariant. From the store with Employee A (allocation
20, used 0) and Manager B, in both backends: A's request for 2025-12-01..2025-12-19 (15
weekdays) is accepted; A's request for 2026-01-05..2026-01-23 (15 weekdays) is accepted as
well, the first still pending; B approves the first and then the second, each time with
success; and the store reached has `used` = 30 for A, above the allocation 20. -/
theorem C24_used_exceeds_allocation (tz : Int) :
    Server.postLeaves tz "2025-11-03T09:00:00.000Z" employeeA decemberBody none sampleDb
      = (Response.leaveRequested 1, oneRequestDb) ∧
    Server.postLeaves tz "2025-11-03T09:05:00.000Z" employeeA januaryBody none oneRequestDb
      = (Response.leaveRequested 2, twoRequestsDb) ∧
    Server.approve "2025-11-04T10:00:00.000Z" managerB 1 (some "Approved") twoRequestsDb
      = (Response.actionRecorded, firstApprovedDb) ∧
    Server.approve "2025-11-04T10:05:00.000Z" managerB 2 (some "Approved") firstApprovedDb
      = (Response.actionRecorded, overdrawnDb) ∧
    Worker.postLeaves "2025-11-03T09:00:00.000Z" employeeA decemberBody none sampleDb
      = (Response.leaveRequested 1, oneRequestDb) ∧
    Worker.postLeaves "2025-11-03T09:05:00.000Z" employeeA januaryBody none oneRequestDb
      = (Response.leaveRequested 2, twoRequestsDb) ∧
    Worker.approve "2025-11-04T10:00:00.000Z" managerB 1 (some "Approved") twoRequestsDb
      = (Response.actionRecorded, firstApprovedDb) ∧
    Worker.approve "2025-11-04T10:05:00.000Z" managerB 2 (some "Approved") firstApprovedDb
      = (Response.actionRecorded, overdrawnDb) ∧
    Server.Reachable tz overdrawnDb ∧ Worker.Reachable overdrawnDb ∧
    overdrawnDb.users.find? (fun u => u.id == employeeA.id)
      = some ⟨1, "A", "Employee", some 20, some 30⟩ ∧
    (JsNum.fin 30).gt (JsNum.fin 20) = true := by
  have s1 : Server.postLeaves tz "2025-11-03T09:00:00.000Z" employeeA decemberBody none sampleDb
      = (Response.leaveRequested 1, oneRequestDb) := by
    rw [server_postLeaves_accept tz _ employeeA decemberBody none sampleDb
      ⟨JsNum.fin 15, JsNum.fin (555 / 4)⟩ ⟨1, "A", "Employee", some 20, some 0⟩
      (by decide) (by decide) (fifteen_weekdays tz _).1 (by decide) (by decide!)]
    decide!
  have s2 : Server.postLeaves tz "2025-11-03T09:05:00.000Z" employeeA januaryBody none
      oneRequestDb = (Response.leaveRequested 2, twoRequestsDb) := by
    rw [server_postLeaves_accept tz _ employeeA januaryBody none oneRequestDb
      ⟨JsNum.fin 15, JsNum.fin (555 / 4)⟩ ⟨1, "A", "Employee", some 20, some 0⟩
      (by decide) (by decide) (fifteen_weekdays tz _).2 (by decide) (by decide!)]
    decide!
  have s3 : Server.approve "2025-11-04T10:00:00.000Z" managerB 1 (some "Approved") twoRequestsDb
      = (Response.actionRecorded, firstApprovedDb) := by decide!
  have s4 : Server.approve "2025-11-04T10:05:00.000Z" managerB 2 (some "Approved")
      firstApprovedDb = (Response.actionRecorded, overdrawnDb) := by decide!
  have w1 : Worker.postLeaves "2025-11-03T09:00:00.000Z" employeeA decemberBody none sampleDb
      = (Response.leaveRequested 1, oneRequestDb) := by
    rw [← postLeaves_server_eq_worker tz]
    exact s1
  have w2 : Worker.postLeaves "2025-11-03T09:05:00.000Z" employeeA januaryBody none oneRequestDb
      = (Response.leaveRequested 2, twoRequestsDb) := by
    rw [← postLeaves_server_eq_worker tz]
    exact s2
  have w3 : Worker.approve "2025-11-04T10:00:00.000Z" managerB 1 (some "Approved") twoRequestsDb
      = (Response.actionRecorded, firstApprovedDb) := by decide!
  have w4 : Worker.approve "2025-11-04T10:05:00.000Z" managerB 2 (some "Approved")
      firstApprovedDb = (Response.actionRecorded, overdrawnDb) := by decide!
  have r0 : Server.Reachable tz sampleDb := Server.Reachable.init sampleDb rfl
  have r1 := Server.Reachable.submit sampleDb "2025-11-03T09:00:00.000Z" employeeA decemberBody
    none r0
  rw [s1] at r1
  have r2 := Server.Reachable.submit oneRequestDb "2025-11-03T09:05:00.000Z" employeeA
    januaryBody none r1
  rw [s2] at r2
  have r3 := Server.Reachable.decide twoRequestsDb "2025-11-04T10:00:00.000Z" managerB 1
    (some "Approved") r2
  rw [s3] at r3
  have r4 := Server.Reachable.decide firstApprovedDb "2025-11-04T10:05:00.000Z" managerB 2
    (some "Approved") r3
  rw [s4] at r4
  have q0 : Worker.Reachable sampleDb := Worker.Reachable.init sampleDb rfl
  have q1 := Worker.Reachable.submit sampleDb "2025-11-03T09:00:00.000Z" employeeA decemberBody
    none q0
  rw [w1] at q1
  have q2 := Worker.Reachable.submit oneRequestDb "2025-11-03T09:05:00.000Z" employeeA
    januaryBody none q1
  rw [w2] at q2
  have q3 := Worker.Reachable.decide twoRequestsDb "2025-11-04T10:00:00.000Z" managerB 1
    (some "Approved") q2
  rw [w3] at q3
  have q4 := Worker.Reachable.decide firstApprovedDb "2025-11-04T10:05:00.000Z" managerB 2
    (some "Approved") q3
  rw [w4] at q4
  exact ⟨s1, s2, s3, s4, w1, w2, w3, w4, r4, q4, by decide!, by decide!⟩

end LMS
